import Mathlib

/-!
# Robot arena: a shallow embedding of `Arena.cpp`

The simulation engine of the repository (`src/Arena.cpp`, `src/Arena.h`) is
embedded as pure functions on an explicit `Arena` state.

* C++ `int` is `Int` (the engine's values stay far from the machine limits).
* `m_board` (a `vector<vector<char>>` of `m_rows` by `m_cols`) is a function
  from coordinates to markers; the engine reads and writes it only at
  coordinates it has checked with `is_valid_position`, or that come from an
  agent's recorded position or an in-range random draw.
* The random generator and the agents' decision modules are inputs: each
  operation takes the draws and the decisions it consumes as arguments.
* Console output and pacing delays are dropped.
* Of the agents, only the aiming rule of `src/Robot_Garrett.cpp` is embedded
  (`Garrett_Robot.get_shot_location`).
-/

namespace RobotArena

/-! ## Data model (`Arena.h`) -/

/-- `CellType::EMPTY`. -/
def EMPTY : Char := '.'
/-- `CellType::DEAD_ROBOT`. -/
def DEAD_ROBOT : Char := 'X'
/-- `CellType::MOUND`. -/
def MOUND : Char := 'M'
/-- `CellType::PIT`. -/
def PIT : Char := 'P'
/-- `CellType::FLAMETHROWER`. -/
def FLAMETHROWER : Char := 'F'

/-- `Arena::ROBOT_SYMBOLS`, the string "!@#$%^&*+=?" as a list of characters. -/
def ROBOT_SYMBOLS : List Char := ['!', '@', '#', '$', '%', '^', '&', '*', '+', '=', '?']

/-- Modelled from the spec: the weapon archetypes of `RobotBase.h` (short-range
melee, burst cone, piercing beam, area burst), under the names `Arena.cpp`
switches on. -/
inductive WeaponType where
  | flamethrower
  | railgun
  | grenade
  | hammer
deriving DecidableEq

/-- Modelled from the spec: the engine-visible part of `RobotBase` (declared in
`RobotBase.h`, which is not among the sources): display symbol, recorded
position, health, armor, move speed, weapon and grenade count. -/
structure RobotBase where
  m_character : Char
  m_location_row : Int
  m_location_col : Int
  m_health : Int
  m_armor : Int
  m_move : Int
  m_weapon : WeaponType
  m_grenades : Int
deriving DecidableEq

/-- Modelled from the spec: `RadarObj` (declared in `RadarObj.h`), the sighting
triple (marker, row, col) built by `results.emplace_back(cell, row, col)`. -/
structure RadarObj where
  m_type : Char
  m_row : Int
  m_col : Int
deriving DecidableEq

/-- `struct RobotInfo` without the library handle. -/
structure RobotInfo where
  robot : RobotBase
  is_alive : Bool
  in_pit : Bool
  stuck_count : Int
  pit_turns : Int
deriving DecidableEq

instance : Inhabited RobotInfo :=
  ⟨⟨⟨'R', 0, 0, 0, 0, 0, WeaponType.hammer, 0⟩, false, false, 0, 0⟩⟩

/-- `class Arena`: the private members. `m_robot_symbol_to_index` (a
`std::map<char, int>`) is an association list whose first match wins, so that
`map[k] = v` is a cons. -/
structure Arena where
  m_rows : Int
  m_cols : Int
  m_board : Int → Int → Char
  m_robots : List RobotInfo
  m_robot_symbol_to_index : List (Char × Nat)
  m_round : Int
  m_alive_count : Int
  m_max_rounds : Int

/-- Modelled from the spec: the direction table `directions` of `RobotBase.h`,
1 = N, then clockwise; 0 is the sentinel "no direction". The table has nine
entries; any other index is outside the array and is given the sentinel's
vector here. -/
def directions (d : Int) : Int × Int :=
  if d = 1 then (-1, 0)
  else if d = 2 then (-1, 1)
  else if d = 3 then (0, 1)
  else if d = 4 then (1, 1)
  else if d = 5 then (1, 0)
  else if d = 6 then (1, -1)
  else if d = 7 then (0, -1)
  else if d = 8 then (-1, -1)
  else (0, 0)

/-! ## `RobotBase` operations used by the engine -/

namespace RobotBase

/-- Modelled from the spec: `RobotBase::get_armor`, the armor remaining. -/
def get_armor (rb : RobotBase) : Int := rb.m_armor

/-- Modelled from the spec: `RobotBase::get_health`. -/
def get_health (rb : RobotBase) : Int := rb.m_health

/-- Modelled from the spec: `RobotBase::get_move_speed`, the configured move
speed. -/
def get_move_speed (rb : RobotBase) : Int := rb.m_move

/-- Modelled from the spec: `RobotBase::get_grenades`, the ammunition
remaining. -/
def get_grenades (rb : RobotBase) : Int := rb.m_grenades

/-- Modelled from the spec: `RobotBase::get_weapon`. -/
def get_weapon (rb : RobotBase) : WeaponType := rb.m_weapon

/-- Modelled from the spec: `RobotBase::reduce_armor`, "one armor unit is
consumed". -/
def reduce_armor (rb : RobotBase) (amount : Int) : RobotBase :=
  { rb with m_armor := rb.m_armor - amount }

/-- Modelled from the spec: `RobotBase::take_damage`, "remaining health is
decremented"; the remaining health is returned with the updated record. -/
def take_damage (rb : RobotBase) (damage : Int) : Int × RobotBase :=
  (rb.m_health - damage, { rb with m_health := rb.m_health - damage })

/-- Modelled from the spec: `RobotBase::move_to`, which records the position
(the position is "exclusively owned by the Agent record"). The engine calls it
with in-bounds coordinates only. -/
def move_to (rb : RobotBase) (row col : Int) : RobotBase :=
  { rb with m_location_row := row, m_location_col := col }

/-- Modelled from the spec: `RobotBase::disable_movement`, which "disables the
agent's ability to initiate movement": the move speed drops to 0. -/
def disable_movement (rb : RobotBase) : RobotBase :=
  { rb with m_move := 0 }

/-- Modelled from the spec: `RobotBase::decrement_grenades`, ammunition is
"decremented by the engine only when a shot using that resource actually
fires". -/
def decrement_grenades (rb : RobotBase) : RobotBase :=
  { rb with m_grenades := rb.m_grenades - 1 }

end RobotBase

/-! ## Board utilities -/

/-- The assignment `m_board[r][c] = v`. -/
def setCell (b : Int → Int → Char) (r c : Int) (v : Char) : Int → Int → Char :=
  fun r' c' => if r' = r ∧ c' = c then v else b r' c'

/-- The read `m_robots[i]`. -/
def getRobot (a : Arena) (i : Nat) : RobotInfo := a.m_robots.getD i default

/-- The write `m_robots[i] = info`. -/
def setRobot (a : Arena) (i : Nat) (info : RobotInfo) : Arena :=
  { a with m_robots := a.m_robots.set i info }

/-- `Arena::is_valid_position`. -/
def is_valid_position (a : Arena) (row col : Int) : Bool :=
  decide (0 ≤ row) && decide (row < a.m_rows) && decide (0 ≤ col) && decide (col < a.m_cols)

/-- `Arena::get_robot_at`; `none` stands for the return value -1. -/
def get_robot_at (a : Arena) (row col : Int) : Option Nat :=
  if ¬ is_valid_position a row col then none
  else a.m_robot_symbol_to_index.lookup (a.m_board row col)

/-- `Arena::clear_robot_from_board`. -/
def clear_robot_from_board (a : Arena) (robot_index : Nat) : Arena :=
  let rb := (getRobot a robot_index).robot
  let row := rb.m_location_row
  let col := rb.m_location_col
  if is_valid_position a row col then
    if a.m_board row col = rb.m_character then
      { a with m_board := setCell a.m_board row col EMPTY }
    else a
  else a

/-- `Arena::place_robot_on_board`. -/
def place_robot_on_board (a : Arena) (robot_index : Nat) (row col : Int) : Arena :=
  if is_valid_position a row col then
    { a with m_board := setCell a.m_board row col (getRobot a robot_index).robot.m_character }
  else a

/-! ## Damage and movement -/

/-- `Arena::apply_damage`. -/
def apply_damage (a : Arena) (robot_index : Nat) (damage : Int) : Arena :=
  let info := getRobot a robot_index
  let armored := decide (info.robot.get_armor > 0)
  let rb1 := if armored then info.robot.reduce_armor 1 else info.robot
  let damage1 := if armored then damage - 3 else damage
  let hit := rb1.take_damage damage1
  let remaining_health := hit.1
  let rb2 := hit.2
  if remaining_health ≤ 0 then
    { a with
      m_robots := a.m_robots.set robot_index { info with robot := rb2, is_alive := false }
      m_alive_count := a.m_alive_count - 1
      m_board := setCell a.m_board rb2.m_location_row rb2.m_location_col DEAD_ROBOT }
  else
    { a with m_robots := a.m_robots.set robot_index { info with robot := rb2 } }

/-- `Arena::can_move_to`. -/
def can_move_to (a : Arena) (row col : Int) : Bool :=
  if ¬ is_valid_position a row col then false
  else
    let cell := a.m_board row col
    if cell = MOUND then false
    else if cell = '!' ∨ cell = '@' then false
    else true

/-- `Arena::check_obstacle_effects`. -/
def check_obstacle_effects (a : Arena) (robot_index : Nat) (row col : Int) : Arena :=
  let cell := a.m_board row col
  let info := getRobot a robot_index
  if cell = PIT then
    setRobot a robot_index { info with in_pit := true, robot := info.robot.disable_movement }
  else if cell = FLAMETHROWER then
    apply_damage a robot_index 15
  else a

/-- `Arena::move_robot`; the Boolean is the return value. -/
def move_robot (a : Arena) (robot_index : Nat) (new_row new_col : Int) : Bool × Arena :=
  if ¬ can_move_to a new_row new_col then (false, a)
  else
    let a1 := clear_robot_from_board a robot_index
    let info := getRobot a1 robot_index
    let a2 := setRobot a1 robot_index { info with robot := info.robot.move_to new_row new_col }
    let a3 := check_obstacle_effects a2 robot_index new_row new_col
    let a4 := place_robot_on_board a3 robot_index new_row new_col
    (true, a4)

/-! ## Radar -/

/-- The `for (dist = 1; dist <= range; dist++)` loop of `Arena::scan_radar`,
entered at `dist` with `n` iterations left. -/
def scan_radar_loop (a : Arena) (row col dr dc : Int) : Nat → Int → List RadarObj
  | 0, _ => []
  | n + 1, dist =>
    let check_row := row + dr * dist
    let check_col := col + dc * dist
    if ¬ is_valid_position a check_row check_col then []
    else
      let cell := a.m_board check_row check_col
      if cell ≠ EMPTY then [⟨cell, check_row, check_col⟩]
      else scan_radar_loop a row col dr dc n (dist + 1)

/-- `Arena::scan_radar`. -/
def scan_radar (a : Arena) (row col direction range : Int) : List RadarObj :=
  scan_radar_loop a row col (directions direction).1 (directions direction).2 range.toNat 1

/-- `Arena::handle_radar`: the list `all_results` handed to
`process_radar_results`; the scan uses the default range 5 of `Arena.h`. -/
def handle_radar (a : Arena) (robot_index : Nat) : List RadarObj :=
  let rb := (getRobot a robot_index).robot
  ([1, 2, 3, 4, 5, 6, 7, 8] : List Int).flatMap
    (fun direction => scan_radar a rb.m_location_row rb.m_location_col direction 5)

/-! ## Weapons -/

/-- The body of the hit loops: `if (is_valid_position) { target = get_robot_at;
if (target >= 0) apply_damage }`. -/
def hit_cell (a : Arena) (hit_row hit_col damage : Int) : Arena :=
  if is_valid_position a hit_row hit_col then
    match get_robot_at a hit_row hit_col with
    | some target => apply_damage a target damage
    | none => a
  else a

/-- The cells `Arena::shoot_flamethrower` examines, in the order of its two
loops (`dist` 1..4 outside, `offset` -1..1 inside). -/
def flamethrower_cells (shooter_row shooter_col direction : Int) : List (Int × Int) :=
  let dr := (directions direction).1
  let dc := (directions direction).2
  ([1, 2, 3, 4] : List Int).flatMap (fun dist =>
    ([-1, 0, 1] : List Int).map (fun offset =>
      (shooter_row + dr * dist + dc * offset, shooter_col + dc * dist + dr * offset)))

/-- `Arena::shoot_flamethrower`. -/
def shoot_flamethrower (a : Arena) (shooter_row shooter_col direction : Int) : Arena :=
  (flamethrower_cells shooter_row shooter_col direction).foldl
    (fun s cell => hit_cell s cell.1 cell.2 15) a

/-- The `while (is_valid_position(current_row, current_col))` loop of
`Arena::shoot_railgun` with `fuel` iterations allowed; `none` when the loop is
still running after them. -/
def shoot_railgun_loop (dr dc : Int) : Nat → Arena → Int → Int → Option Arena
  | 0, a, current_row, current_col =>
    if is_valid_position a current_row current_col then none else some a
  | fuel + 1, a, current_row, current_col =>
    if is_valid_position a current_row current_col then
      let a1 := match get_robot_at a current_row current_col with
        | some target => apply_damage a target 12
        | none => a
      shoot_railgun_loop dr dc fuel a1 (current_row + dr) (current_col + dc)
    else some a

/-- `Arena::shoot_railgun`. -/
def shoot_railgun (fuel : Nat) (a : Arena) (shooter_row shooter_col direction : Int) :
    Option Arena :=
  let dr := (directions direction).1
  let dc := (directions direction).2
  shoot_railgun_loop dr dc fuel a (shooter_row + dr) (shooter_col + dc)

/-- The cells `Arena::shoot_grenade` examines, in loop order. -/
def grenade_cells (target_row target_col : Int) : List (Int × Int) :=
  ([-1, 0, 1] : List Int).flatMap (fun dr =>
    ([-1, 0, 1] : List Int).map (fun dc => (target_row + dr, target_col + dc)))

/-- `Arena::shoot_grenade`. -/
def shoot_grenade (a : Arena) (target_row target_col : Int) : Arena :=
  (grenade_cells target_row target_col).foldl (fun s cell => hit_cell s cell.1 cell.2 20) a

/-- `Arena::shoot_hammer`. -/
def shoot_hammer (a : Arena) (shooter_row shooter_col direction : Int) : Arena :=
  hit_cell a (shooter_row + (directions direction).1) (shooter_col + (directions direction).2) 25

/-- The direction search shared by three cases of `Arena::handle_shooting`:
the first `i` in 1..8 with `directions[i] == (dr, dc)`, else 0. -/
def find_direction (dr dc : Int) : Int :=
  match ([1, 2, 3, 4, 5, 6, 7, 8] : List Int).find? (fun i => decide (directions i = (dr, dc))) with
  | some i => i
  | none => 0

/-- The sign comparison `(t > s) ? 1 : (t < s) ? -1 : 0` of
`Arena::handle_shooting`. -/
def aim_sign (target shooter : Int) : Int :=
  if target > shooter then 1 else if target < shooter then -1 else 0

/-- `Arena::handle_shooting`; `shot` is the answer of `get_shot_location`
(`none`: the agent declines), `fuel` bounds the railgun loop. -/
def handle_shooting (fuel : Nat) (a : Arena) (robot_index : Nat) (shot : Option (Int × Int)) :
    Option Arena :=
  match shot with
  | none => some a
  | some (shot_row, shot_col) =>
    let info := getRobot a robot_index
    let robot_row := info.robot.m_location_row
    let robot_col := info.robot.m_location_col
    let direction := find_direction (aim_sign shot_row robot_row) (aim_sign shot_col robot_col)
    match info.robot.get_weapon with
    | WeaponType.flamethrower => some (shoot_flamethrower a robot_row robot_col direction)
    | WeaponType.railgun => shoot_railgun fuel a robot_row robot_col direction
    | WeaponType.grenade =>
      if info.robot.get_grenades > 0 then
        let a1 := shoot_grenade a shot_row shot_col
        let info1 := getRobot a1 robot_index
        some (setRobot a1 robot_index { info1 with robot := info1.robot.decrement_grenades })
      else some a
    | WeaponType.hammer => some (shoot_hammer a robot_row robot_col direction)

/-! ## Movement helpers -/

/-- The inner loop `for (int dir : try_order)` of
`Arena::try_multiple_directions` at distance `dist`, from the position
`(current_row, current_col)` read at the start of the call. -/
def try_directions_at (robot_index : Nat) (current_row current_col dist : Int) :
    List Int → Arena → Bool × Arena
  | [], a => (false, a)
  | dir :: rest, a =>
    let res := move_robot a robot_index
      (current_row + (directions dir).1 * dist) (current_col + (directions dir).2 * dist)
    if res.1 then (true, res.2)
    else try_directions_at robot_index current_row current_col dist rest res.2

/-- The outer loop `for (dist = distance; dist >= 1; dist--)` of
`Arena::try_multiple_directions`, entered at `dist` with `n` iterations left. -/
def try_distances (robot_index : Nat) (current_row current_col : Int) (try_order : List Int) :
    Nat → Int → Arena → Bool × Arena
  | 0, _, a => (false, a)
  | n + 1, dist, a =>
    let res := try_directions_at robot_index current_row current_col dist try_order a
    if res.1 then res
    else try_distances robot_index current_row current_col try_order n (dist - 1) res.2

/-- The vector `try_order` built by `Arena::try_multiple_directions`. -/
def try_order (preferred_direction : Int) : List Int :=
  let left := if preferred_direction = 1 then 8 else preferred_direction - 1
  let right := if preferred_direction = 8 then 1 else preferred_direction + 1
  [preferred_direction, left, right] ++
    ([1, 2, 3, 4, 5, 6, 7, 8] : List Int).filter
      (fun dir => decide (dir ≠ preferred_direction ∧ dir ≠ left ∧ dir ≠ right))

/-- `Arena::try_multiple_directions`; `all_dirs` is the vector {1..8} as
`std::shuffle` left it. -/
def try_multiple_directions (a : Arena) (robot_index : Nat) (preferred_direction distance : Int)
    (all_dirs : List Int) : Bool × Arena :=
  let rb := (getRobot a robot_index).robot
  let current_row := rb.m_location_row
  let current_col := rb.m_location_col
  let res := try_distances robot_index current_row current_col (try_order preferred_direction)
    distance.toNat distance a
  if res.1 then res
  else try_directions_at robot_index current_row current_col 1 all_dirs res.2

/-- The candidate cell of attempt `attempt` in `Arena::handle_stuck_robot`,
from the two draws `row_dist(gen)`, `col_dist(gen)` of that attempt. -/
def stuck_candidate (a : Arena) (attempt : Nat) (draw : Int × Int) : Int × Int :=
  let center_row := a.m_rows / 2
  let center_col := a.m_cols / 2
  let center_range := a.m_rows / 3
  if attempt < 50 then
    let r := center_row + draw.1 % (2 * center_range + 1) - center_range
    let c := center_col + draw.2 % (2 * center_range + 1) - center_range
    (max 0 (min (a.m_rows - 1) r), max 0 (min (a.m_cols - 1) c))
  else draw

/-- The loop `for (attempt = 0; attempt < 100; attempt++)` of
`Arena::handle_stuck_robot`, entered at `attempt` with `n` iterations left. -/
def stuck_loop (robot_index : Nat) (draws : Nat → Int × Int) : Nat → Nat → Arena → Arena
  | 0, _, a =>
    setRobot a robot_index { getRobot a robot_index with stuck_count := 0 }
  | n + 1, attempt, a =>
    let cand := stuck_candidate a attempt (draws attempt)
    if a.m_board cand.1 cand.2 = EMPTY then
      let info := getRobot a robot_index
      let a1 := setRobot a robot_index { info with robot := info.robot.move_to cand.1 cand.2 }
      let a2 := place_robot_on_board a1 robot_index cand.1 cand.2
      setRobot a2 robot_index { getRobot a2 robot_index with stuck_count := 0 }
    else stuck_loop robot_index draws n (attempt + 1) a

/-- `Arena::handle_stuck_robot`; `draws attempt` are the two random draws of
that attempt. -/
def handle_stuck_robot (a : Arena) (robot_index : Nat) (draws : Nat → Int × Int) : Arena :=
  stuck_loop robot_index draws 100 0 (clear_robot_from_board a robot_index)

/-- The loop over the shuffled `escape_dirs` of `Arena::handle_pit_escape`;
`none` when no adjacent cell passes `can_move_to`. -/
def escape_adjacent (robot_index : Nat) (current_row current_col : Int) :
    List Int → Arena → Option Arena
  | [], _ => none
  | dir :: rest, a =>
    let new_row := current_row + (directions dir).1
    let new_col := current_col + (directions dir).2
    if can_move_to a new_row new_col then
      let a1 := clear_robot_from_board a robot_index
      let info := getRobot a1 robot_index
      let a2 := setRobot a1 robot_index { info with robot := info.robot.move_to new_row new_col }
      let a3 := place_robot_on_board a2 robot_index new_row new_col
      some (setRobot a3 robot_index { getRobot a3 robot_index with in_pit := false })
    else escape_adjacent robot_index current_row current_col rest a

/-- The loop `for (attempt = 0; attempt < 50; attempt++)` of
`Arena::handle_pit_escape`, entered at `attempt` with `n` iterations left. -/
def escape_teleport (robot_index : Nat) (draws : Nat → Int × Int) : Nat → Nat → Arena → Arena
  | 0, _, a => a
  | n + 1, attempt, a =>
    let r := (draws attempt).1
    let c := (draws attempt).2
    if a.m_board r c = EMPTY then
      let a1 := clear_robot_from_board a robot_index
      let info := getRobot a1 robot_index
      let a2 := setRobot a1 robot_index { info with robot := info.robot.move_to r c }
      let a3 := place_robot_on_board a2 robot_index r c
      setRobot a3 robot_index { getRobot a3 robot_index with in_pit := false }
    else escape_teleport robot_index draws n (attempt + 1) a

/-- `Arena::handle_pit_escape`; `escape_dirs` is the shuffled vector {1..8},
`draws attempt` the two draws of that teleport attempt. -/
def handle_pit_escape (a : Arena) (robot_index : Nat) (escape_dirs : List Int)
    (draws : Nat → Int × Int) : Arena :=
  let rb := (getRobot a robot_index).robot
  match escape_adjacent robot_index rb.m_location_row rb.m_location_col escape_dirs a with
  | some a1 => a1
  | none => escape_teleport robot_index draws 50 0 a

/-- What one turn consumes from outside the engine: the agent's movement
directive and attack directive, and the outcomes of the random shuffles and
draws. -/
structure TurnInput where
  move_direction : Int
  move_distance : Int
  shot : Option (Int × Int)
  all_dirs : List Int
  stuck_draws : Nat → Int × Int
  escape_dirs : List Int
  escape_draws : Nat → Int × Int

/-- `Arena::handle_movement`. -/
def handle_movement (a : Arena) (robot_index : Nat) (inp : TurnInput) : Arena :=
  let direction := inp.move_direction
  if direction = 0 ∨ inp.move_distance = 0 then a
  else
    let rb := (getRobot a robot_index).robot
    let current_row := rb.m_location_row
    let current_col := rb.m_location_col
    let distance := min inp.move_distance rb.get_move_speed
    let new_row := current_row + (directions direction).1 * distance
    let new_col := current_col + (directions direction).2 * distance
    let res := move_robot a robot_index new_row new_col
    let res1 :=
      if ¬ res.1 then
        let res2 := try_multiple_directions res.2 robot_index direction distance inp.all_dirs
        if ¬ res2.1 then
          let a3 := setRobot res2.2 robot_index
            { getRobot res2.2 robot_index with
              stuck_count := (getRobot res2.2 robot_index).stuck_count + 1 }
          if (getRobot a3 robot_index).stuck_count ≥ 1 then
            (true, handle_stuck_robot a3 robot_index inp.stuck_draws)
          else (false, a3)
        else res2
      else res
    if res1.1 then
      setRobot res1.2 robot_index { getRobot res1.2 robot_index with stuck_count := 0 }
    else res1.2

/-- `Arena::robot_turn`: radar (no effect on the engine's state), then movement
or the pit timer, then shooting. `fuel` bounds the railgun loop; `none` when
that loop is still running after `fuel` iterations. -/
def robot_turn (fuel : Nat) (a : Arena) (robot_index : Nat) (inp : TurnInput) : Option Arena :=
  let info := getRobot a robot_index
  let a1 :=
    if ¬ info.in_pit then handle_movement a robot_index inp
    else
      let a2 := setRobot a robot_index { info with pit_turns := info.pit_turns + 1 }
      if (getRobot a2 robot_index).pit_turns ≥ 5 then
        let a3 := handle_pit_escape a2 robot_index inp.escape_dirs inp.escape_draws
        setRobot a3 robot_index { getRobot a3 robot_index with pit_turns := 0 }
      else a2
  handle_shooting fuel a1 robot_index inp.shot

/-- The loop `for (i = 0; i < m_robots.size(); i++)` of `Arena::run_round`,
entered at `i` with `n` iterations left; `inputs i` is what the turn of agent
`i` consumes. -/
def run_round_loop (fuel : Nat) (inputs : Nat → TurnInput) : Nat → Nat → Arena → Option Arena
  | 0, _, a => some a
  | n + 1, i, a =>
    if (getRobot a i).is_alive then
      match robot_turn fuel a i (inputs i) with
      | some a1 => run_round_loop fuel inputs n (i + 1) a1
      | none => none
    else run_round_loop fuel inputs n (i + 1) a

/-- `Arena::run_round` (display and delay dropped). -/
def run_round (fuel : Nat) (a : Arena) (inputs : Nat → TurnInput) : Option Arena :=
  run_round_loop fuel inputs a.m_robots.length 0 a

/-! ## Loading and set-up -/

/-- The constructor `Arena::Arena(rows, cols)`. -/
def Arena.new (rows cols : Int) : Arena :=
  { m_rows := rows, m_cols := cols, m_board := fun _ _ => EMPTY, m_robots := [],
    m_robot_symbol_to_index := [], m_round := 0, m_alive_count := 0, m_max_rounds := 1000 }

/-- The lambda `count_open_neighbors` of `Arena::place_robot`. -/
def count_open_neighbors (a : Arena) (r c : Int) : Nat :=
  (([-1, 0, 1] : List Int).flatMap (fun dr => ([-1, 0, 1] : List Int).map (fun dc => (dr, dc)))
    |>.filter (fun d => decide (¬ (d.1 = 0 ∧ d.2 = 0)) &&
        is_valid_position a (r + d.1) (c + d.2) && decide (a.m_board (r + d.1) (c + d.2) = EMPTY))
    ).length

/-- The move-and-mark step shared by both loops of `Arena::place_robot`. -/
def put_robot (a : Arena) (robot_index : Nat) (r c : Int) : Arena :=
  let info := getRobot a robot_index
  let a1 := setRobot a robot_index { info with robot := info.robot.move_to r c }
  { a1 with m_board := setCell a1.m_board r c (getRobot a1 robot_index).robot.m_character }

/-- The fallback loop of `Arena::place_robot` (50 attempts, any empty cell). -/
def place_robot_fallback (robot_index : Nat) (draws : Nat → Int × Int) :
    Nat → Nat → Arena → Bool × Arena
  | 0, _, a => (false, a)
  | n + 1, attempt, a =>
    let rc := draws (150 + attempt)
    if a.m_board rc.1 rc.2 = EMPTY then (true, put_robot a robot_index rc.1 rc.2)
    else place_robot_fallback robot_index draws n (attempt + 1) a

/-- The first loop of `Arena::place_robot` (150 attempts, an empty cell with at
least 3 open neighbours), followed by the fallback loop. -/
def place_robot_loop (robot_index : Nat) (draws : Nat → Int × Int) :
    Nat → Nat → Arena → Bool × Arena
  | 0, _, a => place_robot_fallback robot_index draws 50 0 a
  | n + 1, attempt, a =>
    let rc := draws attempt
    if a.m_board rc.1 rc.2 = EMPTY ∧ count_open_neighbors a rc.1 rc.2 ≥ 3 then
      (true, put_robot a robot_index rc.1 rc.2)
    else place_robot_loop robot_index draws n (attempt + 1) a

/-- `Arena::place_robot`; `draws k` are the two draws of the k-th attempt
(0..149 in the first loop, 150..199 in the fallback). -/
def place_robot (a : Arena) (robot_index : Nat) (draws : Nat → Int × Int) : Bool × Arena :=
  place_robot_loop robot_index draws 150 0 a

/-- `Arena::load_robot_library` once the library is open and the factory has
returned `robot`: symbol assignment, registration, placement. -/
def load_robot_library (a : Arena) (robot : RobotBase) (draws : Nat → Int × Int) :
    Bool × Arena :=
  let robot_index := a.m_robots.length
  let robot1 :=
    if robot_index < ROBOT_SYMBOLS.length then
      { robot with m_character := ROBOT_SYMBOLS.getD robot_index robot.m_character }
    else robot
  let info : RobotInfo :=
    { robot := robot1, is_alive := true, in_pit := false, stuck_count := 0, pit_turns := 0 }
  let a1 : Arena :=
    { a with
      m_robots := a.m_robots ++ [info]
      m_robot_symbol_to_index := (robot1.m_character, robot_index) :: a.m_robot_symbol_to_index }
  place_robot a1 robot_index draws

/-- `Arena::load_robots` over the agent modules that compiled and opened, each
with the record its factory returns and the draws of its placement. -/
def load_robots (a : Arena) (modules : List (RobotBase × (Nat → Int × Int))) : Bool × Arena :=
  let a1 := modules.foldl (fun s m => (load_robot_library s m.1 m.2).2) a
  (decide (a1.m_robots.length > 0), { a1 with m_alive_count := a1.m_robots.length })

/-- One obstacle of `Arena::place_obstacles`: up to `n` attempts, the marker is
written at the first drawn cell that is empty. -/
def place_obstacle (kind : Char) (draws : Nat → Int × Int) :
    Nat → Nat → (Int → Int → Char) → (Int → Int → Char)
  | 0, _, b => b
  | n + 1, attempt, b =>
    let rc := draws attempt
    if b rc.1 rc.2 = EMPTY then setCell b rc.1 rc.2 kind
    else place_obstacle kind draws n (attempt + 1) b

/-- One of the three placement loops of `Arena::place_obstacles`: `n` obstacles
of one kind, 20 attempts each, starting at obstacle number `i`. -/
def place_obstacle_kind (kind : Char) (draws : Nat → Nat → Int × Int) :
    Nat → Nat → (Int → Int → Char) → (Int → Int → Char)
  | 0, _, b => b
  | n + 1, i, b => place_obstacle_kind kind draws n (i + 1) (place_obstacle kind (draws i) 20 0 b)

/-- The random outcomes `Arena::place_obstacles` consumes: the three counts and,
for obstacle `i` and attempt `k`, the drawn cell. -/
structure ObstacleDraws where
  flame_count : Int
  flame_cells : Nat → Nat → Int × Int
  pit_count : Int
  pit_cells : Nat → Nat → Int × Int
  mound_count : Int
  mound_cells : Nat → Nat → Int × Int

/-- `Arena::place_obstacles`. -/
def place_obstacles (a : Arena) (d : ObstacleDraws) : Arena :=
  let b1 := place_obstacle_kind FLAMETHROWER d.flame_cells d.flame_count.toNat 0 a.m_board
  let b2 := place_obstacle_kind PIT d.pit_cells d.pit_count.toNat 0 b1
  let b3 := place_obstacle_kind MOUND d.mound_cells d.mound_count.toNat 0 b2
  { a with m_board := b3 }

/-- `Arena::initialize_board`. -/
def initialize_board (a : Arena) (d : ObstacleDraws) : Arena :=
  let a1 := place_obstacles { a with m_board := fun _ _ => EMPTY } d
  let b := a1.m_robots.foldl
    (fun b info =>
      if info.is_alive then
        setCell b info.robot.m_location_row info.robot.m_location_col info.robot.m_character
      else b)
    a1.m_board
  { a1 with m_board := b }

/-! ## Match controller -/

/-- `Arena::is_game_over`. -/
def is_game_over (a : Arena) : Bool :=
  decide (a.m_alive_count ≤ 1) || decide (a.m_round ≥ a.m_max_rounds)

/-- The loop of `Arena::get_winner` over the records from index `i` on. -/
def get_winner_from : Nat → List RobotInfo → Option Nat
  | _, [] => none
  | i, info :: rest => if info.is_alive then some i else get_winner_from (i + 1) rest

/-- `Arena::get_winner`; `none` stands for the return value -1. -/
def get_winner (a : Arena) : Option Nat := get_winner_from 0 a.m_robots

/-- What `Arena::announce_winner` reports: the survivors after a timeout, the
winner, or that there is none. -/
inductive Outcome where
  | timeout (survivors : List Nat)
  | winner (index : Nat)
  | no_winner
deriving DecidableEq

/-- `Arena::announce_winner`, as the outcome it prints. -/
def announce_winner (a : Arena) : Outcome :=
  if a.m_round ≥ a.m_max_rounds then
    Outcome.timeout
      ((List.range a.m_robots.length).filter (fun i => (getRobot a i).is_alive))
  else
    match get_winner a with
    | some w => Outcome.winner w
    | none => Outcome.no_winner

/-- The loop `while (!is_game_over()) { run_round(); m_round++; }` of
`Arena::run_game` with `n` iterations allowed, entered at its `k`-th iteration;
`inputs k` is what round `k` consumes. `none` when a round does not return or
the loop is still running after `n` iterations. -/
def run_game_loop (fuel : Nat) (inputs : Nat → Nat → TurnInput) : Nat → Nat → Arena → Option Arena
  | 0, _, a => if is_game_over a then some a else none
  | n + 1, k, a =>
    if is_game_over a then some a
    else
      match run_round fuel a (inputs k) with
      | some a1 => run_game_loop fuel inputs n (k + 1) { a1 with m_round := a1.m_round + 1 }
      | none => none

/-- `Arena::run_game`: the final state and the announced outcome. -/
def run_game (fuel rounds : Nat) (a : Arena) (d : ObstacleDraws)
    (inputs : Nat → Nat → TurnInput) : Option (Arena × Outcome) :=
  (run_game_loop fuel inputs rounds 0 (initialize_board a d)).map
    (fun s => (s, announce_winner s))

/-! ## Vocabulary of the properties -/

/-- The recorded position of agent `i` (what `get_current_location` reports). -/
def position (a : Arena) (i : Nat) : Int × Int :=
  ((getRobot a i).robot.m_location_row, (getRobot a i).robot.m_location_col)

/-- The display symbol of agent `i` (`m_character`). -/
def symbol (a : Arena) (i : Nat) : Char := (getRobot a i).robot.m_character

/-- A radar hit at step distance `d` on the ray of `direction` from
`(row, col)`: `d` is in 1..range, the cells at distances 1..d are all in bounds,
and the cell at `d` is non-empty. -/
def radar_hit (a : Arena) (row col direction range d : Int) : Prop :=
  1 ≤ d ∧ d ≤ range ∧
  (∀ k, 1 ≤ k → k ≤ d →
    is_valid_position a (row + (directions direction).1 * k)
      (col + (directions direction).2 * k) = true) ∧
  a.m_board (row + (directions direction).1 * d) (col + (directions direction).2 * d) ≠ EMPTY

/-- The sighting of the cell at step distance `d` on the ray of `direction`. -/
def sighting (a : Arena) (row col direction d : Int) : RadarObj :=
  ⟨a.m_board (row + (directions direction).1 * d) (col + (directions direction).2 * d),
   row + (directions direction).1 * d, col + (directions direction).2 * d⟩

/-- Position/marker consistency: every living agent's recorded position is in
bounds and the board cell there holds the agent's own symbol. -/
def position_marker_consistent (a : Arena) : Prop :=
  ∀ i, i < a.m_robots.length → (getRobot a i).is_alive = true →
    is_valid_position a (position a i).1 (position a i).2 = true ∧
    a.m_board (position a i).1 (position a i).2 = symbol a i

/-- The alive-count invariant: `m_alive_count` is the number of records with
`is_alive = true`. -/
def alive_count_consistent (a : Arena) : Prop :=
  a.m_alive_count = ((a.m_robots.filter (fun info => info.is_alive)).length : Int)

/-- The states a match reaches from `a0` by turns of living agents, for any
decisions and any random outcomes. -/
inductive Reachable (a0 : Arena) : Arena → Prop
  | start : Reachable a0 a0
  | turn {s s' : Arena} (fuel i : Nat) (inp : TurnInput) :
      Reachable a0 s → (getRobot s i).is_alive = true →
      robot_turn fuel s i inp = some s' → Reachable a0 s'

/-- The state after the turn of agent `i` (the state itself, should the railgun
loop outlast `fuel`). -/
def after_turn (fuel : Nat) (a : Arena) (i : Nat) (inp : TurnInput) : Arena :=
  (robot_turn fuel a i inp).getD a

/-! ## Two concrete matches on the 20 x 20 board of `main.cpp` -/

/-- A record as a module's factory hands it over before registration: symbol
'R', position (0, 0), health 100, the given move speed, armor and weapon, 10
grenades. These starting values belong to the examples below. -/
def new_robot (move armor : Int) (weapon : WeaponType) : RobotBase :=
  ⟨'R', 0, 0, 100, armor, move, weapon, 10⟩

/-- Obstacle draws for the examples: 5 hazards at (5,4), (1,1)..(1,4), 4 pits at
(2,0)..(2,3), 6 mounds at (3,0)..(3,5), each placed at its first attempt. -/
def example_obstacles : ObstacleDraws :=
  { flame_count := 5
    flame_cells := fun i _ => if i = 0 then (5, 4) else (1, (i : Int))
    pit_count := 4
    pit_cells := fun i _ => (2, (i : Int))
    mound_count := 6
    mound_cells := fun i _ => (3, (i : Int)) }

/-- A turn input in which the agent neither moves nor shoots. -/
def idle : TurnInput :=
  { move_direction := 0, move_distance := 0, shot := none,
    all_dirs := [1, 2, 3, 4, 5, 6, 7, 8], stuck_draws := fun _ => (0, 0),
    escape_dirs := [1, 2, 3, 4, 5, 6, 7, 8], escape_draws := fun _ => (0, 0) }

/-- Three agents loaded in turn and placed at (5,5), (10,10) and (5,6); they get
the symbols '!', '@' and '#'. The state is the one `run_game` starts its rounds
from (after `initialize_board`). -/
def three_agent_match : Arena :=
  initialize_board
    (load_robots (Arena.new 20 20)
      [(new_robot 2 5 WeaponType.flamethrower, fun _ => (5, 5)),
       (new_robot 3 4 WeaponType.railgun, fun _ => (10, 10)),
       (new_robot 3 4 WeaponType.grenade, fun _ => (5, 6))]).2
    example_obstacles

/-- Two agents placed at (5,5) ('!') and (5,6) ('@', carrying the hammer), with a
hazard on (5,4). -/
def two_agent_match : Arena :=
  initialize_board
    (load_robots (Arena.new 20 20)
      [(new_robot 3 4 WeaponType.railgun, fun _ => (5, 5)),
       (new_robot 3 4 WeaponType.hammer, fun _ => (5, 6))]).2
    example_obstacles

/-- The state after one round (the state itself, should a railgun loop outlast
`fuel`). -/
def after_round (fuel : Nat) (a : Arena) (inputs : Nat → TurnInput) : Arena :=
  (run_round fuel a inputs).getD a

/-- A round of `two_agent_match` in which agent 0 stays idle and agent 1 strikes
the cell (5,5) with the hammer. -/
def hammer_round (i : Nat) : TurnInput :=
  if i = 1 then { idle with shot := some (5, 5) } else idle

/-- After four such rounds (22 points each while armor lasts) agent 0 is left
with health 12 and no armor. -/
def two_agent_worn : Arena :=
  after_round 0 (after_round 0 (after_round 0 (after_round 0 two_agent_match hammer_round)
    hammer_round) hammer_round) hammer_round

/-- The fifth round: agent 0 steps west onto the hazard at (5,4); agent 1 steps
west to (5,5) and strikes the cell (5,4). -/
def hazard_round (i : Nat) : TurnInput :=
  if i = 0 then { idle with move_direction := 7, move_distance := 1 }
  else { idle with move_direction := 7, move_distance := 1, shot := some (5, 4) }

/-- The state after the fifth round. -/
def two_agent_struck : Arena := after_round 0 two_agent_worn hazard_round

/-- The first turn of `three_agent_match`: agent 0 moves one cell east. -/
def step_east : TurnInput := { idle with move_direction := 3, move_distance := 1 }

/-- What no engine operation changes from `a` to `b`: the grid size, the round
counter and its limit, the symbol map, the number of records, and every
record's symbol and weapon. (`m_round` is stepped by `run_game` alone.) -/
structure Frame (a b : Arena) : Prop where
  rows : b.m_rows = a.m_rows
  cols : b.m_cols = a.m_cols
  round : b.m_round = a.m_round
  max_rounds : b.m_max_rounds = a.m_max_rounds
  index : b.m_robot_symbol_to_index = a.m_robot_symbol_to_index
  length : b.m_robots.length = a.m_robots.length
  character : ∀ j, symbol b j = symbol a j
  weapon : ∀ j, (getRobot b j).robot.m_weapon = (getRobot a j).robot.m_weapon

/-- Every record has the same pit timer in `b` as in `a`. -/
def same_pit_turns (a b : Arena) : Prop :=
  ∀ j, (getRobot b j).pit_turns = (getRobot a j).pit_turns

/-- The frame of the operations below `robot_turn`: `Frame` and unchanged pit
timers. -/
def StepFrame (a b : Arena) : Prop := Frame a b ∧ same_pit_turns a b

/-- Agent 0 of `three_agent_match` put on the pit at (2,0) by `move_robot`. -/
def three_agent_pit : Arena := (move_robot three_agent_match 0 2 0).2

/-- The two agents of `two_agent_match` as `load_robots` leaves them, before
`run_game` initialises the board. -/
def two_agent_loaded : Arena :=
  (load_robots (Arena.new 20 20)
    [(new_robot 3 4 WeaponType.railgun, fun _ => (5, 5)),
     (new_robot 3 4 WeaponType.hammer, fun _ => (5, 6))]).2

/-- Rounds in which agent 0, which carries the railgun and stands on (5,5),
names its own cell as the target; nobody moves. -/
def own_cell_rounds (_k i : Nat) : TurnInput :=
  if i = 0 then { idle with shot := some (5, 5) } else idle

/-- Rounds in which nobody moves or shoots. -/
def idle_rounds (_k _i : Nat) : TurnInput := idle

/-- The record `apply_damage` writes back for its victim: armor step, health
decrement and, at health <= 0, `is_alive = false`. -/
def damaged (info : RobotInfo) (damage : Int) : RobotInfo :=
  let armored := decide (info.robot.get_armor > 0)
  let rb1 := if armored then info.robot.reduce_armor 1 else info.robot
  let damage1 := if armored then damage - 3 else damage
  let hit := rb1.take_damage damage1
  if hit.1 ≤ 0 then { info with robot := hit.2, is_alive := false }
  else { info with robot := hit.2 }

/-- The cell `(r, c)` holds no registered symbol, or the symbol of an agent
recorded on `(r, c)`. -/
def marker_at_position (a : Arena) (r c : Int) : Bool :=
  match a.m_robot_symbol_to_index.lookup (a.m_board r c) with
  | none => true
  | some t => decide (position a t = (r, c))

/-- Markers stand where their agents are recorded: every in-bounds cell that
holds a registered symbol is the recorded position of the agent the symbol
belongs to. -/
def markers_at_positions (a : Arena) : Prop :=
  ∀ r c, is_valid_position a r c = true → marker_at_position a r c = true

/-- Agent `j` has its symbol on one of the in-bounds cells of `cells`. -/
def marked_in (a : Arena) (cells : List (Int × Int)) (j : Nat) : Prop :=
  ∃ p ∈ cells, is_valid_position a p.1 p.2 = true ∧
    a.m_robot_symbol_to_index.lookup (a.m_board p.1 p.2) = some j

/-- The first `n` cells of the ray from `(row, col)` along `(dr, dc)`:
`(row, col) + k * (dr, dc)` for k = 1, ..., n, in increasing k. -/
def ray_cells (row col dr dc : Int) (n : Nat) : List (Int × Int) :=
  (List.range n).map (fun (k : Nat) => (row + dr * ((k : Int) + 1), col + dc * ((k : Int) + 1)))

/-- Three agents as `load_robots` leaves them: agent 0 ('!') on (5,5), agent 1
('@', hammer) on (5,6), agent 2 ('#') on (10,10). -/
def hazard_match_loaded : Arena :=
  (load_robots (Arena.new 20 20)
    [(new_robot 3 4 WeaponType.railgun, fun _ => (5, 5)),
     (new_robot 3 4 WeaponType.hammer, fun _ => (5, 6)),
     (new_robot 3 4 WeaponType.grenade, fun _ => (10, 10))]).2

/-- The rounds of the match of `hazard_match_loaded`: in rounds 0..3 agent 1
strikes the cell (5,5); in round 4 agent 0 steps west onto the hazard at (5,4)
and agent 1 steps west to (5,5) and strikes the cell (5,4); agent 2 stays idle
throughout. -/
def hazard_match_rounds (k i : Nat) : TurnInput :=
  if i = 2 then idle else if k < 4 then hammer_round i else hazard_round i

/-- The statement `m_round++` of `Arena::run_game`. -/
def next_round_number (a : Arena) : Arena := { a with m_round := a.m_round + 1 }

/-- The state of the match of `hazard_match_loaded` after `k` rounds of
`run_game`. -/
def hazard_match_after : Nat → Arena
  | 0 => initialize_board hazard_match_loaded example_obstacles
  | k + 1 => next_round_number (after_round 0 (hazard_match_after k) (hazard_match_rounds k))

/-! ## Further concrete matches -/

/-- One agent as `load_robots` leaves it: agent 0 ('!') on (5,5), alone. -/
def single_agent_loaded : Arena :=
  (load_robots (Arena.new 20 20) [(new_robot 3 4 WeaponType.railgun, fun _ => (5, 5))]).2

/-- The 8 neighbours of (5,5), row by row. -/
def ring_cells : List (Int × Int) :=
  [(4, 4), (4, 5), (4, 6), (5, 4), (5, 6), (6, 4), (6, 5), (6, 6)]

/-- Obstacle draws that wall in the cell (5,5): 5 hazards at (1,0)..(1,4), 4 pits
at (2,0)..(2,3) and 8 mounds on the neighbours of (5,5), each placed at its first
attempt. -/
def walled_obstacles : ObstacleDraws :=
  { flame_count := 5
    flame_cells := fun i _ => (1, (i : Int))
    pit_count := 4
    pit_cells := fun i _ => (2, (i : Int))
    mound_count := 8
    mound_cells := fun i _ => ring_cells.getD i (0, 0) }

/-- Two agents as `load_robots` leaves them: agent 0 ('!') on (5,5), agent 1
('@') on (10,10). -/
def walled_loaded : Arena :=
  (load_robots (Arena.new 20 20)
    [(new_robot 3 4 WeaponType.railgun, fun _ => (5, 5)),
     (new_robot 3 4 WeaponType.hammer, fun _ => (10, 10))]).2

/-- The state `run_game` starts the rounds of that match from: agent 0 stands
inside a ring of 8 mounds. -/
def walled_match : Arena := initialize_board walled_loaded walled_obstacles

/-- Agent 0 asks for one step north; every teleport sample of the turn is the
pair of draws (1, 1), which the centre-biased formula maps to the cell (5,5). -/
def north_own_cell : TurnInput :=
  { idle with move_direction := 1, move_distance := 1, stuck_draws := fun _ => (1, 1) }

/-- Teleport draws whose 100 samples all fall on the mound at (4,5): the pair
(0, 1) under the centre-biased formula of the first 50 attempts, the cell itself
afterwards. -/
def mound_draws (attempt : Nat) : Int × Int := if attempt < 50 then (0, 1) else (4, 5)

/-- Agent 0 asks for one step north; every teleport sample falls on a mound. -/
def north_mound_draws : TurnInput :=
  { idle with move_direction := 1, move_distance := 1, stuck_draws := mound_draws }

/-- Agent 0 asks for one step north; every teleport sample of the turn is the
pair of draws (4, 4), which the centre-biased formula maps to the cell (8,8). -/
def north_free : TurnInput :=
  { idle with move_direction := 1, move_distance := 1, stuck_draws := fun _ => (4, 4) }

/-- Three agents as `load_robots` leaves them: agent 0 ('!') on (10,10), agent 1
('@') on (15,15), agent 2 ('#') on (5,5). -/
def walled_three_loaded : Arena :=
  (load_robots (Arena.new 20 20)
    [(new_robot 3 4 WeaponType.railgun, fun _ => (10, 10)),
     (new_robot 3 4 WeaponType.hammer, fun _ => (15, 15)),
     (new_robot 3 4 WeaponType.grenade, fun _ => (5, 5))]).2

/-- The state `run_game` starts the rounds of that match from, agent 2 inside the
ring of 8 mounds, with the move speed of agent 2 as `disable_movement` leaves it
(the call `check_obstacle_effects` makes on an agent that enters a pit). -/
def walled_disabled : Arena :=
  setRobot (initialize_board walled_three_loaded walled_obstacles) 2
    { getRobot (initialize_board walled_three_loaded walled_obstacles) 2 with
      robot :=
        (getRobot (initialize_board walled_three_loaded walled_obstacles) 2).robot.disable_movement }

/-- Agent 0 of `two_agent_worn` steps west onto the hazard at (5,4) and names the
cell (5,6), where agent 1 stands, as its target. -/
def hazard_step_and_shot : TurnInput :=
  { idle with move_direction := 7, move_distance := 1, shot := some (5, 6) }

/-- Agent 0 of `three_agent_match` (move speed 2) asks for direction 1 (north)
with the distance -10. -/
def backward_ten : TurnInput := { idle with move_direction := 1, move_distance := -10 }

/-! ## Fallback candidates, teleport searches and relocations -/

/-- The cell a fallback candidate (direction, dist) stands for, seen from
`(row, col)`: `(row + dr * dist, col + dc * dist)`. -/
def candidate_cell (row col : Int) (x : Int × Int) : Int × Int :=
  (row + (directions x.1).1 * x.2, col + (directions x.1).2 * x.2)

/-- The candidates of the two nested loops of `Arena::try_multiple_directions`, in
the order the loops visit them, for `n` iterations of the outer loop entered at
`dist`: every direction of `order` at `dist`, then every direction at
`dist - 1`, and so on. -/
def fallback_candidates_from (order : List Int) : Nat → Int → List (Int × Int)
  | 0, _ => []
  | n + 1, dist => order.map (fun dir => (dir, dist)) ++ fallback_candidates_from order n (dist - 1)

/-- The candidates of the nested loops for the requested `distance`:
`dist = distance, ..., 1` outside, the directions of `order` inside. -/
def fallback_candidates (order : List Int) (distance : Int) : List (Int × Int) :=
  fallback_candidates_from order distance.toNat distance

/-- The order of the specification's direction fan-out ("for each candidate
direction, try the full requested distance down to distance 1"): direction by
direction and, for each direction, the distances `distance, distance - 1, ..., 1`. -/
def direction_major_candidates (order : List Int) (distance : Int) : List (Int × Int) :=
  order.flatMap (fun dir => (List.range distance.toNat).map (fun (k : Nat) => (dir, distance - k)))

/-- The first candidate whose cell passes `can_move_to` in `a`. -/
def first_legal (a : Arena) (row col : Int) (cands : List (Int × Int)) : Option (Int × Int) :=
  cands.find? (fun x => can_move_to a (candidate_cell row col x).1 (candidate_cell row col x).2)

/-- The success branch of the attempt loop of `Arena::handle_stuck_robot`: the
record is moved to `(r, c)`, the symbol is written there and the stuck counter is
reset. -/
def stuck_teleport (a : Arena) (robot_index : Nat) (r c : Int) : Arena :=
  let info := getRobot a robot_index
  let a1 := setRobot a robot_index { info with robot := info.robot.move_to r c }
  let a2 := place_robot_on_board a1 robot_index r c
  setRobot a2 robot_index { getRobot a2 robot_index with stuck_count := 0 }

/-- The first of the attempts `attempt, ..., attempt + n - 1` of
`Arena::handle_stuck_robot` whose candidate cell is empty in `a`. -/
def first_empty_candidate (a : Arena) (draws : Nat → Int × Int) (attempt n : Nat) : Option Nat :=
  (List.range' attempt n).find? (fun k =>
    decide (a.m_board (stuck_candidate a k (draws k)).1 (stuck_candidate a k (draws k)).2 = EMPTY))

/-- The statements of both success branches of `Arena::handle_pit_escape`: clear
the old cell, record `(r, c)`, write the symbol there, leave the pit. -/
def pit_relocate (a : Arena) (robot_index : Nat) (r c : Int) : Arena :=
  let a1 := clear_robot_from_board a robot_index
  let info := getRobot a1 robot_index
  let a2 := setRobot a1 robot_index { info with robot := info.robot.move_to r c }
  let a3 := place_robot_on_board a2 robot_index r c
  setRobot a3 robot_index { getRobot a3 robot_index with in_pit := false }

/-- The first direction of `dirs` whose adjacent cell passes `can_move_to`. -/
def first_escape_direction (a : Arena) (row col : Int) (dirs : List Int) : Option Int :=
  dirs.find? (fun dir => can_move_to a (row + (directions dir).1) (col + (directions dir).2))

/-- The first of the attempts `attempt, ..., attempt + n - 1` of the teleport
loop of `Arena::handle_pit_escape` whose drawn cell is empty in `a`. -/
def first_empty_draw (a : Arena) (draws : Nat → Int × Int) (attempt n : Nat) : Option Nat :=
  (List.range' attempt n).find? (fun k => decide (a.m_board (draws k).1 (draws k).2 = EMPTY))

/-- The outcome of a pit escape that takes agent `i` from state `a` to the cell
`cell` in state `b`: the pit flag is off, the recorded position is `cell`, the
cell holds the agent's symbol, and the old cell, if it is in bounds and held the
symbol, is empty. -/
def escaped_to (a b : Arena) (i : Nat) (cell : Int × Int) : Prop :=
  (getRobot b i).in_pit = false ∧ position b i = cell ∧
  b.m_board cell.1 cell.2 = symbol b i ∧ symbol b i = symbol a i ∧
  (is_valid_position a (position a i).1 (position a i).2 = true →
    a.m_board (position a i).1 (position a i).2 = symbol a i →
    b.m_board (position a i).1 (position a i).2 = EMPTY)

/-! ## Readings of the records and states between turns -/

/-- Every record has the same value of `f` in `b` as in `a`. -/
def keeps {α : Type} (f : RobotInfo → α) (a b : Arena) : Prop :=
  ∀ j, f (getRobot b j) = f (getRobot a j)

/-- Every record but that of agent `i` has the same value of `f` in `b` as in
`a`. -/
def keeps_except {α : Type} (f : RobotInfo → α) (i : Nat) (a b : Arena) : Prop :=
  ∀ j, j ≠ i → f (getRobot b j) = f (getRobot a j)

/-- The reading `f` of a record is blind to the writes the engine makes when it
damages, moves, traps or frees an agent. -/
structure Blind {α : Type} (f : RobotInfo → α) : Prop where
  damage : ∀ info d, f (damaged info d) = f info
  move : ∀ info r c, f { info with robot := info.robot.move_to r c } = f info
  pit_entry :
    ∀ info, f { info with in_pit := true, robot := info.robot.disable_movement } = f info
  pit_exit : ∀ info, f { info with in_pit := false } = f info

/-- The states a match passes through between turns: from `a0`, by turns of
living agents (for any decisions and any random outcomes) and by the round step
`m_round++` of `run_game`. -/
inductive BetweenTurns (a0 : Arena) : Arena → Prop
  | start : BetweenTurns a0 a0
  | turn {s s' : Arena} (fuel i : Nat) (inp : TurnInput) :
      BetweenTurns a0 s → (getRobot s i).is_alive = true →
      robot_turn fuel s i inp = some s' → BetweenTurns a0 s'
  | round {s : Arena} : BetweenTurns a0 s → BetweenTurns a0 (next_round_number s)

/-! ## Definitions for the weapon and fallback properties -/

/-- `Arena::try_multiple_directions` with its shuffled pass at distance 1
removed: the two nested loops, and `false` when they find no legal candidate. -/
def try_multiple_directions_without_shuffle (a : Arena) (robot_index : Nat)
    (preferred_direction distance : Int) : Bool × Arena :=
  let rb := (getRobot a robot_index).robot
  let current_row := rb.m_location_row
  let current_col := rb.m_location_col
  try_distances robot_index current_row current_col (try_order preferred_direction)
    distance.toNat distance a

/-- The cells on which the body of the `while` loop of `Arena::shoot_railgun`
runs during its first `fuel` iterations, in order, from the loop's entry at
`(current_row, current_col)`. -/
def railgun_visited (dr dc : Int) : Nat → Arena → Int → Int → List (Int × Int)
  | 0, _, _, _ => []
  | fuel + 1, a, current_row, current_col =>
    if is_valid_position a current_row current_col then
      let a1 := match get_robot_at a current_row current_col with
        | some target => apply_damage a target 12
        | none => a
      (current_row, current_col) ::
        railgun_visited dr dc fuel a1 (current_row + dr) (current_col + dc)
    else []

/-- The cells visited, within `fuel` iterations, by the railgun shot that
`Arena::handle_shooting` derives for a shooter on `(robot_row, robot_col)` and
the target `(shot_row, shot_col)`. -/
def railgun_shot_visited (fuel : Nat) (a : Arena) (robot_row robot_col shot_row shot_col : Int) :
    List (Int × Int) :=
  let direction := find_direction (aim_sign shot_row robot_row) (aim_sign shot_col robot_col)
  let dr := (directions direction).1
  let dc := (directions direction).2
  railgun_visited dr dc fuel a (robot_row + dr) (robot_col + dc)

/-! ## The Garrett agent (`Robot_Garrett.cpp`) -/

/-- The private members of `Garrett_Robot`: what `process_radar_results` last
recorded about the nearest enemy. -/
structure Garrett_Robot where
  enemy_nearby : Bool
  enemy_row : Int
  enemy_col : Int

/-- `Garrett_Robot::get_shot_location`; `rb` is the agent's `RobotBase` part, from
which `get_current_location` and `get_grenades` read, and `none` stands for the
return value `false`. -/
def Garrett_Robot.get_shot_location (g : Garrett_Robot) (rb : RobotBase) : Option (Int × Int) :=
  if ¬ g.enemy_nearby ∨ rb.get_grenades ≤ 0 then none
  else
    let cur_r := rb.m_location_row
    let cur_c := rb.m_location_col
    if (g.enemy_row - cur_r).natAbs ≤ 1 ∧ (g.enemy_col - cur_c).natAbs ≤ 1 then
      some (g.enemy_row, g.enemy_col)
    else none

/-! ## Terrain through a match -/

/-- The terrain of `b` against that of `a`: the mounds are on the same cells, and
every pit or hazard of `b` is a pit or hazard of `a` on the same cell. -/
def terrain_kept (a b : Arena) : Prop :=
  ∀ r c, (a.m_board r c = MOUND ↔ b.m_board r c = MOUND) ∧
    (b.m_board r c = PIT → a.m_board r c = PIT) ∧
    (b.m_board r c = FLAMETHROWER → a.m_board r c = FLAMETHROWER)

/-- What holds of a match once `initialize_board` has written the agents'
symbols: no registered agent is recorded on a mound, no agent's symbol is a
terrain marker, and the symbol map names registered agents only. -/
structure Settled (a : Arena) : Prop where
  off_mounds : ∀ j, j < a.m_robots.length → a.m_board (position a j).1 (position a j).2 ≠ MOUND
  symbols : ∀ j, symbol a j ≠ PIT ∧ symbol a j ≠ FLAMETHROWER ∧ symbol a j ≠ MOUND
  registered : ∀ ch j, a.m_robot_symbol_to_index.lookup ch = some j → j < a.m_robots.length

/-- The in-bounds cells of the grid, row by row. -/
def grid_cells (a : Arena) : List (Int × Int) :=
  (List.range a.m_rows.toNat).flatMap
    (fun (r : Nat) => (List.range a.m_cols.toNat).map (fun (c : Nat) => ((r : Int), (c : Int))))

/-- The number of in-bounds cells that hold the marker `kind`. -/
def count_cells (a : Arena) (kind : Char) : Nat :=
  (grid_cells a).countP (fun p => decide (a.m_board p.1 p.2 = kind))

/-- Obstacle draws whose first mound falls on (5,5): 5 hazards at (1,0)..(1,4),
4 pits at (2,0)..(2,3), 6 mounds at (5,5) and (3,1)..(3,5), each placed at its
first attempt. -/
def buried_obstacles : ObstacleDraws :=
  { flame_count := 5
    flame_cells := fun i _ => (1, (i : Int))
    pit_count := 4
    pit_cells := fun i _ => (2, (i : Int))
    mound_count := 6
    mound_cells := fun i _ => if i = 0 then (5, 5) else (3, (i : Int)) }

/-- Agent 2 ('#') of `three_agent_match` has stepped from (5,6) onto the hazard at
(5,4). -/
def hazard_entered : Arena := (move_robot three_agent_match 2 5 4).2

/-- Agent 0 ('!') has then stepped from (5,5) onto the same cell (5,4). -/
def hazard_shared : Arena := (move_robot hazard_entered 0 5 4).2

/-- Agent 2 has then stepped north, from (5,4) to (4,4). -/
def hazard_left : Arena := (move_robot hazard_shared 2 4 4).2

/-- Agent 2 of `three_agent_match` asks for two steps west, from (5,6) onto the
hazard at (5,4). -/
def west_two : TurnInput := { idle with move_direction := 7, move_distance := 2 }


/-! # Theorems -/

/-! ## Records and cells -/

theorem getD_set_eq {α : Type} (l : List α) (i : Nat) (x d : α) (h : i < l.length) :
    (l.set i x).getD i d = x := by
  simp [List.getD_eq_getElem?_getD, List.getElem?_set, h]

theorem getD_set_ne {α : Type} (l : List α) (i j : Nat) (x d : α) (h : i ≠ j) :
    (l.set i x).getD j d = l.getD j d := by
  simp [List.getD_eq_getElem?_getD, List.getElem?_set, h]

theorem getRobot_setRobot_self (a : Arena) (i : Nat) (info : RobotInfo)
    (hi : i < a.m_robots.length) : getRobot (setRobot a i info) i = info := by
  simp [getRobot, setRobot, getD_set_eq, hi]

theorem getRobot_setRobot_other (a : Arena) (i j : Nat) (info : RobotInfo) (h : i ≠ j) :
    getRobot (setRobot a i info) j = getRobot a j := by
  simp [getRobot, setRobot, getD_set_ne, h]

theorem is_valid_position_congr (a b : Arena) (hr : b.m_rows = a.m_rows)
    (hc : b.m_cols = a.m_cols) (r c : Int) :
    is_valid_position b r c = is_valid_position a r c := by
  simp [is_valid_position, hr, hc]

/-- What `apply_damage` leaves alone: the grid size, the number of records, every
agent's position and symbol, and every cell but the victim's. -/
theorem apply_damage_frame (a : Arena) (i : Nat) (damage : Int) :
    (apply_damage a i damage).m_rows = a.m_rows ∧
    (apply_damage a i damage).m_cols = a.m_cols ∧
    (apply_damage a i damage).m_robots.length = a.m_robots.length ∧
    (∀ j, position (apply_damage a i damage) j = position a j) ∧
    (∀ j, symbol (apply_damage a i damage) j = symbol a j) ∧
    (∀ r c, (r, c) ≠ position a i →
      (apply_damage a i damage).m_board r c = a.m_board r c) := by
  unfold apply_damage
  simp only [RobotBase.take_damage, RobotBase.get_armor, RobotBase.reduce_armor]
  refine ⟨?_, ?_, ?_, ?_, ?_, ?_⟩
  · split_ifs <;> rfl
  · split_ifs <;> rfl
  · split_ifs <;> simp
  · intro j
    by_cases hij : i = j
    · subst hij
      by_cases hi : i < a.m_robots.length
      · split_ifs <;> simp [position, getRobot, getD_set_eq, hi]
      · have : a.m_robots.set i = fun _ => a.m_robots := by
          funext x; exact List.set_eq_of_length_le (by omega)
        split_ifs <;> simp [position, getRobot, this]
    · split_ifs <;> simp [position, getRobot, getD_set_ne, hij]
  · intro j
    by_cases hij : i = j
    · subst hij
      by_cases hi : i < a.m_robots.length
      · split_ifs <;> simp [symbol, getRobot, getD_set_eq, hi]
      · have : a.m_robots.set i = fun _ => a.m_robots := by
          funext x; exact List.set_eq_of_length_le (by omega)
        split_ifs <;> simp [symbol, getRobot, this]
    · split_ifs <;> simp [symbol, getRobot, getD_set_ne, hij]
  · intro r c hne
    split_ifs
    all_goals simp [setCell, position] at *
    all_goals
      intro h1 h2
      exact absurd h2 (hne h1)

/-- What `check_obstacle_effects` leaves alone. -/
theorem check_obstacle_effects_frame (a : Arena) (i : Nat) (row col : Int) :
    (check_obstacle_effects a i row col).m_rows = a.m_rows ∧
    (check_obstacle_effects a i row col).m_cols = a.m_cols ∧
    (check_obstacle_effects a i row col).m_robots.length = a.m_robots.length ∧
    (∀ j, position (check_obstacle_effects a i row col) j = position a j) ∧
    (∀ j, symbol (check_obstacle_effects a i row col) j = symbol a j) ∧
    (∀ r c, (r, c) ≠ position a i →
      (check_obstacle_effects a i row col).m_board r c = a.m_board r c) := by
  unfold check_obstacle_effects
  dsimp only
  split_ifs with h1 h2
  · refine ⟨rfl, rfl, by simp [setRobot], ?_, ?_, fun _ _ _ => rfl⟩
    · intro j
      by_cases hij : i = j
      · subst hij
        by_cases hi : i < a.m_robots.length
        · simp [position, getRobot_setRobot_self, hi, RobotBase.disable_movement]
        · simp [position, getRobot, setRobot, List.set_eq_of_length_le (Nat.le_of_not_lt hi)]
      · simp [position, getRobot_setRobot_other, hij]
    · intro j
      by_cases hij : i = j
      · subst hij
        by_cases hi : i < a.m_robots.length
        · simp [symbol, getRobot_setRobot_self, hi, RobotBase.disable_movement]
        · simp [symbol, getRobot, setRobot, List.set_eq_of_length_le (Nat.le_of_not_lt hi)]
      · simp [symbol, getRobot_setRobot_other, hij]
  · exact apply_damage_frame a i 15
  · exact ⟨rfl, rfl, rfl, fun _ => rfl, fun _ => rfl, fun _ _ _ => rfl⟩

/-! ## Radar -/

/-- The radar loop entered at distance `s` with `n` iterations left either
reports the first non-empty cell reachable through in-bounds cells, or reports
nothing because there is none. -/
theorem scan_radar_loop_spec (a : Arena) (row col dr dc : Int) (n : Nat) :
    ∀ s : Int,
    (∃ d, s ≤ d ∧ d < s + n ∧
        (∀ k, s ≤ k → k ≤ d → is_valid_position a (row + dr * k) (col + dc * k) = true) ∧
        (∀ k, s ≤ k → k < d → a.m_board (row + dr * k) (col + dc * k) = EMPTY) ∧
        a.m_board (row + dr * d) (col + dc * d) ≠ EMPTY ∧
        scan_radar_loop a row col dr dc n s =
          [⟨a.m_board (row + dr * d) (col + dc * d), row + dr * d, col + dc * d⟩]) ∨
    (scan_radar_loop a row col dr dc n s = [] ∧
      ¬ ∃ d, s ≤ d ∧ d < s + n ∧
        (∀ k, s ≤ k → k ≤ d → is_valid_position a (row + dr * k) (col + dc * k) = true) ∧
        a.m_board (row + dr * d) (col + dc * d) ≠ EMPTY) := by
  induction n with
  | zero =>
    intro s
    right
    refine ⟨rfl, ?_⟩
    rintro ⟨d, h1, h2, -⟩
    simp at h2
    omega
  | succ n ih =>
    intro s
    by_cases hv : is_valid_position a (row + dr * s) (col + dc * s) = true
    · by_cases he : a.m_board (row + dr * s) (col + dc * s) = EMPTY
      · have hloop : scan_radar_loop a row col dr dc (n + 1) s =
            scan_radar_loop a row col dr dc n (s + 1) := by
          simp [scan_radar_loop, hv, he]
        rcases ih (s + 1) with ⟨d, h1, h2, h3, h4, h5, h6⟩ | ⟨h1, h2⟩
        · left
          refine ⟨d, by omega, by push_cast; omega, ?_, ?_, h5, by rw [hloop, h6]⟩
          · intro k hk1 hk2
            by_cases hks : k = s
            · rw [hks]; exact hv
            · exact h3 k (by omega) hk2
          · intro k hk1 hk2
            by_cases hks : k = s
            · rw [hks]; exact he
            · exact h4 k (by omega) hk2
        · right
          refine ⟨by rw [hloop, h1], ?_⟩
          rintro ⟨d, hd1, hd2, hd3, hd4⟩
          by_cases hds : d = s
          · rw [hds] at hd4; exact hd4 he
          · exact h2 ⟨d, by omega, by push_cast at hd2; omega,
              fun k hk1 hk2 => hd3 k (by omega) hk2, hd4⟩
      · left
        refine ⟨s, le_refl s, by push_cast; omega, ?_, ?_, he, ?_⟩
        · intro k hk1 hk2
          have : k = s := by omega
          rw [this]; exact hv
        · intro k hk1 hk2
          omega
        · simp [scan_radar_loop, hv, he]
    · right
      refine ⟨by simp [scan_radar_loop, hv], ?_⟩
      rintro ⟨d, hd1, hd2, hd3, hd4⟩
      exact hv (hd3 s (le_refl s) hd1)

/-- The four facts about one radar scan, for any direction index. -/
theorem scan_radar_cases (a : Arena) (row col direction range : Int) :
    (scan_radar a row col direction range).length ≤ 1 ∧
    (∀ d, radar_hit a row col direction range d →
        (∀ d', radar_hit a row col direction range d' → d ≤ d') →
        scan_radar a row col direction range = [sighting a row col direction d]) ∧
    (scan_radar a row col direction range = [] ↔
        ¬ ∃ d, radar_hit a row col direction range d) ∧
    (∀ obj ∈ scan_radar a row col direction range,
        ∃ d, radar_hit a row col direction range d ∧
          (∀ d', radar_hit a row col direction range d' → d ≤ d') ∧
          obj = sighting a row col direction d) := by
  have key := scan_radar_loop_spec a row col (directions direction).1 (directions direction).2
    range.toNat 1
  have hfold : scan_radar_loop a row col (directions direction).1 (directions direction).2
      range.toNat 1 = scan_radar a row col direction range := rfl
  rw [hfold] at key
  have hrange : ∀ d : Int, 1 ≤ d → (d < 1 + (range.toNat : Int) ↔ d ≤ range) := by
    intro d hd; omega
  rcases key with ⟨d, h1, h2, h3, h4, h5, h6⟩ | ⟨h1, h2⟩
  · have hhit : radar_hit a row col direction range d :=
      ⟨h1, (hrange d h1).1 h2, h3, h5⟩
    have hmin : ∀ d', radar_hit a row col direction range d' → d ≤ d' := by
      rintro d' ⟨g1, g2, g3, g4⟩
      by_contra hlt
      exact g4 (h4 d' g1 (by omega))
    refine ⟨by rw [h6]; simp, ?_, ?_, ?_⟩
    · intro e he hemin
      have : e = d := le_antisymm (hemin d hhit) (hmin e he)
      rw [this, h6]; rfl
    · constructor
      · intro hnil; rw [h6] at hnil; simp at hnil
      · intro hno; exact absurd ⟨d, hhit⟩ hno
    · intro obj hobj
      rw [h6] at hobj
      simp at hobj
      exact ⟨d, hhit, hmin, by rw [hobj]; rfl⟩
  · have hno : ¬ ∃ d, radar_hit a row col direction range d := by
      rintro ⟨d, g1, g2, g3, g4⟩
      exact h2 ⟨d, g1, (hrange d g1).2 g2, g3, g4⟩
    refine ⟨by rw [h1]; simp, ?_, ?_, ?_⟩
    · intro e he _
      exact absurd ⟨e, he⟩ hno
    · exact ⟨fun _ => hno, fun _ => h1⟩
    · intro obj hobj
      rw [h1] at hobj
      simp at hobj

theorem directions_ne_zero (direction : Int) (h1 : 1 ≤ direction) (h8 : direction ≤ 8) :
    (directions direction).1 ≠ 0 ∨ (directions direction).2 ≠ 0 := by
  have : direction = 1 ∨ direction = 2 ∨ direction = 3 ∨ direction = 4 ∨ direction = 5 ∨
      direction = 6 ∨ direction = 7 ∨ direction = 8 := by omega
  rcases this with h | h | h | h | h | h | h | h <;> subst h <;> simp [directions]

/-! ## Reachability -/

theorem robot_turn_eq_some (fuel : Nat) (a : Arena) (i : Nat) (inp : TurnInput)
    (h : (robot_turn fuel a i inp).isSome = true) :
    robot_turn fuel a i inp = some (after_turn fuel a i inp) := by
  unfold after_turn
  cases hr : robot_turn fuel a i inp with
  | none => rw [hr] at h; simp at h
  | some s => rfl

theorem run_round_eq_some (fuel : Nat) (a : Arena) (inputs : Nat → TurnInput)
    (h : (run_round fuel a inputs).isSome = true) :
    run_round fuel a inputs = some (after_round fuel a inputs) := by
  unfold after_round
  cases hr : run_round fuel a inputs with
  | none => rw [hr] at h; simp at h
  | some s => rfl

/-- A round is a sequence of turns of living agents. -/
theorem reachable_run_round_loop (a0 : Arena) (fuel : Nat) (inputs : Nat → TurnInput) (n : Nat) :
    ∀ (i : Nat) (s s' : Arena), Reachable a0 s →
      run_round_loop fuel inputs n i s = some s' → Reachable a0 s' := by
  induction n with
  | zero =>
    intro i s s' hs h
    simp [run_round_loop] at h
    rw [← h]; exact hs
  | succ n ih =>
    intro i s s' hs h
    unfold run_round_loop at h
    by_cases halive : (getRobot s i).is_alive = true
    · rw [if_pos halive] at h
      cases hr : robot_turn fuel s i (inputs i) with
      | none => rw [hr] at h; simp at h
      | some s1 =>
        rw [hr] at h
        exact ih (i + 1) s1 s' (Reachable.turn fuel i (inputs i) hs halive hr) h
    · rw [if_neg halive] at h
      exact ih (i + 1) s s' hs h

theorem reachable_run_round (a0 s s' : Arena) (fuel : Nat) (inputs : Nat → TurnInput)
    (hs : Reachable a0 s) (h : run_round fuel s inputs = some s') : Reachable a0 s' :=
  reachable_run_round_loop a0 fuel inputs s.m_robots.length 0 s s' hs h

theorem reachable_after_round (a0 s : Arena) (inputs : Nat → TurnInput)
    (hs : Reachable a0 s) (h : (run_round 0 s inputs).isSome = true) :
    Reachable a0 (after_round 0 s inputs) :=
  reachable_run_round a0 s _ 0 inputs hs (run_round_eq_some 0 s inputs h)

/-! ## The claims -/

/-- Claim C1 (not met by the code). In the match of three agents, which starts
with every living agent's symbol on its own in-bounds cell, the first turn lets
agent 0 ('!') move east onto the cell (5,6) of agent 2 ('#'): the state reached
has agent 2 alive with recorded position (5,6) while the board shows '!' there,
so position/marker consistency is lost. -/
theorem position_marker_lost_after_turn :
    position_marker_consistent three_agent_match ∧
    Reachable three_agent_match (after_turn 0 three_agent_match 0 step_east) ∧
    (getRobot (after_turn 0 three_agent_match 0 step_east) 2).is_alive = true ∧
    position (after_turn 0 three_agent_match 0 step_east) 2 = (5, 6) ∧
    symbol (after_turn 0 three_agent_match 0 step_east) 2 = '#' ∧
    (after_turn 0 three_agent_match 0 step_east).m_board 5 6 = '!' ∧
    ¬ position_marker_consistent (after_turn 0 three_agent_match 0 step_east) := by
  refine ⟨?_, ?_, by decide, by decide, by decide, by decide, ?_⟩
  · intro i hi _
    have hlen : three_agent_match.m_robots.length = 3 := by decide
    rw [hlen] at hi
    interval_cases i <;> decide
  · exact Reachable.turn 0 0 step_east Reachable.start (by decide)
      (robot_turn_eq_some 0 three_agent_match 0 step_east (by decide))
  · intro h
    have h2 := (h 2 (by decide) (by decide)).2
    revert h2
    decide

/-- Claim C2 (not met by the code). In the match of two agents the alive count
starts in step with the records. Four rounds of hammer blows and a fifth round,
in which agent 0 dies on the hazard at (5,4) and agent 1 then strikes that cell,
lead to a state with `m_alive_count = 0` although one record (agent 1) still has
`is_alive = true`: the count was decremented twice for agent 0. -/
theorem alive_count_decremented_twice :
    alive_count_consistent two_agent_match ∧
    Reachable two_agent_match two_agent_struck ∧
    two_agent_struck.m_alive_count = 0 ∧
    (two_agent_struck.m_robots.filter (fun info => info.is_alive)).length = 1 ∧
    ¬ alive_count_consistent two_agent_struck := by
  refine ⟨by unfold alive_count_consistent; decide, ?_, by decide, by decide,
    by unfold alive_count_consistent; decide⟩
  have r1 := reachable_after_round two_agent_match _ hammer_round Reachable.start (by decide)
  have r2 := reachable_after_round two_agent_match _ hammer_round r1 (by decide)
  have r3 := reachable_after_round two_agent_match _ hammer_round r2 (by decide)
  have r4 := reachable_after_round two_agent_match _ hammer_round r3 (by decide)
  exact reachable_after_round two_agent_match _ hazard_round r4 (by decide)

/-- Claim C3. For a registered agent `i` and any amount: if the health after
`apply_damage` is <= 0 then `is_alive` is false, `m_alive_count` has dropped by
exactly 1 and the cell at the agent's position holds the dead marker 'X'; if the
health is still > 0 then `is_alive`, `m_alive_count` and the board are as
before. -/
theorem apply_damage_death_postcondition (a : Arena) (i : Nat) (damage : Int)
    (hi : i < a.m_robots.length) :
    ((getRobot (apply_damage a i damage) i).robot.get_health ≤ 0 →
      (getRobot (apply_damage a i damage) i).is_alive = false ∧
      (apply_damage a i damage).m_alive_count = a.m_alive_count - 1 ∧
      (apply_damage a i damage).m_board (position a i).1 (position a i).2 = DEAD_ROBOT) ∧
    (0 < (getRobot (apply_damage a i damage) i).robot.get_health →
      (getRobot (apply_damage a i damage) i).is_alive = (getRobot a i).is_alive ∧
      (apply_damage a i damage).m_alive_count = a.m_alive_count ∧
      (apply_damage a i damage).m_board = a.m_board) := by
  unfold apply_damage
  simp only [RobotBase.take_damage, RobotBase.get_health, RobotBase.get_armor,
    RobotBase.reduce_armor, position]
  split_ifs with h1 h2 h2
  all_goals simp [getRobot, getD_set_eq, hi, setCell] at *
  all_goals omega

/-- Claim C3 at a concrete input: a 15-point hit on agent 0 of `two_agent_worn`
(health 12, no armor, living, at (5,5)) kills it. -/
theorem apply_damage_death_postcondition_witness :
    (getRobot (apply_damage two_agent_worn 0 15) 0).is_alive = false ∧
    (apply_damage two_agent_worn 0 15).m_alive_count = two_agent_worn.m_alive_count - 1 ∧
    (apply_damage two_agent_worn 0 15).m_board
      (position two_agent_worn 0).1 (position two_agent_worn 0).2 = DEAD_ROBOT :=
  (apply_damage_death_postcondition two_agent_worn 0 15 (by decide)).1 (by decide)

/-- Claim C4 (not met by the code). Agent 0 of `two_agent_worn` (health 12, no
armor) enters the hazard cell (5,4) through `move_robot`: the move is accepted,
the 15-point hazard damage leaves health -3 and `is_alive = false`, and after
`move_robot` the cell (5,4) holds the agent's live symbol '!', not the dead
marker 'X'. -/
theorem hazard_death_shows_live_symbol :
    two_agent_worn.m_board 5 4 = FLAMETHROWER ∧
    (getRobot two_agent_worn 0).is_alive = true ∧
    (move_robot two_agent_worn 0 5 4).1 = true ∧
    (getRobot (move_robot two_agent_worn 0 5 4).2 0).robot.get_health = -3 ∧
    (getRobot (move_robot two_agent_worn 0 5 4).2 0).is_alive = false ∧
    position (move_robot two_agent_worn 0 5 4).2 0 = (5, 4) ∧
    (move_robot two_agent_worn 0 5 4).2.m_board 5 4 = '!' ∧
    (move_robot two_agent_worn 0 5 4).2.m_board 5 4 ≠ DEAD_ROBOT := by
  decide

/-- Claim C5. `can_move_to`, and with it `move_robot`, rejects a destination
that is out of bounds or holds a mound 'M', and accepts an in-bounds destination
that is empty '.', a pit 'P', a hazard 'F' or a dead marker 'X'. -/
theorem can_move_to_terrain (a : Arena) (i : Nat) (row col : Int) :
    ((is_valid_position a row col = false ∨ a.m_board row col = MOUND) →
      can_move_to a row col = false ∧ (move_robot a i row col).1 = false) ∧
    ((is_valid_position a row col = true ∧
        (a.m_board row col = EMPTY ∨ a.m_board row col = PIT ∨
         a.m_board row col = FLAMETHROWER ∨ a.m_board row col = DEAD_ROBOT)) →
      can_move_to a row col = true ∧ (move_robot a i row col).1 = true) := by
  constructor
  · intro h
    have hc : can_move_to a row col = false := by
      unfold can_move_to
      rcases h with h | h <;> simp [h]
    exact ⟨hc, by simp [move_robot, hc]⟩
  · rintro ⟨hv, h⟩
    have hc : can_move_to a row col = true := by
      unfold can_move_to
      rcases h with h | h | h | h <;> simp [hv, h, EMPTY, PIT, FLAMETHROWER, DEAD_ROBOT, MOUND]
    exact ⟨hc, by simp [move_robot, hc]⟩

/-- Claim C5 at concrete cells of `three_agent_match`: the mound at (3,0) is
refused and the pit at (2,0) is accepted. -/
theorem can_move_to_terrain_witness :
    (can_move_to three_agent_match 3 0 = false ∧ (move_robot three_agent_match 0 3 0).1 = false) ∧
    (can_move_to three_agent_match 2 0 = true ∧ (move_robot three_agent_match 0 2 0).1 = true) :=
  ⟨(can_move_to_terrain three_agent_match 0 3 0).1 (Or.inr (by decide)),
   (can_move_to_terrain three_agent_match 0 2 0).2 ⟨by decide, Or.inr (Or.inl (by decide))⟩⟩

/-- Claim C6 (not met by the code). In the match of three agents, agent 2 is
alive and its symbol '#' is on the cell (5,6); `move_robot` for agent 0 to (5,6)
returns true instead of false, and it changes the state: the cell then shows '!'
and agents 0 and 2 are both recorded at (5,6). -/
theorem move_onto_third_agent_accepted :
    (getRobot three_agent_match 2).is_alive = true ∧
    symbol three_agent_match 2 = '#' ∧
    three_agent_match.m_board 5 6 = '#' ∧
    can_move_to three_agent_match 5 6 = true ∧
    (move_robot three_agent_match 0 5 6).1 = true ∧
    (move_robot three_agent_match 0 5 6).2.m_board 5 6 = '!' ∧
    position (move_robot three_agent_match 0 5 6).2 0 = (5, 6) ∧
    position (move_robot three_agent_match 0 5 6).2 2 = (5, 6) := by
  decide

/-- Claim C7. For every board, origin, direction index and range, `scan_radar`
returns at most one sighting; when a nearest hit exists (the smallest step
distance `d` in 1..range with the cells at distances 1..d in bounds and the cell
at `d` non-empty) it returns exactly the sighting of that cell; it returns the
empty list exactly when there is no hit; and whatever it reports is the nearest
hit, so a marker behind a nearer non-empty cell is never reported. -/
theorem scan_radar_single_nearest (a : Arena) (row col direction range : Int) :
    (scan_radar a row col direction range).length ≤ 1 ∧
    (∀ d, radar_hit a row col direction range d →
        (∀ d', radar_hit a row col direction range d' → d ≤ d') →
        scan_radar a row col direction range = [sighting a row col direction d]) ∧
    (scan_radar a row col direction range = [] ↔
        ¬ ∃ d, radar_hit a row col direction range d) ∧
    (∀ obj ∈ scan_radar a row col direction range,
        ∃ d, radar_hit a row col direction range d ∧
          (∀ d', radar_hit a row col direction range d' → d ≤ d') ∧
          obj = sighting a row col direction d) :=
  scan_radar_cases a row col direction range

/-- Claim C7 at a concrete input: from (5,3) looking east in `three_agent_match`
the hazard at (5,4) is reported and the agents behind it at (5,5) and (5,6) are
not. -/
theorem scan_radar_single_nearest_witness :
    radar_hit three_agent_match 5 3 3 5 1 ∧
    scan_radar three_agent_match 5 3 3 5 = [sighting three_agent_match 5 3 3 1] ∧
    sighting three_agent_match 5 3 3 1 = ⟨'F', 5, 4⟩ :=
  have hhit : radar_hit three_agent_match 5 3 3 5 1 :=
    ⟨by decide, by decide,
     fun k h1 h2 => by
       have hk : k = 1 := by omega
       subst hk
       decide,
     by decide⟩
  ⟨hhit, (scan_radar_single_nearest three_agent_match 5 3 3 5).2.1 1 hhit (fun _ h => h.1),
   by decide⟩

/-- Claim C8. The list `handle_radar` delivers is the concatenation, in
direction order 1..8, of `scan_radar` from the agent's position with range 5; it
has at most 8 sightings, at most one per direction, each on one of the 8 rays at
step distance 1..5 and carrying the marker of its cell, and none of them is the
agent's own cell. -/
theorem handle_radar_full_sweep (a : Arena) (i : Nat) :
    handle_radar a i =
      scan_radar a (position a i).1 (position a i).2 1 5 ++
      scan_radar a (position a i).1 (position a i).2 2 5 ++
      scan_radar a (position a i).1 (position a i).2 3 5 ++
      scan_radar a (position a i).1 (position a i).2 4 5 ++
      scan_radar a (position a i).1 (position a i).2 5 5 ++
      scan_radar a (position a i).1 (position a i).2 6 5 ++
      scan_radar a (position a i).1 (position a i).2 7 5 ++
      scan_radar a (position a i).1 (position a i).2 8 5 ∧
    (handle_radar a i).length ≤ 8 ∧
    (∀ direction, (scan_radar a (position a i).1 (position a i).2 direction 5).length ≤ 1) ∧
    (∀ obj ∈ handle_radar a i, ∃ direction d, 1 ≤ direction ∧ direction ≤ 8 ∧ 1 ≤ d ∧ d ≤ 5 ∧
        obj.m_row = (position a i).1 + (directions direction).1 * d ∧
        obj.m_col = (position a i).2 + (directions direction).2 * d ∧
        obj.m_type = a.m_board obj.m_row obj.m_col) ∧
    (∀ obj ∈ handle_radar a i, (obj.m_row, obj.m_col) ≠ position a i) := by
  have hcat : handle_radar a i =
      scan_radar a (position a i).1 (position a i).2 1 5 ++
      scan_radar a (position a i).1 (position a i).2 2 5 ++
      scan_radar a (position a i).1 (position a i).2 3 5 ++
      scan_radar a (position a i).1 (position a i).2 4 5 ++
      scan_radar a (position a i).1 (position a i).2 5 5 ++
      scan_radar a (position a i).1 (position a i).2 6 5 ++
      scan_radar a (position a i).1 (position a i).2 7 5 ++
      scan_radar a (position a i).1 (position a i).2 8 5 := by
    simp [handle_radar, position, List.flatMap]
  have hlen : ∀ direction,
      (scan_radar a (position a i).1 (position a i).2 direction 5).length ≤ 1 :=
    fun direction => (scan_radar_cases a _ _ direction 5).1
  have hon : ∀ obj ∈ handle_radar a i, ∃ direction d, 1 ≤ direction ∧ direction ≤ 8 ∧
      1 ≤ d ∧ d ≤ 5 ∧
      obj.m_row = (position a i).1 + (directions direction).1 * d ∧
      obj.m_col = (position a i).2 + (directions direction).2 * d ∧
      obj.m_type = a.m_board obj.m_row obj.m_col := by
    intro obj hobj
    unfold handle_radar at hobj
    rw [List.mem_flatMap] at hobj
    obtain ⟨direction, hd, hmem⟩ := hobj
    obtain ⟨d, ⟨g1, g2, -, -⟩, -, rfl⟩ := (scan_radar_cases a _ _ direction 5).2.2.2 obj hmem
    refine ⟨direction, d, ?_, ?_, g1, g2, rfl, rfl, rfl⟩
    · simp at hd; omega
    · simp at hd; omega
  refine ⟨hcat, ?_, hlen, hon, ?_⟩
  · rw [hcat]
    simp only [List.length_append]
    have h1 := hlen 1
    have h2 := hlen 2
    have h3 := hlen 3
    have h4 := hlen 4
    have h5 := hlen 5
    have h6 := hlen 6
    have h7 := hlen 7
    have h8 := hlen 8
    omega
  · intro obj hobj heq
    obtain ⟨direction, d, h1, h8, hd1, -, hr, hc, -⟩ := hon obj hobj
    have hr' : obj.m_row = (position a i).1 := congrArg Prod.fst heq
    have hc' : obj.m_col = (position a i).2 := congrArg Prod.snd heq
    rcases directions_ne_zero direction h1 h8 with hz | hz
    · have : (directions direction).1 * d = 0 := by omega
      rcases mul_eq_zero.1 this with h | h
      · exact hz h
      · omega
    · have : (directions direction).2 * d = 0 := by omega
      rcases mul_eq_zero.1 this with h | h
      · exact hz h
      · omega

/-- Claim C8 at a concrete input: the sweep of agent 0 of `three_agent_match`
from (5,5) sees, in direction order, the mound at (3,5), the agent at (5,6), the
agent at (10,10), the hazard at (5,4) and the mound at (3,3). -/
theorem handle_radar_full_sweep_witness :
    handle_radar three_agent_match 0 =
      [⟨'M', 3, 5⟩, ⟨'#', 5, 6⟩, ⟨'@', 10, 10⟩, ⟨'F', 5, 4⟩, ⟨'M', 3, 3⟩] := by
  decide

/-- Claim C9 as stated fails when the destination is the agent's own cell: agent
2 of `three_agent_match` stands on (5,6), the cell holds its symbol '#', and
`move_robot` to (5,6) returns true; the old cell, which held the agent's symbol
before the call, does not become '.' (it holds '#' again). -/
theorem move_robot_onto_own_cell :
    position three_agent_match 2 = (5, 6) ∧
    three_agent_match.m_board 5 6 = symbol three_agent_match 2 ∧
    (move_robot three_agent_match 2 5 6).1 = true ∧
    (move_robot three_agent_match 2 5 6).2.m_board 5 6 = '#' ∧
    (move_robot three_agent_match 2 5 6).2.m_board 5 6 ≠ EMPTY := by
  decide

/-- Claim C9, amended. When `move_robot a i r c` returns true for a registered
agent `i`: the recorded position is `(r, c)` and the cell `(r, c)` holds the
agent's symbol; the old cell, when it is not `(r, c)` itself, becomes '.' if it
is on the board and held the agent's symbol, and is untouched otherwise; every
cell other than the old and the new one is unchanged; no other agent's position
changes. -/
theorem move_robot_accepted_effect (a : Arena) (i : Nat) (r c : Int)
    (hi : i < a.m_robots.length) (h : (move_robot a i r c).1 = true) :
    position (move_robot a i r c).2 i = (r, c) ∧
    (move_robot a i r c).2.m_board r c = symbol a i ∧
    (position a i ≠ (r, c) →
      (move_robot a i r c).2.m_board (position a i).1 (position a i).2 =
        if is_valid_position a (position a i).1 (position a i).2 = true ∧
            a.m_board (position a i).1 (position a i).2 = symbol a i
        then EMPTY else a.m_board (position a i).1 (position a i).2) ∧
    (∀ r' c', (r', c') ≠ position a i → (r', c') ≠ (r, c) →
      (move_robot a i r c).2.m_board r' c' = a.m_board r' c') ∧
    (∀ j, j ≠ i → position (move_robot a i r c).2 j = position a j) := by
  have hc : can_move_to a r c = true := by
    by_contra hne
    simp [move_robot, hne] at h
  have hv : is_valid_position a r c = true := by
    by_contra hne
    simp [can_move_to, hne] at hc
  -- the four steps of an accepted move
  obtain ⟨a1, ha1⟩ : ∃ a1, a1 = clear_robot_from_board a i := ⟨_, rfl⟩
  obtain ⟨a2, ha2⟩ : ∃ a2, a2 = setRobot a1 i
      { getRobot a1 i with robot := (getRobot a1 i).robot.move_to r c } := ⟨_, rfl⟩
  obtain ⟨a3, ha3⟩ : ∃ a3, a3 = check_obstacle_effects a2 i r c := ⟨_, rfl⟩
  have hres : (move_robot a i r c).2 = place_robot_on_board a3 i r c := by
    simp [move_robot, hc, ha1, ha2, ha3]
  have h1robots : a1.m_robots = a.m_robots := by
    rw [ha1]; unfold clear_robot_from_board; dsimp only; split_ifs <;> rfl
  have h1rows : a1.m_rows = a.m_rows := by
    rw [ha1]; unfold clear_robot_from_board; dsimp only; split_ifs <;> rfl
  have h1cols : a1.m_cols = a.m_cols := by
    rw [ha1]; unfold clear_robot_from_board; dsimp only; split_ifs <;> rfl
  have h1get : ∀ j, getRobot a1 j = getRobot a j := fun j => by simp [getRobot, h1robots]
  have h1board : ∀ r' c', a1.m_board r' c' =
      if (r', c') = position a i ∧ is_valid_position a (position a i).1 (position a i).2 = true ∧
          a.m_board (position a i).1 (position a i).2 = symbol a i
      then EMPTY else a.m_board r' c' := by
    intro r' c'
    rw [ha1]; unfold clear_robot_from_board
    dsimp only [position, symbol]
    split_ifs <;> simp_all [setCell]
  have hi1 : i < a1.m_robots.length := by rw [h1robots]; exact hi
  have h2pos : position a2 i = (r, c) := by
    simp [position, ha2, getRobot_setRobot_self, hi1, RobotBase.move_to]
  have h2sym : symbol a2 i = symbol a i := by
    simp [symbol, ha2, getRobot_setRobot_self, hi1, RobotBase.move_to, h1get]
  have h2other : ∀ j, j ≠ i → position a2 j = position a j := by
    intro j hj
    simp [position, ha2, getRobot_setRobot_other _ _ _ _ (Ne.symm hj), h1get]
  have h2board : a2.m_board = a1.m_board := by rw [ha2]; rfl
  have h2rows : a2.m_rows = a.m_rows := by rw [ha2]; exact h1rows
  have h2cols : a2.m_cols = a.m_cols := by rw [ha2]; exact h1cols
  obtain ⟨h3rows, h3cols, -, h3pos, h3sym, h3board⟩ := check_obstacle_effects_frame a2 i r c
  rw [← ha3] at h3rows h3cols h3pos h3sym h3board
  have h3v : is_valid_position a3 r c = true := by
    rw [is_valid_position_congr a a3 (h3rows.trans h2rows) (h3cols.trans h2cols)]; exact hv
  have h4board : ∀ r' c', (move_robot a i r c).2.m_board r' c' =
      if r' = r ∧ c' = c then symbol a i else a3.m_board r' c' := by
    intro r' c'
    rw [hres]
    simp only [place_robot_on_board, h3v, if_true, setCell]
    have : (getRobot a3 i).robot.m_character = symbol a i := by
      have := h3sym i; rw [h2sym] at this; exact this
    rw [this]
  have h4get : ∀ j, getRobot (move_robot a i r c).2 j = getRobot a3 j := by
    intro j; rw [hres]; simp [place_robot_on_board, h3v, getRobot]
  have h4pos : ∀ j, position (move_robot a i r c).2 j = position a3 j := by
    intro j; simp [position, h4get]
  refine ⟨?_, ?_, ?_, ?_, ?_⟩
  · rw [h4pos, h3pos, h2pos]
  · rw [h4board]; simp
  · intro hne
    rw [h4board]
    have hne' : ¬ ((position a i).1 = r ∧ (position a i).2 = c) := by
      rintro ⟨e1, e2⟩; exact hne (Prod.ext e1 e2)
    rw [if_neg hne', h3board _ _ (by rw [h2pos]; exact hne), h2board, h1board]
    simp
  · intro r' c' hold hnew
    rw [h4board]
    have hne' : ¬ (r' = r ∧ c' = c) := by
      rintro ⟨e1, e2⟩; exact hnew (by rw [e1, e2])
    rw [if_neg hne', h3board _ _ (by rw [h2pos]; exact hnew), h2board, h1board]
    simp [hold]
  · intro j hj
    rw [h4pos, h3pos, h2other j hj]

/-- Claim C9, amended, at a concrete input: agent 0 of `three_agent_match` moves
from (5,5) north to the empty cell (4,5); the cell (4,5) then holds its symbol
'!' and the old cell (5,5), which held the symbol, is empty. -/
theorem move_robot_accepted_effect_witness :
    position three_agent_match 0 = (5, 5) ∧
    position (move_robot three_agent_match 0 4 5).2 0 = (4, 5) ∧
    (move_robot three_agent_match 0 4 5).2.m_board 4 5 = '!' ∧
    (move_robot three_agent_match 0 4 5).2.m_board 5 5 = EMPTY :=
  have h := move_robot_accepted_effect three_agent_match 0 4 5 (by decide) (by decide)
  ⟨by decide, h.1, h.2.1.trans (by decide),
    (h.2.2.1 (by decide)).trans (by decide)⟩

/-- Claim C10. When `move_robot a i r c` returns false, the destination was
refused by `can_move_to` and the state after the call is the state before it: in
particular the board, the agent's recorded position, its `in_pit` flag, its
health and armor, and `m_alive_count` are unchanged. -/
theorem move_robot_rejected_atomic (a : Arena) (i : Nat) (r c : Int)
    (h : (move_robot a i r c).1 = false) :
    can_move_to a r c = false ∧
    (move_robot a i r c).2 = a ∧
    (move_robot a i r c).2.m_board = a.m_board ∧
    position (move_robot a i r c).2 i = position a i ∧
    (getRobot (move_robot a i r c).2 i).in_pit = (getRobot a i).in_pit ∧
    (getRobot (move_robot a i r c).2 i).robot.get_health = (getRobot a i).robot.get_health ∧
    (getRobot (move_robot a i r c).2 i).robot.get_armor = (getRobot a i).robot.get_armor ∧
    (move_robot a i r c).2.m_alive_count = a.m_alive_count := by
  have hc : can_move_to a r c = false := by
    by_contra hne
    simp [move_robot, hne] at h
  have hs : (move_robot a i r c).2 = a := by simp [move_robot, hc]
  rw [hs]
  simp [hc]

/-- Claim C10 at a concrete input: agent 0 of `three_agent_match` is refused the
mound at (3,0). -/
theorem move_robot_rejected_atomic_witness :
    can_move_to three_agent_match 3 0 = false ∧
    (move_robot three_agent_match 0 3 0).2 = three_agent_match :=
  have h := move_robot_rejected_atomic three_agent_match 0 3 0 (by decide)
  ⟨h.1, h.2.1⟩

/-! ## Armor and terrain effects -/

/-- The record part of `apply_damage`: the victim's `RobotBase` after the hit. -/
theorem apply_damage_robot (a : Arena) (i : Nat) (amount : Int) (hi : i < a.m_robots.length) :
    (getRobot (apply_damage a i amount) i).robot =
      if (getRobot a i).robot.get_armor > 0 then
        (((getRobot a i).robot.reduce_armor 1).take_damage (amount - 3)).2
      else ((getRobot a i).robot.take_damage amount).2 := by
  unfold apply_damage
  dsimp only
  by_cases harm : (getRobot a i).robot.get_armor > 0
  · simp only [harm, decide_True, if_true]
    split_ifs <;> simp [getRobot, getD_set_eq, hi]
  · simp only [harm, decide_False, if_false, Bool.false_eq_true]
    split_ifs <;> simp [getRobot, getD_set_eq, hi]

/-- `apply_damage` leaves the pit flag and the two counters of every record as
they were. -/
theorem apply_damage_flags (a : Arena) (i : Nat) (amount : Int) (j : Nat) :
    (getRobot (apply_damage a i amount) j).in_pit = (getRobot a j).in_pit ∧
    (getRobot (apply_damage a i amount) j).stuck_count = (getRobot a j).stuck_count ∧
    (getRobot (apply_damage a i amount) j).pit_turns = (getRobot a j).pit_turns := by
  unfold apply_damage
  dsimp only
  by_cases hij : i = j
  · subst hij
    by_cases hi : i < a.m_robots.length
    · split_ifs <;> simp [getRobot, getD_set_eq, hi]
    · split_ifs <;> simp [getRobot, List.set_eq_of_length_le (Nat.le_of_not_lt hi)]
  · split_ifs <;> simp [getRobot, getD_set_ne, hij]

/-- What `clear_robot_from_board` does to a cell: nothing, or it empties a cell
that held the agent's symbol; records and grid size are untouched. -/
theorem clear_robot_from_board_cell (a : Arena) (i : Nat) (r c : Int) :
    (clear_robot_from_board a i).m_robots = a.m_robots ∧
    (clear_robot_from_board a i).m_rows = a.m_rows ∧
    (clear_robot_from_board a i).m_cols = a.m_cols ∧
    ((clear_robot_from_board a i).m_board r c = a.m_board r c ∨
      (a.m_board r c = symbol a i ∧ (clear_robot_from_board a i).m_board r c = EMPTY)) := by
  unfold clear_robot_from_board
  dsimp only
  split_ifs with h1 h2
  · refine ⟨rfl, rfl, rfl, ?_⟩
    by_cases hrc : r = (getRobot a i).robot.m_location_row ∧ c = (getRobot a i).robot.m_location_col
    · right
      obtain ⟨e1, e2⟩ := hrc
      subst e1 e2
      exact ⟨h2, by simp [setCell]⟩
    · left
      simp [setCell, hrc]
  · exact ⟨rfl, rfl, rfl, Or.inl rfl⟩
  · exact ⟨rfl, rfl, rfl, Or.inl rfl⟩

/-- Claim C11. In `apply_damage`, if the agent's armor is > 0 before the hit,
armor drops by exactly 1 and the amount handed to `take_damage` is
`amount - 3`; if armor is 0 (or below), armor is unchanged and the full amount
is handed over. The engine calls `apply_damage` with 25 (hammer), 20 (grenade),
15 (flamethrower and hazard) and 12 (railgun), so every engine hit subtracts a
strictly positive amount, at least 9. -/
theorem apply_damage_armor_mitigation (a : Arena) (i : Nat) (damage : Int)
    (hi : i < a.m_robots.length) :
    ((getRobot a i).robot.get_armor > 0 →
      (getRobot (apply_damage a i damage) i).robot.get_armor =
        (getRobot a i).robot.get_armor - 1 ∧
      (getRobot (apply_damage a i damage) i).robot =
        (((getRobot a i).robot.reduce_armor 1).take_damage (damage - 3)).2 ∧
      (getRobot (apply_damage a i damage) i).robot.get_health =
        (getRobot a i).robot.get_health - (damage - 3)) ∧
    ((getRobot a i).robot.get_armor ≤ 0 →
      (getRobot (apply_damage a i damage) i).robot.get_armor = (getRobot a i).robot.get_armor ∧
      (getRobot (apply_damage a i damage) i).robot =
        ((getRobot a i).robot.take_damage damage).2 ∧
      (getRobot (apply_damage a i damage) i).robot.get_health =
        (getRobot a i).robot.get_health - damage) ∧
    (∀ amount : Int, amount = 25 ∨ amount = 20 ∨ amount = 15 ∨ amount = 12 →
      9 ≤ (getRobot a i).robot.get_health -
            (getRobot (apply_damage a i amount) i).robot.get_health ∧
      0 < (getRobot a i).robot.get_health -
            (getRobot (apply_damage a i amount) i).robot.get_health) ∧
    (∀ r c d, shoot_hammer a r c d =
        hit_cell a (r + (directions d).1) (c + (directions d).2) 25) ∧
    (∀ r c, shoot_grenade a r c =
        (grenade_cells r c).foldl (fun s cell => hit_cell s cell.1 cell.2 20) a) ∧
    (∀ r c d, shoot_flamethrower a r c d =
        (flamethrower_cells r c d).foldl (fun s cell => hit_cell s cell.1 cell.2 15) a) ∧
    (∀ r c, a.m_board r c = FLAMETHROWER →
        check_obstacle_effects a i r c = apply_damage a i 15) ∧
    (∀ (fuel : Nat) (dr dc r c : Int), is_valid_position a r c = true →
        shoot_railgun_loop dr dc (fuel + 1) a r c =
          shoot_railgun_loop dr dc fuel (hit_cell a r c 12) (r + dr) (c + dc)) ∧
    (∀ (s : Arena) (r c amount : Int) (target : Nat), is_valid_position s r c = true →
        get_robot_at s r c = some target →
        hit_cell s r c amount = apply_damage s target amount) := by
  have key := fun amount => apply_damage_robot a i amount hi
  refine ⟨?_, ?_, ?_, fun _ _ _ => rfl, fun _ _ => rfl, fun _ _ _ => rfl, ?_, ?_, ?_⟩
  · intro h
    rw [key damage, if_pos h]
    simp [RobotBase.take_damage, RobotBase.reduce_armor, RobotBase.get_armor,
      RobotBase.get_health]
  · intro h
    rw [key damage, if_neg (not_lt.2 h)]
    simp [RobotBase.take_damage, RobotBase.get_armor, RobotBase.get_health]
  · intro amount hamount
    rw [key amount]
    split_ifs <;>
      simp only [RobotBase.take_damage, RobotBase.reduce_armor, RobotBase.get_health] <;>
      omega
  · intro r c hF
    simp [check_obstacle_effects, hF, FLAMETHROWER, PIT]
  · intro fuel dr dc r c hv
    rw [shoot_railgun_loop]
    simp only [hv, if_true, hit_cell]
  · intro s r c amount target hv hg
    simp [hit_cell, hv, hg]

/-- Claim C11 at a concrete input: a 25-point hit on agent 0 of
`two_agent_match` (armor 4, health 100) costs one armor unit and 22 points. -/
theorem apply_damage_armor_mitigation_witness :
    (getRobot (apply_damage two_agent_match 0 25) 0).robot.get_armor =
      (getRobot two_agent_match 0).robot.get_armor - 1 ∧
    (getRobot (apply_damage two_agent_match 0 25) 0).robot.get_health =
      (getRobot two_agent_match 0).robot.get_health - (25 - 3) ∧
    (getRobot (apply_damage two_agent_match 0 25) 0).robot.get_health = 78 :=
  have h := (apply_damage_armor_mitigation two_agent_match 0 25 (by decide)).1 (by decide)
  ⟨h.1, h.2.2, by decide⟩

/-- Claim C12. When `move_robot a i r c` succeeds for a registered agent whose
symbol is one of `ROBOT_SYMBOLS`: if the destination held a pit 'P' before the
call, `in_pit` becomes true and health, armor, `is_alive` and the alive count
are as before; if it held a hazard 'F', `apply_damage` with 15 is applied
exactly once (between the position update and the placing of the marker) and
`in_pit` is unchanged; for every other destination marker `in_pit`, health and
armor are unchanged. -/
theorem move_robot_terrain_effects (a : Arena) (i : Nat) (r c : Int)
    (hi : i < a.m_robots.length) (hsym : symbol a i ∈ ROBOT_SYMBOLS)
    (h : (move_robot a i r c).1 = true) :
    (a.m_board r c = PIT →
      (getRobot (move_robot a i r c).2 i).in_pit = true ∧
      (getRobot (move_robot a i r c).2 i).robot.get_health = (getRobot a i).robot.get_health ∧
      (getRobot (move_robot a i r c).2 i).robot.get_armor = (getRobot a i).robot.get_armor ∧
      (getRobot (move_robot a i r c).2 i).is_alive = (getRobot a i).is_alive ∧
      (move_robot a i r c).2.m_alive_count = a.m_alive_count) ∧
    (a.m_board r c = FLAMETHROWER →
      (move_robot a i r c).2 =
        place_robot_on_board
          (apply_damage
            (setRobot (clear_robot_from_board a i) i
              { getRobot a i with robot := (getRobot a i).robot.move_to r c })
            i 15)
          i r c ∧
      (getRobot (move_robot a i r c).2 i).in_pit = (getRobot a i).in_pit ∧
      (getRobot (move_robot a i r c).2 i).robot.get_health =
        (getRobot a i).robot.get_health -
          (if (getRobot a i).robot.get_armor > 0 then 12 else 15) ∧
      (getRobot (move_robot a i r c).2 i).robot.get_armor =
        (getRobot a i).robot.get_armor -
          (if (getRobot a i).robot.get_armor > 0 then 1 else 0)) ∧
    (a.m_board r c ≠ PIT → a.m_board r c ≠ FLAMETHROWER →
      (getRobot (move_robot a i r c).2 i).in_pit = (getRobot a i).in_pit ∧
      (getRobot (move_robot a i r c).2 i).robot.get_health = (getRobot a i).robot.get_health ∧
      (getRobot (move_robot a i r c).2 i).robot.get_armor = (getRobot a i).robot.get_armor ∧
      (getRobot (move_robot a i r c).2 i).is_alive = (getRobot a i).is_alive ∧
      (move_robot a i r c).2.m_alive_count = a.m_alive_count) := by
  have hc : can_move_to a r c = true := by
    by_contra hne
    simp [move_robot, hne] at h
  have hv : is_valid_position a r c = true := by
    by_contra hne
    simp [can_move_to, hne] at hc
  obtain ⟨hrob, hrows, hcols, hcell⟩ := clear_robot_from_board_cell a i r c
  have hget : getRobot (clear_robot_from_board a i) i = getRobot a i := by
    simp [getRobot, hrob]
  have hi1 : i < (clear_robot_from_board a i).m_robots.length := by rw [hrob]; exact hi
  have hsymP : symbol a i ≠ PIT := by
    intro e; rw [e] at hsym; revert hsym; decide
  have hsymF : symbol a i ≠ FLAMETHROWER := by
    intro e; rw [e] at hsym; revert hsym; decide
  obtain ⟨a2, ha2⟩ : ∃ a2, a2 = setRobot (clear_robot_from_board a i) i
      { getRobot a i with robot := (getRobot a i).robot.move_to r c } := ⟨_, rfl⟩
  have h2board : a2.m_board r c = (clear_robot_from_board a i).m_board r c := by rw [ha2]; rfl
  have h2get : getRobot a2 i = { getRobot a i with robot := (getRobot a i).robot.move_to r c } := by
    rw [ha2]; exact getRobot_setRobot_self _ _ _ hi1
  have hi2 : i < a2.m_robots.length := by rw [ha2]; simpa [setRobot] using hi1
  have h2count : a2.m_alive_count = a.m_alive_count := by
    rw [ha2]; unfold clear_robot_from_board; dsimp only [setRobot]; split_ifs <;> rfl
  have h2v : ∀ s : Arena, s.m_rows = a2.m_rows → s.m_cols = a2.m_cols →
      is_valid_position s r c = true := by
    intro s e1 e2
    rw [is_valid_position_congr a s (by rw [e1, ha2]; exact hrows) (by rw [e2, ha2]; exact hcols)]
    exact hv
  have hres : (move_robot a i r c).2 =
      place_robot_on_board (check_obstacle_effects a2 i r c) i r c := by
    simp [move_robot, hc, ha2, hget]
  have hplace : ∀ s : Arena, s.m_rows = a2.m_rows → s.m_cols = a2.m_cols →
      getRobot (place_robot_on_board s i r c) i = getRobot s i ∧
      (place_robot_on_board s i r c).m_alive_count = s.m_alive_count := by
    intro s e1 e2
    simp [place_robot_on_board, h2v s e1 e2, getRobot]
  refine ⟨?_, ?_, ?_⟩
  · intro hP
    have hcellP : a2.m_board r c = PIT := by
      rw [h2board]
      rcases hcell with e | ⟨e, -⟩
      · rw [e, hP]
      · exact absurd (e.symm.trans hP) hsymP
    have hcheck : check_obstacle_effects a2 i r c =
        setRobot a2 i { getRobot a2 i with
          in_pit := true, robot := (getRobot a2 i).robot.disable_movement } := by
      simp [check_obstacle_effects, hcellP]
    rw [hres, hcheck]
    obtain ⟨g1, g2⟩ := hplace (setRobot a2 i { getRobot a2 i with
          in_pit := true, robot := (getRobot a2 i).robot.disable_movement }) rfl rfl
    rw [g1, g2, getRobot_setRobot_self _ _ _ hi2, h2get]
    simp [RobotBase.disable_movement, RobotBase.move_to, RobotBase.get_health,
      RobotBase.get_armor, setRobot, h2count]
  · intro hF
    have hcellF : a2.m_board r c = FLAMETHROWER := by
      rw [h2board]
      rcases hcell with e | ⟨e, -⟩
      · rw [e, hF]
      · exact absurd (e.symm.trans hF) hsymF
    have hcheck : check_obstacle_effects a2 i r c = apply_damage a2 i 15 := by
      simp [check_obstacle_effects, hcellF, FLAMETHROWER, PIT]
    obtain ⟨f1, f2, -, -, -, -⟩ := apply_damage_frame a2 i 15
    obtain ⟨g1, -⟩ := hplace (apply_damage a2 i 15) f1 f2
    refine ⟨by rw [hres, hcheck, ha2], ?_⟩
    have hrobot := apply_damage_robot a2 i 15 hi2
    have hflags := (apply_damage_flags a2 i 15 i).1
    rw [hres, hcheck, g1, hflags, hrobot, h2get]
    simp only [RobotBase.take_damage, RobotBase.reduce_armor, RobotBase.move_to,
      RobotBase.get_health, RobotBase.get_armor]
    refine ⟨trivial, ?_, ?_⟩ <;> split_ifs <;> simp
  · intro hP hF
    have hcellP : a2.m_board r c ≠ PIT := by
      rw [h2board]
      rcases hcell with e | ⟨-, e⟩
      · rw [e]; exact hP
      · rw [e]; decide
    have hcellF : a2.m_board r c ≠ FLAMETHROWER := by
      rw [h2board]
      rcases hcell with e | ⟨-, e⟩
      · rw [e]; exact hF
      · rw [e]; decide
    have hcheck : check_obstacle_effects a2 i r c = a2 := by
      simp [check_obstacle_effects, hcellP, hcellF]
    obtain ⟨g1, g2⟩ := hplace a2 rfl rfl
    rw [hres, hcheck, g1, g2, h2get]
    simp [RobotBase.move_to, RobotBase.get_health, RobotBase.get_armor, h2count]
/-- Claim C12 at a concrete input: agent 0 of `three_agent_match` moves onto the
pit at (2,0). -/
theorem move_robot_terrain_effects_witness :
    (getRobot (move_robot three_agent_match 0 2 0).2 0).in_pit = true ∧
    (getRobot (move_robot three_agent_match 0 2 0).2 0).robot.get_health =
      (getRobot three_agent_match 0).robot.get_health :=
  have h := (move_robot_terrain_effects three_agent_match 0 2 0 (by decide) (by decide)
    (by decide)).1 (by decide)
  ⟨h.1, h.2.1⟩

/-! ## Frames -/

theorem Frame.same (a : Arena) : Frame a a :=
  ⟨rfl, rfl, rfl, rfl, rfl, rfl, fun _ => rfl, fun _ => rfl⟩

theorem Frame.andThen {a b c : Arena} (h1 : Frame a b) (h2 : Frame b c) : Frame a c :=
  ⟨h2.rows.trans h1.rows, h2.cols.trans h1.cols, h2.round.trans h1.round,
   h2.max_rounds.trans h1.max_rounds, h2.index.trans h1.index, h2.length.trans h1.length,
   fun j => (h2.character j).trans (h1.character j),
   fun j => (h2.weapon j).trans (h1.weapon j)⟩

theorem StepFrame.still (a : Arena) : StepFrame a a := ⟨Frame.same a, fun _ => rfl⟩

theorem StepFrame.followedBy {a b c : Arena} (h1 : StepFrame a b) (h2 : StepFrame b c) :
    StepFrame a c :=
  ⟨h1.1.andThen h2.1, fun j => (h2.2 j).trans (h1.2 j)⟩

/-- Reading a record after a write, whatever the indices. -/
theorem getRobot_setRobot (a : Arena) (i j : Nat) (info : RobotInfo) :
    getRobot (setRobot a i info) j =
      if i = j ∧ i < a.m_robots.length then info else getRobot a j := by
  by_cases hij : i = j
  · subst hij
    by_cases hi : i < a.m_robots.length
    · simp [getRobot_setRobot_self, hi]
    · simp [hi, getRobot, setRobot, List.set_eq_of_length_le (Nat.le_of_not_lt hi)]
  · simp [hij, getRobot_setRobot_other]

/-- A write that keeps the record's symbol, weapon and pit timer is within the
frame. -/
theorem setRobot_stepFrame (a : Arena) (i : Nat) (info : RobotInfo)
    (hc : info.robot.m_character = (getRobot a i).robot.m_character)
    (hw : info.robot.m_weapon = (getRobot a i).robot.m_weapon)
    (hp : info.pit_turns = (getRobot a i).pit_turns) :
    StepFrame a (setRobot a i info) := by
  refine ⟨⟨rfl, rfl, rfl, rfl, rfl, by simp [setRobot], ?_, ?_⟩, ?_⟩
  · intro j
    simp only [symbol, getRobot_setRobot]
    split_ifs with h
    · rw [hc, h.1]
    · rfl
  · intro j
    simp only [getRobot_setRobot]
    split_ifs with h
    · rw [hw, h.1]
    · rfl
  · intro j
    simp only [getRobot_setRobot]
    split_ifs with h
    · rw [hp, h.1]
    · rfl

/-- A change of the board alone is within the frame. -/
theorem board_stepFrame (a : Arena) (b : Int → Int → Char) :
    StepFrame a { a with m_board := b } :=
  ⟨⟨rfl, rfl, rfl, rfl, rfl, rfl, fun _ => rfl, fun _ => rfl⟩, fun _ => rfl⟩

theorem clear_robot_from_board_stepFrame (a : Arena) (i : Nat) :
    StepFrame a (clear_robot_from_board a i) := by
  unfold clear_robot_from_board
  dsimp only
  split_ifs
  · exact board_stepFrame a _
  · exact StepFrame.still a
  · exact StepFrame.still a

theorem place_robot_on_board_stepFrame (a : Arena) (i : Nat) (r c : Int) :
    StepFrame a (place_robot_on_board a i r c) := by
  unfold place_robot_on_board
  split_ifs
  · exact board_stepFrame a _
  · exact StepFrame.still a

theorem apply_damage_stepFrame (a : Arena) (i : Nat) (damage : Int) :
    StepFrame a (apply_damage a i damage) := by
  obtain ⟨h1, h2, h3, -, h5, -⟩ := apply_damage_frame a i damage
  refine ⟨⟨h1, h2, ?_, ?_, ?_, h3, h5, ?_⟩, fun j => (apply_damage_flags a i damage j).2.2⟩
  · unfold apply_damage; dsimp only; split_ifs <;> rfl
  · unfold apply_damage; dsimp only; split_ifs <;> rfl
  · unfold apply_damage; dsimp only; split_ifs <;> rfl
  · intro j
    unfold apply_damage
    dsimp only
    by_cases hij : i = j
    · subst hij
      by_cases hi : i < a.m_robots.length
      · split_ifs <;>
          simp [getRobot, getD_set_eq, hi, RobotBase.take_damage, RobotBase.reduce_armor]
      · split_ifs <;> simp [getRobot, List.set_eq_of_length_le (Nat.le_of_not_lt hi)]
    · split_ifs <;> simp [getRobot, getD_set_ne, hij]

theorem check_obstacle_effects_stepFrame (a : Arena) (i : Nat) (r c : Int) :
    StepFrame a (check_obstacle_effects a i r c) := by
  unfold check_obstacle_effects
  dsimp only
  split_ifs
  · exact setRobot_stepFrame a i _ rfl rfl rfl
  · exact apply_damage_stepFrame a i 15
  · exact StepFrame.still a

/-- The record write of an accepted move or teleport: only the position
changes. -/
theorem move_to_stepFrame (a : Arena) (i : Nat) (r c : Int) :
    StepFrame a (setRobot a i { getRobot a i with robot := (getRobot a i).robot.move_to r c }) :=
  setRobot_stepFrame a i _ rfl rfl rfl

theorem move_robot_stepFrame (a : Arena) (i : Nat) (r c : Int) :
    StepFrame a (move_robot a i r c).2 := by
  by_cases hc : can_move_to a r c = true
  · have h : (move_robot a i r c).2 =
        place_robot_on_board
          (check_obstacle_effects
            (setRobot (clear_robot_from_board a i) i
              { getRobot (clear_robot_from_board a i) i with
                robot := (getRobot (clear_robot_from_board a i) i).robot.move_to r c })
            i r c)
          i r c := by
      simp [move_robot, hc]
    rw [h]
    exact (((clear_robot_from_board_stepFrame a i).followedBy (move_to_stepFrame _ i r c)).followedBy
      (check_obstacle_effects_stepFrame _ i r c)).followedBy (place_robot_on_board_stepFrame _ i r c)
  · have h : (move_robot a i r c).2 = a := by simp [move_robot, hc]
    rw [h]
    exact StepFrame.still a

theorem hit_cell_stepFrame (a : Arena) (r c damage : Int) :
    StepFrame a (hit_cell a r c damage) := by
  unfold hit_cell
  split_ifs
  · cases get_robot_at a r c with
    | none => exact StepFrame.still a
    | some target => exact apply_damage_stepFrame a target damage
  · exact StepFrame.still a

theorem foldl_hit_cell_stepFrame (damage : Int) (cells : List (Int × Int)) :
    ∀ a : Arena,
      StepFrame a (cells.foldl (fun s cell => hit_cell s cell.1 cell.2 damage) a) := by
  induction cells with
  | nil => intro a; exact StepFrame.still a
  | cons cell rest ih =>
    intro a
    exact (hit_cell_stepFrame a cell.1 cell.2 damage).followedBy (ih _)

theorem shoot_railgun_loop_stepFrame (dr dc : Int) (fuel : Nat) :
    ∀ (a : Arena) (r c : Int) (b : Arena),
      shoot_railgun_loop dr dc fuel a r c = some b → StepFrame a b := by
  induction fuel with
  | zero =>
    intro a r c b h
    unfold shoot_railgun_loop at h
    split_ifs at h
    simp at h
    rw [← h]; exact StepFrame.still a
  | succ fuel ih =>
    intro a r c b h
    unfold shoot_railgun_loop at h
    split_ifs at h with hv
    · dsimp only at h
      cases hg : get_robot_at a r c with
      | none =>
        rw [hg] at h
        exact ih a _ _ b h
      | some target =>
        rw [hg] at h
        exact (apply_damage_stepFrame a target 12).followedBy (ih _ _ _ b h)
    · simp at h
      rw [← h]; exact StepFrame.still a

theorem handle_shooting_stepFrame (fuel : Nat) (a : Arena) (i : Nat) (shot : Option (Int × Int))
    (b : Arena) (h : handle_shooting fuel a i shot = some b) : StepFrame a b := by
  unfold handle_shooting at h
  cases shot with
  | none => simp at h; rw [← h]; exact StepFrame.still a
  | some target =>
    obtain ⟨shot_row, shot_col⟩ := target
    dsimp only at h
    cases hw : (getRobot a i).robot.get_weapon with
    | flamethrower =>
      rw [hw] at h; simp at h; rw [← h]
      exact foldl_hit_cell_stepFrame 15 _ a
    | railgun =>
      rw [hw] at h
      exact shoot_railgun_loop_stepFrame _ _ fuel a _ _ b h
    | grenade =>
      rw [hw] at h
      dsimp only at h
      split_ifs at h
      · simp at h; rw [← h]
        exact (foldl_hit_cell_stepFrame 20 _ a).followedBy (setRobot_stepFrame _ i _ rfl rfl rfl)
      · simp at h; rw [← h]; exact StepFrame.still a
    | hammer =>
      rw [hw] at h; simp at h; rw [← h]
      exact hit_cell_stepFrame a _ _ 25
theorem try_directions_at_stepFrame (i : Nat) (cr cc dist : Int) (dirs : List Int) :
    ∀ a : Arena, StepFrame a (try_directions_at i cr cc dist dirs a).2 := by
  induction dirs with
  | nil => intro a; exact StepFrame.still a
  | cons dir rest ih =>
    intro a
    unfold try_directions_at
    dsimp only
    split_ifs
    · exact move_robot_stepFrame a i _ _
    · exact (move_robot_stepFrame a i _ _).followedBy (ih _)

theorem try_distances_stepFrame (i : Nat) (cr cc : Int) (order : List Int) (n : Nat) :
    ∀ (dist : Int) (a : Arena), StepFrame a (try_distances i cr cc order n dist a).2 := by
  induction n with
  | zero => intro dist a; exact StepFrame.still a
  | succ n ih =>
    intro dist a
    unfold try_distances
    dsimp only
    split_ifs
    · exact try_directions_at_stepFrame i cr cc dist order a
    · exact (try_directions_at_stepFrame i cr cc dist order a).followedBy (ih _ _)

theorem try_multiple_directions_stepFrame (a : Arena) (i : Nat) (preferred distance : Int)
    (all_dirs : List Int) :
    StepFrame a (try_multiple_directions a i preferred distance all_dirs).2 := by
  unfold try_multiple_directions
  dsimp only
  split_ifs
  · exact try_distances_stepFrame i _ _ _ _ _ a
  · exact (try_distances_stepFrame i _ _ _ _ _ a).followedBy (try_directions_at_stepFrame i _ _ 1 _ _)

/-- A write of the stuck counter alone. -/
theorem stuck_count_stepFrame (a : Arena) (i : Nat) (n : Int) :
    StepFrame a (setRobot a i { getRobot a i with stuck_count := n }) :=
  setRobot_stepFrame a i _ rfl rfl rfl

theorem stuck_loop_stepFrame (i : Nat) (draws : Nat → Int × Int) (n : Nat) :
    ∀ (attempt : Nat) (a : Arena), StepFrame a (stuck_loop i draws n attempt a) := by
  induction n with
  | zero => intro attempt a; exact stuck_count_stepFrame a i 0
  | succ n ih =>
    intro attempt a
    unfold stuck_loop
    dsimp only
    split_ifs
    · exact ((move_to_stepFrame a i _ _).followedBy (place_robot_on_board_stepFrame _ i _ _)).followedBy
        (stuck_count_stepFrame _ i 0)
    · exact ih _ a

theorem handle_stuck_robot_stepFrame (a : Arena) (i : Nat) (draws : Nat → Int × Int) :
    StepFrame a (handle_stuck_robot a i draws) :=
  (clear_robot_from_board_stepFrame a i).followedBy (stuck_loop_stepFrame i draws 100 0 _)

/-- A write of the pit flag alone. -/
theorem in_pit_stepFrame (a : Arena) (i : Nat) (flag : Bool) :
    StepFrame a (setRobot a i { getRobot a i with in_pit := flag }) :=
  setRobot_stepFrame a i _ rfl rfl rfl

/-- The relocation shared by both phases of `handle_pit_escape`. -/
theorem relocate_stepFrame (a : Arena) (i : Nat) (r c : Int) :
    StepFrame a
      (setRobot
        (place_robot_on_board
          (setRobot (clear_robot_from_board a i) i
            { getRobot (clear_robot_from_board a i) i with
              robot := (getRobot (clear_robot_from_board a i) i).robot.move_to r c })
          i r c)
        i
        { getRobot
            (place_robot_on_board
              (setRobot (clear_robot_from_board a i) i
                { getRobot (clear_robot_from_board a i) i with
                  robot := (getRobot (clear_robot_from_board a i) i).robot.move_to r c })
              i r c) i with in_pit := false }) :=
  (((clear_robot_from_board_stepFrame a i).followedBy (move_to_stepFrame _ i r c)).followedBy
    (place_robot_on_board_stepFrame _ i r c)).followedBy (in_pit_stepFrame _ i false)

theorem escape_adjacent_stepFrame (i : Nat) (cr cc : Int) (dirs : List Int) :
    ∀ (a b : Arena), escape_adjacent i cr cc dirs a = some b → StepFrame a b := by
  induction dirs with
  | nil => intro a b h; simp [escape_adjacent] at h
  | cons dir rest ih =>
    intro a b h
    unfold escape_adjacent at h
    dsimp only at h
    split_ifs at h
    · simp at h
      rw [← h]
      exact relocate_stepFrame a i _ _
    · exact ih a b h

theorem escape_teleport_stepFrame (i : Nat) (draws : Nat → Int × Int) (n : Nat) :
    ∀ (attempt : Nat) (a : Arena), StepFrame a (escape_teleport i draws n attempt a) := by
  induction n with
  | zero => intro attempt a; exact StepFrame.still a
  | succ n ih =>
    intro attempt a
    unfold escape_teleport
    dsimp only
    split_ifs
    · exact relocate_stepFrame a i _ _
    · exact ih _ a

theorem handle_pit_escape_stepFrame (a : Arena) (i : Nat) (dirs : List Int)
    (draws : Nat → Int × Int) : StepFrame a (handle_pit_escape a i dirs draws) := by
  unfold handle_pit_escape
  dsimp only
  cases h : escape_adjacent i (getRobot a i).robot.m_location_row
      (getRobot a i).robot.m_location_col dirs a with
  | none => exact escape_teleport_stepFrame i draws 50 0 a
  | some b => exact escape_adjacent_stepFrame i _ _ dirs a b h

theorem handle_movement_stepFrame (a : Arena) (i : Nat) (inp : TurnInput) :
    StepFrame a (handle_movement a i inp) := by
  unfold handle_movement
  dsimp only
  by_cases h0 : inp.move_direction = 0 ∨ inp.move_distance = 0
  · rw [if_pos h0]; exact StepFrame.still a
  · rw [if_neg h0]
    have hm := move_robot_stepFrame a i
      ((getRobot a i).robot.m_location_row +
        (directions inp.move_direction).1 *
          min inp.move_distance (getRobot a i).robot.get_move_speed)
      ((getRobot a i).robot.m_location_col +
        (directions inp.move_direction).2 *
          min inp.move_distance (getRobot a i).robot.get_move_speed)
    generalize move_robot a i
      ((getRobot a i).robot.m_location_row +
        (directions inp.move_direction).1 *
          min inp.move_distance (getRobot a i).robot.get_move_speed)
      ((getRobot a i).robot.m_location_col +
        (directions inp.move_direction).2 *
          min inp.move_distance (getRobot a i).robot.get_move_speed) = res at hm ⊢
    obtain ⟨moved, a1⟩ := res
    cases moved with
    | true =>
      simp only [not_true_eq_false, if_false, if_true]
      exact hm.followedBy (stuck_count_stepFrame a1 i 0)
    | false =>
      simp only [Bool.false_eq_true, not_false_eq_true, if_true]
      have ht := try_multiple_directions_stepFrame a1 i inp.move_direction
        (min inp.move_distance (getRobot a i).robot.get_move_speed) inp.all_dirs
      generalize try_multiple_directions a1 i inp.move_direction
        (min inp.move_distance (getRobot a i).robot.get_move_speed) inp.all_dirs = res2 at ht ⊢
      obtain ⟨moved2, a2⟩ := res2
      cases moved2 with
      | true =>
        simp only [not_true_eq_false, if_false, if_true]
        exact (hm.followedBy ht).followedBy (stuck_count_stepFrame a2 i 0)
      | false =>
        simp only [Bool.false_eq_true, not_false_eq_true, if_true]
        have h3 := stuck_count_stepFrame a2 i ((getRobot a2 i).stuck_count + 1)
        generalize setRobot a2 i
          { getRobot a2 i with stuck_count := (getRobot a2 i).stuck_count + 1 } = a3 at h3 ⊢
        have h4 : StepFrame a a3 := (hm.followedBy ht).followedBy h3
        by_cases hs : (getRobot a3 i).stuck_count ≥ 1
        · simp only [hs, if_true]
          exact (h4.followedBy (handle_stuck_robot_stepFrame a3 i _)).followedBy
            (stuck_count_stepFrame _ i 0)
        · simp only [hs, if_false, Bool.false_eq_true]
          exact h4

/-! ## The pit timer -/

/-- A write of the pit timer alone keeps the static frame. -/
theorem pit_turns_frame (a : Arena) (i : Nat) (n : Int) :
    Frame a (setRobot a i { getRobot a i with pit_turns := n }) := by
  refine ⟨rfl, rfl, rfl, rfl, rfl, by simp [setRobot], ?_, ?_⟩
  · intro j
    simp only [symbol, getRobot_setRobot]
    split_ifs with h
    · rw [h.1]
    · rfl
  · intro j
    simp only [getRobot_setRobot]
    split_ifs with h
    · rw [h.1]
    · rfl

/-- Only a registered agent can be in a pit: the record read outside the vector
is not. -/
theorem lt_length_of_in_pit (a : Arena) (i : Nat) (h : (getRobot a i).in_pit = true) :
    i < a.m_robots.length := by
  by_contra hi
  have : getRobot a i = default := by
    unfold getRobot
    rw [List.getD_eq_getElem?_getD, List.getElem?_eq_none (Nat.le_of_not_lt hi)]
    rfl
  rw [this] at h
  exact absurd h (by decide)

/-- The two shapes of a turn in a pit. -/
theorem robot_turn_in_pit (fuel : Nat) (a : Arena) (i : Nat) (inp : TurnInput)
    (hpit : (getRobot a i).in_pit = true) :
    ((getRobot a i).pit_turns + 1 < 5 →
      robot_turn fuel a i inp =
        handle_shooting fuel
          (setRobot a i { getRobot a i with pit_turns := (getRobot a i).pit_turns + 1 })
          i inp.shot) ∧
    ((getRobot a i).pit_turns + 1 ≥ 5 →
      robot_turn fuel a i inp =
        handle_shooting fuel
          (setRobot
            (handle_pit_escape
              (setRobot a i { getRobot a i with pit_turns := (getRobot a i).pit_turns + 1 })
              i inp.escape_dirs inp.escape_draws)
            i
            { getRobot
                (handle_pit_escape
                  (setRobot a i
                    { getRobot a i with pit_turns := (getRobot a i).pit_turns + 1 })
                  i inp.escape_dirs inp.escape_draws) i with pit_turns := 0 })
          i inp.shot) := by
  have hi := lt_length_of_in_pit a i hpit
  have hnot : ¬ ¬ (getRobot a i).in_pit = true := fun hn => hn hpit
  constructor
  · intro h
    unfold robot_turn
    dsimp only
    rw [if_neg hnot, getRobot_setRobot_self _ _ _ hi]
    dsimp only
    rw [if_neg (by omega)]
  · intro h
    unfold robot_turn
    dsimp only
    rw [if_neg hnot, getRobot_setRobot_self _ _ _ hi]
    dsimp only
    rw [if_pos h]

/-- A turn outside a pit is movement followed by shooting. -/
theorem robot_turn_not_in_pit (fuel : Nat) (a : Arena) (i : Nat) (inp : TurnInput)
    (hpit : (getRobot a i).in_pit = false) :
    robot_turn fuel a i inp = handle_shooting fuel (handle_movement a i inp) i inp.shot := by
  unfold robot_turn
  simp [hpit]

/-- The pit timers after a turn: the acting agent's timer steps or resets when it
is in a pit, every other timer is as before. -/
theorem robot_turn_pit_turns (fuel : Nat) (a : Arena) (i : Nat) (inp : TurnInput) (b : Arena)
    (h : robot_turn fuel a i inp = some b) (j : Nat) :
    (getRobot b j).pit_turns =
      if j = i ∧ (getRobot a i).in_pit = true then
        (if (getRobot a i).pit_turns + 1 ≥ 5 then 0 else (getRobot a i).pit_turns + 1)
      else (getRobot a j).pit_turns := by
  cases hpit : (getRobot a i).in_pit with
  | false =>
    rw [robot_turn_not_in_pit fuel a i inp hpit] at h
    have h1 := (handle_movement_stepFrame a i inp).2 j
    have h2 := (handle_shooting_stepFrame fuel _ i inp.shot b h).2 j
    simp [h2, h1]
  | true =>
    have hi := lt_length_of_in_pit a i hpit
    obtain ⟨e1, e2⟩ := robot_turn_in_pit fuel a i inp hpit
    by_cases hk : (getRobot a i).pit_turns + 1 ≥ 5
    · rw [e2 hk] at h
      have h2 := (handle_shooting_stepFrame fuel _ i inp.shot b h).2 j
      rw [h2, getRobot_setRobot]
      have hlen := (handle_pit_escape_stepFrame
        (setRobot a i { getRobot a i with pit_turns := (getRobot a i).pit_turns + 1 })
        i inp.escape_dirs inp.escape_draws).1.length
      have hesc := (handle_pit_escape_stepFrame
        (setRobot a i { getRobot a i with pit_turns := (getRobot a i).pit_turns + 1 })
        i inp.escape_dirs inp.escape_draws).2 j
      by_cases hji : j = i
      · subst hji
        have hi' : j < (handle_pit_escape
            (setRobot a j { getRobot a j with pit_turns := (getRobot a j).pit_turns + 1 })
            j inp.escape_dirs inp.escape_draws).m_robots.length := by
          rw [hlen]; simpa [setRobot] using hi
        simp [hi', hk]
      · have hij : ¬ (i = j) := fun e => hji e.symm
        simp only [hij, false_and, if_false, hji]
        rw [hesc, getRobot_setRobot_other _ _ _ _ hij]
    · rw [e1 (by omega)] at h
      have h2 := (handle_shooting_stepFrame fuel _ i inp.shot b h).2 j
      rw [h2, getRobot_setRobot]
      by_cases hji : j = i
      · subst hji
        simp [hi, hk]
      · have hij : ¬ (i = j) := fun e => hji e.symm
        simp [hij, hji]

/-- Pit timers within 0..4 stay within 0..4 along every sequence of turns. -/
theorem pit_turns_bounded_of_reachable (a0 s : Arena) (hr : Reachable a0 s)
    (h0 : ∀ j, 0 ≤ (getRobot a0 j).pit_turns ∧ (getRobot a0 j).pit_turns ≤ 4) :
    ∀ j, 0 ≤ (getRobot s j).pit_turns ∧ (getRobot s j).pit_turns ≤ 4 := by
  induction hr with
  | start => exact h0
  | turn fuel i inp _ _ hturn ih =>
    intro j
    rw [robot_turn_pit_turns fuel _ i inp _ hturn j]
    have hj := ih j
    have hi := ih i
    split_ifs <;> omega
/-- Claim C13. For an agent with `in_pit = true` and `pit_turns = k` at the start
of its turn, the turn does not go through `handle_movement`. If `k + 1 < 5` the
turn is the timer write followed by shooting: no escape attempt, `pit_turns`
becomes `k + 1`, and `in_pit`, the position and the board are as before the
movement phase. If `k + 1 >= 5` the turn is the timer write, one
`handle_pit_escape`, the reset of `pit_turns` to 0, then shooting; after the turn
`pit_turns` is 0 whatever the escape did. Hence timers that start in 0..4 are in
0..4 in every state reached by turns. -/
theorem pit_escape_timing (fuel : Nat) (a : Arena) (i : Nat) (inp : TurnInput)
    (hpit : (getRobot a i).in_pit = true) :
    ((getRobot a i).pit_turns + 1 < 5 →
      robot_turn fuel a i inp =
        handle_shooting fuel
          (setRobot a i { getRobot a i with pit_turns := (getRobot a i).pit_turns + 1 })
          i inp.shot ∧
      (getRobot (setRobot a i
          { getRobot a i with pit_turns := (getRobot a i).pit_turns + 1 }) i).pit_turns =
        (getRobot a i).pit_turns + 1 ∧
      (getRobot (setRobot a i
          { getRobot a i with pit_turns := (getRobot a i).pit_turns + 1 }) i).in_pit = true ∧
      position (setRobot a i
          { getRobot a i with pit_turns := (getRobot a i).pit_turns + 1 }) i = position a i ∧
      (setRobot a i
          { getRobot a i with pit_turns := (getRobot a i).pit_turns + 1 }).m_board = a.m_board ∧
      (∀ b, robot_turn fuel a i inp = some b →
        (getRobot b i).pit_turns = (getRobot a i).pit_turns + 1)) ∧
    ((getRobot a i).pit_turns + 1 ≥ 5 →
      robot_turn fuel a i inp =
        handle_shooting fuel
          (setRobot
            (handle_pit_escape
              (setRobot a i { getRobot a i with pit_turns := (getRobot a i).pit_turns + 1 })
              i inp.escape_dirs inp.escape_draws)
            i
            { getRobot
                (handle_pit_escape
                  (setRobot a i
                    { getRobot a i with pit_turns := (getRobot a i).pit_turns + 1 })
                  i inp.escape_dirs inp.escape_draws) i with pit_turns := 0 })
          i inp.shot ∧
      (∀ b, robot_turn fuel a i inp = some b → (getRobot b i).pit_turns = 0)) ∧
    (∀ a0 s : Arena, Reachable a0 s →
      (∀ j, 0 ≤ (getRobot a0 j).pit_turns ∧ (getRobot a0 j).pit_turns ≤ 4) →
      ∀ j, 0 ≤ (getRobot s j).pit_turns ∧ (getRobot s j).pit_turns ≤ 4) := by
  have hi := lt_length_of_in_pit a i hpit
  obtain ⟨e1, e2⟩ := robot_turn_in_pit fuel a i inp hpit
  refine ⟨?_, ?_, fun a0 s hr h0 => pit_turns_bounded_of_reachable a0 s hr h0⟩
  · intro hk
    refine ⟨e1 hk, ?_, ?_, ?_, rfl, ?_⟩
    · rw [getRobot_setRobot_self _ _ _ hi]
    · rw [getRobot_setRobot_self _ _ _ hi]; exact hpit
    · simp only [position]; rw [getRobot_setRobot_self _ _ _ hi]
    · intro b hb
      rw [robot_turn_pit_turns fuel a i inp b hb i]
      simp only [hpit, and_self, if_true]
      rw [if_neg (by omega)]
  · intro hk
    refine ⟨e2 hk, ?_⟩
    intro b hb
    rw [robot_turn_pit_turns fuel a i inp b hb i]
    simp only [hpit, and_self, if_true]
    rw [if_pos hk]

/-- Claim C13 at a concrete input: agent 0 of `three_agent_pit` is in the pit
with timer 0; after its idle turn the timer is 1. -/
theorem pit_escape_timing_witness :
    (getRobot three_agent_pit 0).in_pit = true ∧
    (getRobot (after_turn 0 three_agent_pit 0 idle) 0).pit_turns =
      (getRobot three_agent_pit 0).pit_turns + 1 :=
  ⟨by decide,
   ((pit_escape_timing 0 three_agent_pit 0 idle (by decide)).1 (by decide)).2.2.2.2.2 _
     (robot_turn_eq_some 0 three_agent_pit 0 idle (by decide))⟩

/-! ## Frames of a turn, a round and the game loop -/

theorem robot_turn_frame (fuel : Nat) (a : Arena) (i : Nat) (inp : TurnInput) (b : Arena)
    (h : robot_turn fuel a i inp = some b) : Frame a b := by
  cases hpit : (getRobot a i).in_pit with
  | false =>
    rw [robot_turn_not_in_pit fuel a i inp hpit] at h
    exact (handle_movement_stepFrame a i inp).1.andThen
      (handle_shooting_stepFrame fuel _ i inp.shot b h).1
  | true =>
    obtain ⟨e1, e2⟩ := robot_turn_in_pit fuel a i inp hpit
    by_cases hk : (getRobot a i).pit_turns + 1 ≥ 5
    · rw [e2 hk] at h
      exact (((pit_turns_frame a i _).andThen (handle_pit_escape_stepFrame _ i _ _).1).andThen
        (pit_turns_frame _ i 0)).andThen (handle_shooting_stepFrame fuel _ i inp.shot b h).1
    · rw [e1 (by omega)] at h
      exact (pit_turns_frame a i _).andThen (handle_shooting_stepFrame fuel _ i inp.shot b h).1

theorem run_round_loop_frame (fuel : Nat) (inputs : Nat → TurnInput) (n : Nat) :
    ∀ (i : Nat) (a b : Arena), run_round_loop fuel inputs n i a = some b → Frame a b := by
  induction n with
  | zero =>
    intro i a b h
    simp [run_round_loop] at h
    rw [← h]; exact Frame.same a
  | succ n ih =>
    intro i a b h
    unfold run_round_loop at h
    by_cases halive : (getRobot a i).is_alive = true
    · rw [if_pos halive] at h
      cases hr : robot_turn fuel a i (inputs i) with
      | none => rw [hr] at h; simp at h
      | some a1 =>
        rw [hr] at h
        exact (robot_turn_frame fuel a i (inputs i) a1 hr).andThen (ih (i + 1) a1 b h)
    · rw [if_neg halive] at h
      exact ih (i + 1) a b h

theorem run_round_frame (fuel : Nat) (a b : Arena) (inputs : Nat → TurnInput)
    (h : run_round fuel a inputs = some b) : Frame a b :=
  run_round_loop_frame fuel inputs a.m_robots.length 0 a b h

/-! ## The flamethrower band -/

/-- Claim C14 (not met by the code). Aiming north-east (direction 2, vector
(-1, 1)) from (10,10), the three cells examined at each depth are displaced by
multiples of (1, -1), which is not orthogonal to the aim vector but parallel to
it: all 12 cells examined lie on the aim ray itself, they are only 6 distinct
cells, and one of them is the shooter's own cell. -/
theorem flamethrower_band_on_diagonal :
    directions 2 = (-1, 1) ∧
    flamethrower_cells 10 10 2 =
      [(8, 12), (9, 11), (10, 10), (7, 13), (8, 12), (9, 11),
       (6, 14), (7, 13), (8, 12), (5, 15), (6, 14), (7, 13)] ∧
    (directions 2).1 * (directions 2).2 + (directions 2).2 * (directions 2).1 ≠ 0 ∧
    (flamethrower_cells 10 10 2).dedup.length = 6 ∧
    ((10, 10) : Int × Int) ∈ flamethrower_cells 10 10 2 ∧
    (∀ cell ∈ flamethrower_cells 10 10 2,
      ∃ k : Int, cell = (10 + (directions 2).1 * k, 10 + (directions 2).2 * k)) := by
  refine ⟨by decide, by decide, by decide, by decide, by decide, ?_⟩
  intro cell hcell
  have h : flamethrower_cells 10 10 2 =
      [(8, 12), (9, 11), (10, 10), (7, 13), (8, 12), (9, 11),
       (6, 14), (7, 13), (8, 12), (5, 15), (6, 14), (7, 13)] := by decide
  rw [h] at hcell
  simp only [List.mem_cons, List.mem_singleton, List.not_mem_nil, or_false] at hcell
  have hd : directions 2 = (-1, 1) := by decide
  rw [hd]
  rcases hcell with e | e | e | e | e | e | e | e | e | e | e | e <;> subst e
  · exact ⟨2, by decide⟩
  · exact ⟨1, by decide⟩
  · exact ⟨0, by decide⟩
  · exact ⟨3, by decide⟩
  · exact ⟨2, by decide⟩
  · exact ⟨1, by decide⟩
  · exact ⟨4, by decide⟩
  · exact ⟨3, by decide⟩
  · exact ⟨2, by decide⟩
  · exact ⟨5, by decide⟩
  · exact ⟨4, by decide⟩
  · exact ⟨3, by decide⟩

/-- On the four axis directions the band is perpendicular to the aim: the
displacement `(dc, dr)` is orthogonal to `(dr, dc)` and the 12 cells are
distinct. -/
theorem flamethrower_band_on_axis (shooter_row shooter_col direction : Int)
    (h : direction = 1 ∨ direction = 3 ∨ direction = 5 ∨ direction = 7) :
    (directions direction).1 * (directions direction).2 +
      (directions direction).2 * (directions direction).1 = 0 ∧
    (flamethrower_cells shooter_row shooter_col direction).Nodup := by
  rcases h with h | h | h | h <;> subst h <;>
    refine ⟨by decide, ?_⟩ <;>
    simp [flamethrower_cells, directions, List.flatMap]

/-! ## The aim direction -/

/-- The three-way comparison of `handle_shooting` is the sign of the
difference. -/
theorem aim_sign_cases (target shooter : Int) :
    (target > shooter ∧ aim_sign target shooter = 1) ∨
    (target < shooter ∧ aim_sign target shooter = -1) ∨
    (target = shooter ∧ aim_sign target shooter = 0) := by
  unfold aim_sign
  rcases lt_trichotomy target shooter with h | h | h
  · right; left
    exact ⟨h, by simp [h, not_lt.2 (le_of_lt h)]⟩
  · right; right
    exact ⟨h, by simp [h]⟩
  · left
    exact ⟨h, by simp [h]⟩

theorem aim_sign_eq_sign (target shooter : Int) :
    aim_sign target shooter = Int.sign (target - shooter) := by
  rcases aim_sign_cases target shooter with ⟨h, e⟩ | ⟨h, e⟩ | ⟨h, e⟩
  · rw [e, Int.sign_eq_one_of_pos (by omega)]
  · rw [e, Int.sign_eq_neg_one_of_neg (by omega)]
  · rw [e, h]; simp

/-- How `handle_shooting` uses the derived direction for the three directional
weapons. -/
theorem handle_shooting_directional (fuel : Nat) (a : Arena) (i : Nat)
    (shooter_row shooter_col shot_row shot_col : Int)
    (hpos : position a i = (shooter_row, shooter_col)) :
    ((getRobot a i).robot.get_weapon = WeaponType.flamethrower →
      handle_shooting fuel a i (some (shot_row, shot_col)) =
        some (shoot_flamethrower a shooter_row shooter_col
          (find_direction (aim_sign shot_row shooter_row)
            (aim_sign shot_col shooter_col)))) ∧
    ((getRobot a i).robot.get_weapon = WeaponType.railgun →
      handle_shooting fuel a i (some (shot_row, shot_col)) =
        shoot_railgun fuel a shooter_row shooter_col
          (find_direction (aim_sign shot_row shooter_row)
            (aim_sign shot_col shooter_col))) ∧
    ((getRobot a i).robot.get_weapon = WeaponType.hammer →
      handle_shooting fuel a i (some (shot_row, shot_col)) =
        some (shoot_hammer a shooter_row shooter_col
          (find_direction (aim_sign shot_row shooter_row)
            (aim_sign shot_col shooter_col)))) := by
  have hr : (getRobot a i).robot.m_location_row = shooter_row := congrArg Prod.fst hpos
  have hc : (getRobot a i).robot.m_location_col = shooter_col := congrArg Prod.snd hpos
  refine ⟨?_, ?_, ?_⟩ <;> intro hw <;> simp [handle_shooting, hw, hr, hc]

/-- Claim C17, amended. For every shooter coordinate and target coordinate, the
direction `handle_shooting` derives for the flamethrower, the railgun and the
hammer is in 0..8 and its vector is (sign(target_row - shooter_row),
sign(target_col - shooter_col)); it is one of the 8 directions 1..8 whenever the
target is not the shooter's own cell. -/
theorem aim_direction_mapped (shooter_row shooter_col shot_row shot_col : Int) :
    directions (find_direction (aim_sign shot_row shooter_row) (aim_sign shot_col shooter_col)) =
      (Int.sign (shot_row - shooter_row), Int.sign (shot_col - shooter_col)) ∧
    0 ≤ find_direction (aim_sign shot_row shooter_row) (aim_sign shot_col shooter_col) ∧
    find_direction (aim_sign shot_row shooter_row) (aim_sign shot_col shooter_col) ≤ 8 ∧
    ((shot_row, shot_col) ≠ (shooter_row, shooter_col) →
      1 ≤ find_direction (aim_sign shot_row shooter_row) (aim_sign shot_col shooter_col)) ∧
    (∀ (fuel : Nat) (a : Arena) (i : Nat),
      position a i = (shooter_row, shooter_col) →
      ((getRobot a i).robot.get_weapon = WeaponType.flamethrower →
        handle_shooting fuel a i (some (shot_row, shot_col)) =
          some (shoot_flamethrower a shooter_row shooter_col
            (find_direction (aim_sign shot_row shooter_row)
              (aim_sign shot_col shooter_col)))) ∧
      ((getRobot a i).robot.get_weapon = WeaponType.railgun →
        handle_shooting fuel a i (some (shot_row, shot_col)) =
          shoot_railgun fuel a shooter_row shooter_col
            (find_direction (aim_sign shot_row shooter_row)
              (aim_sign shot_col shooter_col))) ∧
      ((getRobot a i).robot.get_weapon = WeaponType.hammer →
        handle_shooting fuel a i (some (shot_row, shot_col)) =
          some (shoot_hammer a shooter_row shooter_col
            (find_direction (aim_sign shot_row shooter_row)
              (aim_sign shot_col shooter_col))))) := by
  rw [← aim_sign_eq_sign, ← aim_sign_eq_sign]
  refine ⟨?_, ?_, ?_, ?_, ?_⟩
  · rcases aim_sign_cases shot_row shooter_row with ⟨-, e⟩ | ⟨-, e⟩ | ⟨-, e⟩ <;>
      rcases aim_sign_cases shot_col shooter_col with ⟨-, f⟩ | ⟨-, f⟩ | ⟨-, f⟩ <;>
      rw [e, f] <;> decide
  · rcases aim_sign_cases shot_row shooter_row with ⟨-, e⟩ | ⟨-, e⟩ | ⟨-, e⟩ <;>
      rcases aim_sign_cases shot_col shooter_col with ⟨-, f⟩ | ⟨-, f⟩ | ⟨-, f⟩ <;>
      rw [e, f] <;> decide
  · rcases aim_sign_cases shot_row shooter_row with ⟨-, e⟩ | ⟨-, e⟩ | ⟨-, e⟩ <;>
      rcases aim_sign_cases shot_col shooter_col with ⟨-, f⟩ | ⟨-, f⟩ | ⟨-, f⟩ <;>
      rw [e, f] <;> decide
  · intro hne
    rcases aim_sign_cases shot_row shooter_row with ⟨h1, e⟩ | ⟨h1, e⟩ | ⟨h1, e⟩ <;>
      rcases aim_sign_cases shot_col shooter_col with ⟨h2, f⟩ | ⟨h2, f⟩ | ⟨h2, f⟩ <;>
      rw [e, f]
    all_goals first
      | decide
      | exact absurd (by rw [h1, h2]) hne
  · intro fuel a i hpos
    exact handle_shooting_directional fuel a i shooter_row shooter_col shot_row shot_col hpos

/-- Claim C17 as stated fails when the agent names its own cell: agent 1 of
`two_agent_match` stands on (5,6) with the hammer; for the target (5,6) the
derived direction is the sentinel 0, not one of 1..8, and `handle_shooting` runs
the hammer with direction 0. -/
theorem aim_direction_own_cell :
    position two_agent_match 1 = (5, 6) ∧
    (getRobot two_agent_match 1).robot.get_weapon = WeaponType.hammer ∧
    find_direction (aim_sign 5 5) (aim_sign 6 6) = 0 ∧
    ¬ (1 ≤ find_direction (aim_sign 5 5) (aim_sign 6 6)) ∧
    handle_shooting 0 two_agent_match 1 (some (5, 6)) =
      some (shoot_hammer two_agent_match 5 6 0) := by
  refine ⟨by decide, by decide, by decide, by decide, ?_⟩
  exact (handle_shooting_directional 0 two_agent_match 1 5 6 5 6 (by decide)).2.2 (by decide)

/-- Claim C17, amended, at a concrete input: from (5,6) to the target (5,5) the
derived direction is 7 (west). -/
theorem aim_direction_mapped_witness :
    find_direction (aim_sign 5 5) (aim_sign 5 6) = 7 ∧
    1 ≤ find_direction (aim_sign 5 5) (aim_sign 5 6) :=
  ⟨by decide, (aim_direction_mapped 5 6 5 5).2.2.2.1 (by decide)⟩

/-! ## The game loop -/

theorem is_game_over_iff (a : Arena) :
    is_game_over a = true ↔ (a.m_alive_count ≤ 1 ∨ a.m_round ≥ a.m_max_rounds) := by
  simp [is_game_over]

/-- If every round returns, the game loop stops within `m_max_rounds - m_round`
iterations, in a state where the game is over, having stepped the round counter
once per executed round and never beyond the limit. -/
theorem run_game_loop_bounded (fuel : Nat) (inputs : Nat → Nat → TurnInput)
    (hret : ∀ (k : Nat) (s : Arena), (run_round fuel s (inputs k)).isSome = true) (n : Nat) :
    ∀ (k : Nat) (a : Arena), a.m_max_rounds - a.m_round ≤ n →
      ∃ b, run_game_loop fuel inputs n k a = some b ∧ is_game_over b = true ∧
        a.m_round ≤ b.m_round ∧ b.m_round ≤ max a.m_round a.m_max_rounds ∧
        b.m_max_rounds = a.m_max_rounds := by
  induction n with
  | zero =>
    intro k a hn
    have hover : is_game_over a = true := (is_game_over_iff a).2 (Or.inr (by simp at hn; omega))
    exact ⟨a, by simp [run_game_loop, hover], hover, le_refl _, le_max_left _ _, rfl⟩
  | succ n ih =>
    intro k a hn
    by_cases hover : is_game_over a = true
    · exact ⟨a, by simp [run_game_loop, hover], hover, le_refl _, le_max_left _ _, rfl⟩
    · have hnot : ¬ (a.m_alive_count ≤ 1 ∨ a.m_round ≥ a.m_max_rounds) :=
        fun h => hover ((is_game_over_iff a).2 h)
      have hlt : a.m_round < a.m_max_rounds := by
        by_contra hge
        exact hnot (Or.inr (not_lt.1 hge))
      cases hr : run_round fuel a (inputs k) with
      | none =>
        have := hret k a
        rw [hr] at this
        simp at this
      | some a1 =>
        have hf := run_round_frame fuel a a1 (inputs k) hr
        obtain ⟨b, hb, hb1, hb2, hb3, hb4⟩ :=
          ih (k + 1) { a1 with m_round := a1.m_round + 1 } (by
            show a1.m_max_rounds - (a1.m_round + 1) ≤ (n : Int)
            rw [hf.round, hf.max_rounds]
            push_cast at hn
            omega)
        refine ⟨b, ?_, hb1, ?_, ?_, ?_⟩
        · unfold run_game_loop
          rw [if_neg hover, hr]
          exact hb
        · have : a1.m_round + 1 ≤ b.m_round := hb2
          rw [hf.round] at this
          omega
        · have h1 : b.m_round ≤ max (a1.m_round + 1) a1.m_max_rounds := hb3
          rw [hf.round, hf.max_rounds] at h1
          rw [max_eq_right (le_of_lt hlt)]
          rw [max_eq_right (by omega)] at h1
          exact h1
        · have : b.m_max_rounds = a1.m_max_rounds := hb4
          rw [this, hf.max_rounds]

/-- A railgun loop with the zero vector never leaves an in-bounds cell. -/
theorem shoot_railgun_loop_zero_vector (fuel : Nat) :
    ∀ (a : Arena) (r c : Int), is_valid_position a r c = true →
      shoot_railgun_loop 0 0 fuel a r c = none := by
  induction fuel with
  | zero =>
    intro a r c hv
    simp [shoot_railgun_loop, hv]
  | succ fuel ih =>
    intro a r c hv
    unfold shoot_railgun_loop
    rw [if_pos hv]
    dsimp only
    rw [add_zero, add_zero]
    apply ih
    cases hg : get_robot_at a r c with
    | none => exact hv
    | some target =>
      have hf := (apply_damage_stepFrame a target 12).1
      dsimp only
      rw [is_valid_position_congr a _ hf.rows hf.cols]
      exact hv

/-- With the own cell as target, the turn of the railgun agent of
`two_agent_match` does not return, whatever the fuel. -/
theorem own_cell_turn_never_returns (fuel : Nat) :
    robot_turn fuel two_agent_match 0 (own_cell_rounds 0 0) = none := by
  rw [robot_turn_not_in_pit fuel two_agent_match 0 _ (by decide)]
  have hmove : handle_movement two_agent_match 0 (own_cell_rounds 0 0) = two_agent_match := by
    unfold handle_movement
    dsimp only
    rw [if_pos (Or.inl (by decide))]
  rw [hmove]
  have hshot : (own_cell_rounds 0 0).shot = some (5, 5) := by decide
  rw [hshot]
  rw [(handle_shooting_directional fuel two_agent_match 0 5 5 5 5 (by decide)).2.1 (by decide)]
  have hd : find_direction (aim_sign 5 5) (aim_sign 5 5) = 0 := by decide
  rw [hd]
  unfold shoot_railgun
  have h0 : directions 0 = (0, 0) := by decide
  simp only [h0, add_zero]
  exact shoot_railgun_loop_zero_vector fuel two_agent_match 5 5 (by decide)

theorem own_cell_game_never_returns (fuel rounds : Nat) :
    run_game fuel rounds two_agent_loaded example_obstacles own_cell_rounds = none := by
  have hinit : initialize_board two_agent_loaded example_obstacles = two_agent_match := rfl
  have hround : run_round fuel two_agent_match (own_cell_rounds 0) = none := by
    unfold run_round
    have hlen : two_agent_match.m_robots.length = 2 := by decide
    rw [hlen]
    unfold run_round_loop
    rw [if_pos (by decide), own_cell_turn_never_returns fuel]
  have hover : is_game_over two_agent_match = false := by decide
  unfold run_game
  rw [hinit]
  cases rounds with
  | zero => simp [run_game_loop, hover]
  | succ n => simp [run_game_loop, hover, hround]
/-- A turn without a shot returns. -/
theorem robot_turn_isSome_of_no_shot (fuel : Nat) (a : Arena) (i : Nat) (inp : TurnInput)
    (h : inp.shot = none) : (robot_turn fuel a i inp).isSome = true := by
  unfold robot_turn
  rw [h]
  rfl

/-- A round in which nobody shoots returns. -/
theorem run_round_loop_isSome_of_no_shot (fuel : Nat) (inputs : Nat → TurnInput)
    (h : ∀ i, (inputs i).shot = none) (n : Nat) :
    ∀ (i : Nat) (a : Arena), (run_round_loop fuel inputs n i a).isSome = true := by
  induction n with
  | zero => intro i a; rfl
  | succ n ih =>
    intro i a
    unfold run_round_loop
    split_ifs
    · cases hr : robot_turn fuel a i (inputs i) with
      | none =>
        have := robot_turn_isSome_of_no_shot fuel a i (inputs i) (h i)
        rw [hr] at this
        simp at this
      | some a1 => exact ih (i + 1) a1
    · exact ih (i + 1) a

/-- Claim C18 (not met by the code). A fresh arena has round counter 0 and
round limit 1000; `is_game_over` holds exactly when `m_alive_count <= 1` or
`m_round >= m_max_rounds`; a round leaves the counter alone and `run_game` steps
it by exactly 1 after each round; so, as long as every round returns, `run_game`
started with counter 0 and limit 1000 returns after at most 1000 rounds. But a
round need not return: when the railgun agent of `two_agent_loaded` names its own
cell as target, the railgun loop of its first turn never ends, and `run_game`
does not terminate, for any number of loop iterations allowed. -/
theorem round_limit_guarantee :
    (∀ rows cols : Int,
      (Arena.new rows cols).m_round = 0 ∧ (Arena.new rows cols).m_max_rounds = 1000) ∧
    (∀ a : Arena,
      is_game_over a = true ↔ (a.m_alive_count ≤ 1 ∨ a.m_round ≥ a.m_max_rounds)) ∧
    (∀ (fuel : Nat) (a b : Arena) (inputs : Nat → TurnInput),
      run_round fuel a inputs = some b →
      b.m_round = a.m_round ∧ (next_round_number b).m_round = a.m_round + 1) ∧
    (∀ (fuel rounds : Nat) (a : Arena) (d : ObstacleDraws) (inputs : Nat → Nat → TurnInput),
      a.m_round = 0 → a.m_max_rounds = 1000 → 1000 ≤ rounds →
      (∀ (k : Nat) (s : Arena), (run_round fuel s (inputs k)).isSome = true) →
      ∃ b outcome, run_game fuel rounds a d inputs = some (b, outcome) ∧
        is_game_over b = true ∧ 0 ≤ b.m_round ∧ b.m_round ≤ 1000) ∧
    (∀ fuel rounds : Nat,
      run_game fuel rounds two_agent_loaded example_obstacles own_cell_rounds = none) := by
  refine ⟨fun _ _ => ⟨rfl, rfl⟩, is_game_over_iff, ?_, ?_, own_cell_game_never_returns⟩
  · intro fuel a b inputs h
    have hf := run_round_frame fuel a b inputs h
    exact ⟨hf.round, by simp [next_round_number, hf.round]⟩
  · intro fuel rounds a d inputs h0 hmax hrounds hret
    have i0 : (initialize_board a d).m_round = 0 := h0
    have imax : (initialize_board a d).m_max_rounds = 1000 := hmax
    obtain ⟨b, hb, hover, h1, h2, -⟩ :=
      run_game_loop_bounded fuel inputs hret rounds 0 (initialize_board a d)
        (by rw [i0, imax]; omega)
    rw [i0] at h1
    rw [i0, imax] at h2
    refine ⟨b, announce_winner b, ?_, hover, h1, ?_⟩
    · unfold run_game
      rw [hb]
      rfl
    · simpa using h2

/-- Claim C18, the part that holds, at a concrete input: with nobody shooting,
the match of `two_agent_loaded` returns within 1000 rounds. -/
theorem round_limit_guarantee_witness :
    ∃ b outcome,
      run_game 0 1000 two_agent_loaded example_obstacles idle_rounds = some (b, outcome) ∧
      is_game_over b = true ∧ 0 ≤ b.m_round ∧ b.m_round ≤ 1000 :=
  round_limit_guarantee.2.2.2.1 0 1000 two_agent_loaded example_obstacles idle_rounds
    (by decide) (by decide) (le_refl _)
    (fun k s => run_round_loop_isSome_of_no_shot 0 (idle_rounds k) (fun _ => rfl) _ 0 s)

/-! ## Hits and their victims -/

theorem apply_damage_getRobot (a : Arena) (i j : Nat) (damage : Int) :
    getRobot (apply_damage a i damage) j =
      if i = j ∧ i < a.m_robots.length then damaged (getRobot a i) damage
      else getRobot a j := by
  unfold apply_damage damaged
  dsimp only
  by_cases hij : i = j
  · subst hij
    by_cases hi : i < a.m_robots.length
    · split_ifs <;> simp_all [getRobot, getD_set_eq]
    · split_ifs <;> simp_all [getRobot, List.set_eq_of_length_le (Nat.le_of_not_lt hi)]
  · split_ifs <;> simp_all [getRobot, getD_set_ne]

/-- The board after `apply_damage`: unchanged, or the dead marker on the
victim's recorded position. -/
theorem apply_damage_board (a : Arena) (i : Nat) (damage : Int) (r c : Int) :
    (apply_damage a i damage).m_board r c = a.m_board r c ∨
    ((r, c) = position a i ∧ (apply_damage a i damage).m_board r c = DEAD_ROBOT) := by
  by_cases h : (r, c) = position a i
  · unfold apply_damage
    dsimp only
    split_ifs
    · right
      refine ⟨h, ?_⟩
      have h1 : r = (getRobot a i).robot.m_location_row := congrArg Prod.fst h
      have h2 : c = (getRobot a i).robot.m_location_col := congrArg Prod.snd h
      simp [setCell, h1, h2, RobotBase.take_damage, RobotBase.reduce_armor]
    · left; rfl
    · right
      refine ⟨h, ?_⟩
      have h1 : r = (getRobot a i).robot.m_location_row := congrArg Prod.fst h
      have h2 : c = (getRobot a i).robot.m_location_col := congrArg Prod.snd h
      simp [setCell, h1, h2, RobotBase.take_damage]
    · left; rfl
  · left
    exact (apply_damage_frame a i damage).2.2.2.2.2 r c h

theorem marker_at_position_iff (a : Arena) (r c : Int) :
    marker_at_position a r c = true ↔
      ∀ t, a.m_robot_symbol_to_index.lookup (a.m_board r c) = some t → position a t = (r, c) := by
  unfold marker_at_position
  cases h : a.m_robot_symbol_to_index.lookup (a.m_board r c) with
  | none => simp
  | some t => simp

/-- One hit keeps the two well-formedness conditions. -/
theorem apply_damage_markers (a : Arena) (t : Nat) (damage : Int)
    (h1 : a.m_robot_symbol_to_index.lookup DEAD_ROBOT = none)
    (h2 : markers_at_positions a) :
    (apply_damage a t damage).m_robot_symbol_to_index.lookup DEAD_ROBOT = none ∧
    markers_at_positions (apply_damage a t damage) := by
  have hf := (apply_damage_stepFrame a t damage).1
  have hpos := (apply_damage_frame a t damage).2.2.2.1
  refine ⟨by rw [hf.index]; exact h1, ?_⟩
  intro r c hv
  rw [is_valid_position_congr a _ hf.rows hf.cols] at hv
  rw [marker_at_position_iff]
  intro u hu
  rw [hf.index] at hu
  rcases apply_damage_board a t damage r c with e | ⟨-, e⟩
  · rw [e] at hu
    rw [hpos u]
    exact (marker_at_position_iff a r c).1 (h2 r c hv) u hu
  · rw [e, h1] at hu
    exact absurd hu (by simp)
/-- A pass of hits over distinct cells, in a state whose markers stand at their
agents' positions and where the dead marker is nobody's symbol: an agent whose
symbol is on one of the in-bounds cells takes exactly one hit, every other agent
takes none. -/
theorem foldl_hit_cell_victims (damage : Int) (cells : List (Int × Int)) :
    cells.Nodup → ∀ a : Arena,
      a.m_robot_symbol_to_index.lookup DEAD_ROBOT = none → markers_at_positions a →
      ∀ j,
        (marked_in a cells j → j < a.m_robots.length →
          getRobot (cells.foldl (fun s cell => hit_cell s cell.1 cell.2 damage) a) j =
            damaged (getRobot a j) damage) ∧
        (¬ marked_in a cells j →
          getRobot (cells.foldl (fun s cell => hit_cell s cell.1 cell.2 damage) a) j =
            getRobot a j) := by
  induction cells with
  | nil =>
    intro _ a _ _ j
    refine ⟨?_, fun _ => rfl⟩
    rintro ⟨p, hp, -⟩
    simp at hp
  | cons q rest ih =>
    intro hnd a h1 h2 j
    have hq : q ∉ rest := (List.nodup_cons.1 hnd).1
    have hrest : rest.Nodup := (List.nodup_cons.1 hnd).2
    rw [List.foldl_cons]
    by_cases hv : is_valid_position a q.1 q.2 = true
    · cases hl : a.m_robot_symbol_to_index.lookup (a.m_board q.1 q.2) with
      | none =>
        have hhit : hit_cell a q.1 q.2 damage = a := by
          simp [hit_cell, hv, get_robot_at, hl]
        rw [hhit]
        have hiff : marked_in a (q :: rest) j ↔ marked_in a rest j := by
          constructor
          · rintro ⟨p, hp, hpv, hpl⟩
            rcases List.mem_cons.1 hp with e | e
            · rw [e, hl] at hpl; exact absurd hpl (by simp)
            · exact ⟨p, e, hpv, hpl⟩
          · rintro ⟨p, hp, hpv, hpl⟩
            exact ⟨p, List.mem_cons_of_mem _ hp, hpv, hpl⟩
        rw [hiff]
        exact ih hrest a h1 h2 j
      | some t =>
        have hhit : hit_cell a q.1 q.2 damage = apply_damage a t damage := by
          simp [hit_cell, hv, get_robot_at, hl]
        rw [hhit]
        have hpt : position a t = (q.1, q.2) :=
          (marker_at_position_iff a q.1 q.2).1 (h2 q.1 q.2 hv) t hl
        obtain ⟨g1, g2⟩ := apply_damage_markers a t damage h1 h2
        have hf := (apply_damage_stepFrame a t damage).1
        -- on the remaining cells the board is as before the hit
        have hsame : ∀ p ∈ rest, (apply_damage a t damage).m_board p.1 p.2 = a.m_board p.1 p.2 := by
          intro p hp
          rcases apply_damage_board a t damage p.1 p.2 with e | ⟨e, -⟩
          · exact e
          · rw [hpt] at e
            have : p = q := Prod.ext (congrArg Prod.fst e) (congrArg Prod.snd e)
            rw [this] at hp
            exact absurd hp hq
        have hmark : ∀ u, marked_in (apply_damage a t damage) rest u ↔ marked_in a rest u := by
          intro u
          constructor
          · rintro ⟨p, hp, hpv, hpl⟩
            rw [is_valid_position_congr a _ hf.rows hf.cols] at hpv
            rw [hf.index, hsame p hp] at hpl
            exact ⟨p, hp, hpv, hpl⟩
          · rintro ⟨p, hp, hpv, hpl⟩
            refine ⟨p, hp, ?_, ?_⟩
            · rw [is_valid_position_congr a _ hf.rows hf.cols]; exact hpv
            · rw [hf.index, hsame p hp]; exact hpl
        -- the victim of this hit has no marker further on
        have hnot : ¬ marked_in a rest t := by
          rintro ⟨p, hp, hpv, hpl⟩
          have := (marker_at_position_iff a p.1 p.2).1 (h2 p.1 p.2 hpv) t hpl
          rw [hpt] at this
          have : q = p := Prod.ext (congrArg Prod.fst this) (congrArg Prod.snd this)
          rw [this] at hq
          exact hq hp
        obtain ⟨ih1, ih2⟩ := ih hrest (apply_damage a t damage) g1 g2 j
        rw [hmark j] at ih1 ih2
        rw [hf.length] at ih1
        have hget := apply_damage_getRobot a t j damage
        by_cases hjt : t = j
        · subst hjt
          constructor
          · intro _ hlen
            rw [ih2 hnot, hget, if_pos ⟨rfl, hlen⟩]
          · intro hno
            exact absurd ⟨q, List.mem_cons_self _ _, hv, hl⟩ hno
        · have hget' : getRobot (apply_damage a t damage) j = getRobot a j := by
            rw [hget, if_neg (fun h => hjt h.1)]
          constructor
          · rintro ⟨p, hp, hpv, hpl⟩ hlen
            rcases List.mem_cons.1 hp with e | e
            · rw [e, hl] at hpl
              exact absurd (Option.some.inj hpl) hjt
            · rw [ih1 ⟨p, e, hpv, hpl⟩ hlen, hget']
          · intro hno
            have : ¬ marked_in a rest j := by
              rintro ⟨p, hp, hpv, hpl⟩
              exact hno ⟨p, List.mem_cons_of_mem _ hp, hpv, hpl⟩
            rw [ih2 this, hget']
    · have hhit : hit_cell a q.1 q.2 damage = a := by
        simp [hit_cell, hv]
      rw [hhit]
      have hiff : marked_in a (q :: rest) j ↔ marked_in a rest j := by
        constructor
        · rintro ⟨p, hp, hpv, hpl⟩
          rcases List.mem_cons.1 hp with e | e
          · rw [e] at hpv; exact absurd hpv hv
          · exact ⟨p, e, hpv, hpl⟩
        · rintro ⟨p, hp, hpv, hpl⟩
          exact ⟨p, List.mem_cons_of_mem _ hp, hpv, hpl⟩
      rw [hiff]
      exact ih hrest a h1 h2 j
/-- A check of `markers_at_positions` cell by cell on a grid of known size. -/
theorem markers_at_positions_of_cells (a : Arena) (rows cols : Nat)
    (hr : a.m_rows = rows) (hc : a.m_cols = cols)
    (h : ∀ r ∈ List.range rows, ∀ c ∈ List.range cols,
      marker_at_position a (r : Int) (c : Int) = true) :
    markers_at_positions a := by
  intro r c hv
  simp only [is_valid_position, Bool.and_eq_true, decide_eq_true_eq] at hv
  obtain ⟨⟨⟨h1, h2⟩, h3⟩, h4⟩ := hv
  have e1 : r = ((r.toNat : Nat) : Int) := (Int.toNat_of_nonneg h1).symm
  have e2 : c = ((c.toNat : Nat) : Int) := (Int.toNat_of_nonneg h3).symm
  rw [e1, e2]
  apply h
  · rw [List.mem_range]; omega
  · rw [List.mem_range]; omega

theorem three_agent_match_markers : markers_at_positions three_agent_match :=
  markers_at_positions_of_cells three_agent_match 20 20 (by decide) (by decide) (by decide)

/-! ## The railgun ray -/

theorem ray_cells_succ (row col dr dc : Int) (n : Nat) :
    ray_cells row col dr dc (n + 1) =
      (row + dr, col + dc) :: ray_cells (row + dr) (col + dc) dr dc n := by
  unfold ray_cells
  rw [List.range_succ_eq_map, List.map_cons, List.map_map]
  refine congrArg₂ _ ?_ ?_
  · simp
  · apply List.map_congr_left
    intro k _
    simp only [Function.comp]
    refine Prod.ext ?_ ?_ <;> simp <;> ring

theorem mem_ray_cells (row col dr dc : Int) (n : Nat) (p : Int × Int) :
    p ∈ ray_cells row col dr dc n ↔
      ∃ k : Nat, k < n ∧ p = (row + dr * ((k : Int) + 1), col + dc * ((k : Int) + 1)) := by
  unfold ray_cells
  rw [List.mem_map]
  constructor
  · rintro ⟨k, hk, e⟩
    exact ⟨k, List.mem_range.1 hk, e.symm⟩
  · rintro ⟨k, hk, e⟩
    exact ⟨k, List.mem_range.2 hk, e.symm⟩

/-- The railgun loop entered one step after `(row, col)` with `fuel` iterations
allowed: either it stops at the first out-of-bounds cell, after one hit attempt
on each of the `n` in-bounds cells before it, or all of the first `fuel + 1`
cells are in bounds and it is still running. -/
theorem shoot_railgun_loop_cases (dr dc : Int) (fuel : Nat) :
    ∀ (a : Arena) (row col : Int),
      (∃ n : Nat, n ≤ fuel ∧
        (∀ k : Nat, k < n →
          is_valid_position a (row + dr * ((k : Int) + 1)) (col + dc * ((k : Int) + 1)) = true) ∧
        is_valid_position a (row + dr * ((n : Int) + 1)) (col + dc * ((n : Int) + 1)) = false ∧
        shoot_railgun_loop dr dc fuel a (row + dr) (col + dc) =
          some ((ray_cells row col dr dc n).foldl
            (fun s cell => hit_cell s cell.1 cell.2 12) a)) ∨
      ((∀ k : Nat, k ≤ fuel →
          is_valid_position a (row + dr * ((k : Int) + 1)) (col + dc * ((k : Int) + 1)) = true) ∧
        shoot_railgun_loop dr dc fuel a (row + dr) (col + dc) = none) := by
  induction fuel with
  | zero =>
    intro a row col
    by_cases hv : is_valid_position a (row + dr) (col + dc) = true
    · right
      refine ⟨?_, by simp [shoot_railgun_loop, hv]⟩
      intro k hk
      have : k = 0 := by omega
      subst this
      simpa using hv
    · left
      refine ⟨0, le_refl 0, fun k hk => absurd hk (Nat.not_lt_zero k), ?_, ?_⟩
      · simpa using hv
      · simp [shoot_railgun_loop, hv, ray_cells]
  | succ fuel ih =>
    intro a row col
    by_cases hv : is_valid_position a (row + dr) (col + dc) = true
    · have hstep : shoot_railgun_loop dr dc (fuel + 1) a (row + dr) (col + dc) =
          shoot_railgun_loop dr dc fuel (hit_cell a (row + dr) (col + dc) 12)
            (row + dr + dr) (col + dc + dc) := by
        rw [shoot_railgun_loop]
        simp only [hv, if_true, hit_cell]
      have hf := (hit_cell_stepFrame a (row + dr) (col + dc) 12).1
      have hvalid : ∀ r c, is_valid_position (hit_cell a (row + dr) (col + dc) 12) r c =
          is_valid_position a r c := fun r c => is_valid_position_congr a _ hf.rows hf.cols r c
      have hshift : ∀ k : Nat, row + dr + dr * ((k : Int) + 1) = row + dr * (((k + 1 : Nat) : Int) + 1) ∧
          col + dc + dc * ((k : Int) + 1) = col + dc * (((k + 1 : Nat) : Int) + 1) := by
        intro k
        constructor <;> push_cast <;> ring
      rcases ih (hit_cell a (row + dr) (col + dc) 12) (row + dr) (col + dc) with
        ⟨n, hn, h1, h2, h3⟩ | ⟨h1, h2⟩
      · left
        refine ⟨n + 1, by omega, ?_, ?_, ?_⟩
        · intro k hk
          cases k with
          | zero => simpa using hv
          | succ k =>
            have := h1 k (by omega)
            rw [hvalid, (hshift k).1, (hshift k).2] at this
            exact this
        · have := h2
          rw [hvalid, (hshift n).1, (hshift n).2] at this
          exact this
        · rw [hstep, h3, ray_cells_succ, List.foldl_cons]
      · right
        refine ⟨?_, by rw [hstep, h2]⟩
        intro k hk
        cases k with
        | zero => simpa using hv
        | succ k =>
          have := h1 k (by omega)
          rw [hvalid, (hshift k).1, (hshift k).2] at this
          exact this
    · left
      refine ⟨0, Nat.zero_le _, fun k hk => absurd hk (Nat.not_lt_zero k), ?_, ?_⟩
      · simpa using hv
      · rw [shoot_railgun_loop]
        simp [hv, ray_cells]

/-- The vectors of the 8 directions have components in -1..1 and are not
zero. -/
theorem directions_unit (direction : Int) (h1 : 1 ≤ direction) (h8 : direction ≤ 8) :
    (-1 ≤ (directions direction).1 ∧ (directions direction).1 ≤ 1) ∧
    (-1 ≤ (directions direction).2 ∧ (directions direction).2 ≤ 1) ∧
    ((directions direction).1 ≠ 0 ∨ (directions direction).2 ≠ 0) := by
  have : direction = 1 ∨ direction = 2 ∨ direction = 3 ∨ direction = 4 ∨ direction = 5 ∨
      direction = 6 ∨ direction = 7 ∨ direction = 8 := by omega
  rcases this with h | h | h | h | h | h | h | h <;> subst h <;> simp [directions]

/-- A ray along one of the 8 directions has at most max(rows, cols) in-bounds
cells in a row. -/
theorem ray_in_bounds_le (a : Arena) (row col direction : Int) (n : Nat)
    (h1 : 1 ≤ direction) (h8 : direction ≤ 8)
    (hv : ∀ k : Nat, k < n →
      is_valid_position a (row + (directions direction).1 * ((k : Int) + 1))
        (col + (directions direction).2 * ((k : Int) + 1)) = true) :
    n ≤ (max a.m_rows a.m_cols).toNat := by
  cases n with
  | zero => exact Nat.zero_le _
  | succ m =>
    obtain ⟨⟨r1, r2⟩, ⟨c1, c2⟩, hz⟩ := directions_unit direction h1 h8
    have hfirst := hv 0 (by omega)
    have hlast := hv m (by omega)
    simp only [is_valid_position, Bool.and_eq_true, decide_eq_true_eq] at hfirst hlast
    obtain ⟨⟨⟨f1, f2⟩, f3⟩, f4⟩ := hfirst
    obtain ⟨⟨⟨l1, l2⟩, l3⟩, l4⟩ := hlast
    simp only [Nat.cast_zero, zero_add, mul_one] at f1 f2 f3 f4
    generalize (directions direction).1 = dr at *
    generalize (directions direction).2 = dc at *
    have hm : (m : Int) + 1 ≤ max a.m_rows a.m_cols := by
      rcases hz with hz | hz
      · have hdr : dr = 1 ∨ dr = -1 := by omega
        rcases hdr with e | e <;> subst e <;>
          exact le_trans (by omega) (le_max_left _ _)
      · have hdc : dc = 1 ∨ dc = -1 := by omega
        rcases hdc with e | e <;> subst e <;>
          exact le_trans (by omega) (le_max_right _ _)
    omega

theorem ray_cells_nodup (row col direction : Int) (n : Nat)
    (h1 : 1 ≤ direction) (h8 : direction ≤ 8) :
    (ray_cells row col (directions direction).1 (directions direction).2 n).Nodup := by
  obtain ⟨-, -, hz⟩ := directions_unit direction h1 h8
  unfold ray_cells
  apply List.Nodup.map _ (List.nodup_range n)
  intro k1 k2 e
  have e1 := congrArg Prod.fst e
  have e2 := congrArg Prod.snd e
  simp only [add_right_inj] at e1 e2
  rcases hz with hz | hz
  · have := mul_left_cancel₀ hz e1
    omega
  · have := mul_left_cancel₀ hz e2
    omega
/-- Claim C15. For every shooter position, aim direction 1..8 and enough fuel
(max(rows, cols) iterations), `shoot_railgun` returns: with `n` the number of
in-bounds cells `shooter + k * (dr, dc)`, k = 1, 2, ..., before the first
out-of-bounds one (n <= max(rows, cols)), the result is one hit attempt of 12
points on each of these `n` cells in increasing `k` (a hit attempt applies
`apply_damage` to the agent whose registered symbol the cell holds), whatever the
cells contain; the cells are distinct. In a state whose markers stand at their
agents' positions, each agent with its symbol on the ray takes exactly one
`apply_damage (12)` and every other agent none. -/
theorem shoot_railgun_geometry (a : Arena) (shooter_row shooter_col direction : Int)
    (fuel : Nat) (hdir : 1 ≤ direction ∧ direction ≤ 8)
    (hfuel : (max a.m_rows a.m_cols).toNat ≤ fuel) :
    ∃ n : Nat, n ≤ (max a.m_rows a.m_cols).toNat ∧
      (∀ k : Nat, k < n →
        is_valid_position a (shooter_row + (directions direction).1 * ((k : Int) + 1))
          (shooter_col + (directions direction).2 * ((k : Int) + 1)) = true) ∧
      is_valid_position a (shooter_row + (directions direction).1 * ((n : Int) + 1))
        (shooter_col + (directions direction).2 * ((n : Int) + 1)) = false ∧
      shoot_railgun fuel a shooter_row shooter_col direction =
        some ((ray_cells shooter_row shooter_col (directions direction).1
            (directions direction).2 n).foldl
          (fun s cell => hit_cell s cell.1 cell.2 12) a) ∧
      (ray_cells shooter_row shooter_col (directions direction).1
        (directions direction).2 n).Nodup ∧
      (∀ (s : Arena) (r c : Int), is_valid_position s r c = true →
        hit_cell s r c 12 =
          match get_robot_at s r c with
          | some target => apply_damage s target 12
          | none => s) ∧
      (a.m_robot_symbol_to_index.lookup DEAD_ROBOT = none → markers_at_positions a →
        ∀ j,
          (marked_in a (ray_cells shooter_row shooter_col (directions direction).1
              (directions direction).2 n) j → j < a.m_robots.length →
            ∀ b, shoot_railgun fuel a shooter_row shooter_col direction = some b →
              getRobot b j = getRobot (apply_damage a j 12) j) ∧
          (¬ marked_in a (ray_cells shooter_row shooter_col (directions direction).1
              (directions direction).2 n) j →
            ∀ b, shoot_railgun fuel a shooter_row shooter_col direction = some b →
              getRobot b j = getRobot a j)) := by
  have hhit : ∀ (s : Arena) (r c : Int), is_valid_position s r c = true →
      hit_cell s r c 12 =
        match get_robot_at s r c with
        | some target => apply_damage s target 12
        | none => s := by
    intro s r c hv
    simp [hit_cell, hv]
  have hshoot : shoot_railgun fuel a shooter_row shooter_col direction =
      shoot_railgun_loop (directions direction).1 (directions direction).2 fuel a
        (shooter_row + (directions direction).1) (shooter_col + (directions direction).2) := rfl
  rcases shoot_railgun_loop_cases (directions direction).1 (directions direction).2 fuel a
      shooter_row shooter_col with ⟨n, hn, h1, h2, h3⟩ | ⟨h1, -⟩
  · have hbound := ray_in_bounds_le a shooter_row shooter_col direction n hdir.1 hdir.2 h1
    have hnd := ray_cells_nodup shooter_row shooter_col direction n hdir.1 hdir.2
    refine ⟨n, hbound, h1, h2, by rw [hshoot, h3], hnd, hhit, ?_⟩
    intro g1 g2 j
    obtain ⟨v1, v2⟩ := foldl_hit_cell_victims 12 _ hnd a g1 g2 j
    constructor
    · intro hm hj b hb
      rw [hshoot, h3] at hb
      rw [← Option.some.inj hb, v1 hm hj, apply_damage_getRobot, if_pos ⟨rfl, hj⟩]
    · intro hm b hb
      rw [hshoot, h3] at hb
      rw [← Option.some.inj hb, v2 hm]
  · exfalso
    have := ray_in_bounds_le a shooter_row shooter_col direction (fuel + 1) hdir.1 hdir.2
      (fun k hk => h1 k (by omega))
    omega

/-- Claim C15 at a concrete input: a railgun shot east from (5,3) in
`three_agent_match` returns; it passes the hazard on (5,4) and hits both the
agent on (5,5) and the agent behind it on (5,6) (12 - 3 points each), not the
agent on (10,10). -/
theorem shoot_railgun_geometry_witness :
    (∃ n : Nat, n ≤ 20 ∧
      shoot_railgun 20 three_agent_match 5 3 3 =
        some ((ray_cells 5 3 (directions 3).1 (directions 3).2 n).foldl
          (fun s cell => hit_cell s cell.1 cell.2 12) three_agent_match)) ∧
    (shoot_railgun 20 three_agent_match 5 3 3).map
        (fun b => ((getRobot b 0).robot.m_health, (getRobot b 1).robot.m_health,
          (getRobot b 2).robot.m_health)) = some (91, 100, 91) := by
  obtain ⟨n, hn, -, -, h, -⟩ :=
    shoot_railgun_geometry three_agent_match 5 3 3 20 (by decide) (by decide)
  exact ⟨⟨n, hn, h⟩, by decide⟩

/-! ## The grenade block -/

/-- Claim C16. `shoot_grenade` makes one hit attempt of 20 points on each of the
nine cells of the 3x3 block centred on the target, each cell once, and on no
other cell (a hit attempt applies `apply_damage` to the agent whose registered
symbol an in-bounds cell holds). In a state whose markers stand at their agents'
positions, each agent with its symbol on an in-bounds cell of the block takes
exactly one `apply_damage (20)` - so two agents inside the block are both damaged
by the same call - and every other agent takes none. -/
theorem shoot_grenade_geometry (a : Arena) (target_row target_col : Int) :
    shoot_grenade a target_row target_col =
      ([(target_row + -1, target_col + -1), (target_row + -1, target_col + 0),
        (target_row + -1, target_col + 1), (target_row + 0, target_col + -1),
        (target_row + 0, target_col + 0), (target_row + 0, target_col + 1),
        (target_row + 1, target_col + -1), (target_row + 1, target_col + 0),
        (target_row + 1, target_col + 1)] : List (Int × Int)).foldl
        (fun s cell => hit_cell s cell.1 cell.2 20) a ∧
    (grenade_cells target_row target_col).Nodup ∧
    (∀ r c, (r, c) ∈ grenade_cells target_row target_col ↔
      (target_row - 1 ≤ r ∧ r ≤ target_row + 1 ∧ target_col - 1 ≤ c ∧ c ≤ target_col + 1)) ∧
    (∀ (s : Arena) (r c : Int),
      hit_cell s r c 20 =
        if is_valid_position s r c = true then
          match get_robot_at s r c with
          | some target => apply_damage s target 20
          | none => s
        else s) ∧
    (a.m_robot_symbol_to_index.lookup DEAD_ROBOT = none → markers_at_positions a →
      ∀ j,
        (marked_in a (grenade_cells target_row target_col) j → j < a.m_robots.length →
          getRobot (shoot_grenade a target_row target_col) j =
            getRobot (apply_damage a j 20) j) ∧
        (¬ marked_in a (grenade_cells target_row target_col) j →
          getRobot (shoot_grenade a target_row target_col) j = getRobot a j)) := by
  have hnd : (grenade_cells target_row target_col).Nodup := by
    simp [grenade_cells, List.flatMap]
  refine ⟨rfl, hnd, ?_, fun s r c => rfl, ?_⟩
  · intro r c
    simp only [grenade_cells, List.flatMap_cons, List.flatMap_nil, List.map_cons, List.map_nil,
      List.append_nil, List.cons_append, List.nil_append, List.mem_cons, Prod.mk.injEq,
      List.not_mem_nil, or_false]
    constructor
    · intro h
      omega
    · intro h
      have hr : r = target_row + -1 ∨ r = target_row + 0 ∨ r = target_row + 1 := by omega
      have hc : c = target_col + -1 ∨ c = target_col + 0 ∨ c = target_col + 1 := by omega
      rcases hr with e | e | e <;> rcases hc with f | f | f <;> subst e <;> subst f <;> simp
  · intro g1 g2 j
    obtain ⟨v1, v2⟩ := foldl_hit_cell_victims 20 _ hnd a g1 g2 j
    constructor
    · intro hm hj
      rw [apply_damage_getRobot, if_pos ⟨rfl, hj⟩]
      exact v1 hm hj
    · intro hm
      exact v2 hm

/-- Claim C16 at a concrete input: a grenade on (5,5) in `three_agent_match`
damages both the agent on (5,5) and the agent on (5,6). -/
theorem shoot_grenade_geometry_witness :
    getRobot (shoot_grenade three_agent_match 5 5) 0 =
      getRobot (apply_damage three_agent_match 0 20) 0 ∧
    getRobot (shoot_grenade three_agent_match 5 5) 2 =
      getRobot (apply_damage three_agent_match 2 20) 2 ∧
    (getRobot (shoot_grenade three_agent_match 5 5) 0).robot.m_health = 83 ∧
    (getRobot (shoot_grenade three_agent_match 5 5) 2).robot.m_health = 83 :=
  have h := (shoot_grenade_geometry three_agent_match 5 5).2.2.2.2 (by decide)
    three_agent_match_markers
  have m0 : marked_in three_agent_match (grenade_cells 5 5) 0 :=
    ⟨(5, 5), by decide, by decide, by decide⟩
  have m2 : marked_in three_agent_match (grenade_cells 5 5) 2 :=
    ⟨(5, 6), by decide, by decide, by decide⟩
  ⟨(h 0).1 m0 (by decide), (h 2).1 m2 (by decide),
   by set_option maxRecDepth 4096 in decide, by set_option maxRecDepth 4096 in decide⟩

/-! ## The winner -/

theorem get_winner_from_first_alive (l : List RobotInfo) :
    ∀ (s i : Nat), (l.getD i default).is_alive = true →
      (∀ k, k < i → (l.getD k default).is_alive = false) →
      get_winner_from s l = some (s + i) := by
  induction l with
  | nil =>
    intro s i h _
    simp only [List.getD_nil] at h
    exact absurd h (by decide)
  | cons x rest ih =>
    intro s i h hbefore
    cases i with
    | zero =>
      have hx : x.is_alive = true := by simpa using h
      simp [get_winner_from, hx]
    | succ i =>
      have hx : x.is_alive = false := by simpa using hbefore 0 (Nat.succ_pos i)
      have hrest := ih (s + 1) i (by simpa using h)
        (fun k hk => by simpa using hbefore (k + 1) (Nat.succ_lt_succ hk))
      simp only [get_winner_from, hx, Bool.false_eq_true, if_false]
      rw [hrest]
      congr 1
      omega

/-- `get_winner` returns the first living agent. -/
theorem get_winner_first_alive (a : Arena) (i : Nat)
    (h : (getRobot a i).is_alive = true)
    (hbefore : ∀ k, k < i → (getRobot a k).is_alive = false) :
    get_winner a = some i := by
  have := get_winner_from_first_alive a.m_robots 0 i h hbefore
  simpa [get_winner] using this

/-- A hit that takes the victim's health to 0 or below costs one unit of the
alive count. -/
theorem apply_damage_alive_count (a : Arena) (i : Nat) (damage : Int) :
    (apply_damage a i damage).m_alive_count =
      if (damaged (getRobot a i) damage).robot.m_health ≤ 0 then a.m_alive_count - 1
      else a.m_alive_count := by
  unfold apply_damage damaged
  dsimp only
  split_ifs <;> simp_all [RobotBase.take_damage]
  all_goals omega

theorem damaged_is_alive (info : RobotInfo) (damage : Int) :
    (damaged info damage).is_alive =
      if (damaged info damage).robot.m_health ≤ 0 then false else info.is_alive := by
  unfold damaged
  dsimp only
  split_ifs <;> simp_all [RobotBase.take_damage]
  all_goals omega

theorem damaged_health (info : RobotInfo) (damage : Int) :
    (damaged info damage).robot.m_health =
      info.robot.m_health - (if info.robot.m_armor > 0 then damage - 3 else damage) := by
  unfold damaged
  dsimp only
  by_cases h : info.robot.m_armor > 0
  · simp only [RobotBase.get_armor, h, decide_True, if_true]
    split_ifs <;> simp [RobotBase.take_damage, RobotBase.reduce_armor]
  · simp only [RobotBase.get_armor, h, decide_False, if_false, Bool.false_eq_true]
    split_ifs <;> simp [RobotBase.take_damage]

/-- Claim C20. In a match of exactly two living agents (`m_alive_count = 2`) that
satisfies the position/marker invariant and in which the target's symbol is
registered to the target: if the shooter carries the hammer, the target stands
on the adjacent cell in the aim direction derived from the shot, and the
target's health is <= 25 - 3 with armor > 0, or <= 25 with armor = 0, then
`handle_shooting` for the shooter returns and leaves the target with
`is_alive = false`, `m_alive_count = 1`, `is_game_over` true and `get_winner`
equal to the shooter's index. -/
theorem hammer_kill_ends_match (fuel : Nat) (a : Arena) (i j : Nat) (shot_row shot_col : Int)
    (hlen : a.m_robots.length = 2) (hi : i < 2) (hj : j < 2) (hij : i ≠ j)
    (halive_i : (getRobot a i).is_alive = true) (halive_j : (getRobot a j).is_alive = true)
    (hcount : a.m_alive_count = 2)
    (hinv : position_marker_consistent a)
    (hreg : a.m_robot_symbol_to_index.lookup (symbol a j) = some j)
    (hweapon : (getRobot a i).robot.get_weapon = WeaponType.hammer)
    (hadj : position a j =
      ((position a i).1 + (directions (find_direction (aim_sign shot_row (position a i).1)
          (aim_sign shot_col (position a i).2))).1,
       (position a i).2 + (directions (find_direction (aim_sign shot_row (position a i).1)
          (aim_sign shot_col (position a i).2))).2))
    (hhealth : ((getRobot a j).robot.get_armor > 0 ∧ (getRobot a j).robot.get_health ≤ 25 - 3) ∨
      ((getRobot a j).robot.get_armor = 0 ∧ (getRobot a j).robot.get_health ≤ 25)) :
    ∃ b, handle_shooting fuel a i (some (shot_row, shot_col)) = some b ∧
      (getRobot b j).is_alive = false ∧
      a.m_alive_count = 2 ∧ b.m_alive_count = 1 ∧
      is_game_over b = true ∧
      get_winner b = some i := by
  have hjlen : j < a.m_robots.length := by rw [hlen]; exact hj
  obtain ⟨hvalid, hmark⟩ := hinv j hjlen halive_j
  -- the shot is one hammer blow on the target's cell
  have hshot : handle_shooting fuel a i (some (shot_row, shot_col)) =
      some (apply_damage a j 25) := by
    rw [(handle_shooting_directional fuel a i (position a i).1 (position a i).2
      shot_row shot_col rfl).2.2 hweapon]
    unfold shoot_hammer
    have e1 := congrArg Prod.fst hadj
    have e2 := congrArg Prod.snd hadj
    simp only at e1 e2
    rw [← e1, ← e2]
    have hget : get_robot_at a (position a j).1 (position a j).2 = some j := by
      simp [get_robot_at, hvalid, hmark, hreg]
    simp [hit_cell, hvalid, hget]
  -- the blow is fatal
  have hdead : (damaged (getRobot a j) 25).robot.m_health ≤ 0 := by
    rw [damaged_health]
    simp only [RobotBase.get_armor, RobotBase.get_health] at hhealth
    rcases hhealth with ⟨h1, h2⟩ | ⟨h1, h2⟩
    · rw [if_pos h1]; omega
    · rw [if_neg (by omega)]; omega
  have hrec : ∀ k, getRobot (apply_damage a j 25) k =
      if j = k then damaged (getRobot a j) 25 else getRobot a k := by
    intro k
    rw [apply_damage_getRobot]
    by_cases hjk : j = k
    · subst hjk
      rw [if_pos ⟨rfl, hjlen⟩, if_pos rfl]
    · rw [if_neg (fun h => hjk h.1), if_neg hjk]
  have hjdead : (getRobot (apply_damage a j 25) j).is_alive = false := by
    rw [hrec j, if_pos rfl, damaged_is_alive, if_pos hdead]
  have hialive : (getRobot (apply_damage a j 25) i).is_alive = true := by
    rw [hrec i, if_neg (fun e => hij e.symm)]
    exact halive_i
  have hcount' : (apply_damage a j 25).m_alive_count = 1 := by
    rw [apply_damage_alive_count, if_pos hdead, hcount]
    rfl
  refine ⟨apply_damage a j 25, hshot, hjdead, hcount, hcount', ?_, ?_⟩
  · rw [is_game_over_iff]
    left
    rw [hcount']
  · apply get_winner_first_alive _ i hialive
    intro k hk
    have : k = j := by omega
    rw [this]
    exact hjdead

/-- Claim C20 at a concrete input: in `two_agent_worn` agent 1 (hammer, on (5,6))
strikes at (5,5), where agent 0 stands with health 12 and no armor. -/
theorem hammer_kill_ends_match_witness :
    ∃ b, handle_shooting 0 two_agent_worn 1 (some (5, 5)) = some b ∧
      (getRobot b 0).is_alive = false ∧
      two_agent_worn.m_alive_count = 2 ∧ b.m_alive_count = 1 ∧
      is_game_over b = true ∧
      get_winner b = some 1 :=
  hammer_kill_ends_match 0 two_agent_worn 1 0 5 5 (by decide) (by decide) (by decide)
    (by decide) (by decide) (by decide) (by decide)
    (by
      intro i hi _
      have hlen : two_agent_worn.m_robots.length = 2 := by decide
      rw [hlen] at hi
      interval_cases i <;> decide)
    (by decide) (by decide) (by decide) (Or.inr (by decide))

theorem get_winner_from_none (l : List RobotInfo) :
    ∀ s : Nat, (∀ i, (l.getD i default).is_alive = false) → get_winner_from s l = none := by
  induction l with
  | nil => intro s _; rfl
  | cons x rest ih =>
    intro s h
    have hx : x.is_alive = false := by simpa using h 0
    simp only [get_winner_from, hx, Bool.false_eq_true, if_false]
    exact ih (s + 1) (fun i => by simpa using h (i + 1))

theorem one_le_alive (l : List RobotInfo) :
    ∀ i : Nat, (l.getD i default).is_alive = true →
      1 ≤ (l.filter (fun info => info.is_alive)).length := by
  induction l with
  | nil =>
    intro i h
    simp only [List.getD_nil] at h
    exact absurd h (by decide)
  | cons x rest ih =>
    intro i h
    cases i with
    | zero =>
      have hx : x.is_alive = true := by simpa using h
      simp [List.filter_cons, hx]
    | succ i =>
      have := ih i (by simpa using h)
      by_cases hx : x.is_alive = true
      · simp [List.filter_cons, hx]
      · simp only [List.filter_cons, hx, Bool.false_eq_true, if_false]
        exact this

theorem two_le_alive (l : List RobotInfo) :
    ∀ w i : Nat, w < i → (l.getD w default).is_alive = true →
      (l.getD i default).is_alive = true →
      2 ≤ (l.filter (fun info => info.is_alive)).length := by
  induction l with
  | nil =>
    intro w i _ h _
    simp only [List.getD_nil] at h
    exact absurd h (by decide)
  | cons x rest ih =>
    intro w i hwi hw hi
    cases i with
    | zero => exact absurd hwi (Nat.not_lt_zero w)
    | succ i =>
      have hi' : (rest.getD i default).is_alive = true := by simpa using hi
      cases w with
      | zero =>
        have hx : x.is_alive = true := by simpa using hw
        have := one_le_alive rest i hi'
        simp only [List.filter_cons, hx, if_true, List.length_cons]
        omega
      | succ w =>
        have := ih w i (by omega) (by simpa using hw) hi'
        by_cases hx : x.is_alive = true
        · simp only [List.filter_cons, hx, if_true, List.length_cons]
          omega
        · simp only [List.filter_cons, hx, Bool.false_eq_true, if_false]
          exact this

/-- While the alive count is in step with the records, a match that is over
before the round limit has at most one living agent, `get_winner` returns it,
and returns `none` when there is none. -/
theorem winner_of_consistent_count (a : Arena) (hc : alive_count_consistent a)
    (hover : is_game_over a = true) (hround : a.m_round < a.m_max_rounds) :
    (a.m_robots.filter (fun info => info.is_alive)).length ≤ 1 ∧
    (∀ i, (getRobot a i).is_alive = true → get_winner a = some i) ∧
    ((∀ i, (getRobot a i).is_alive = false) → get_winner a = none) := by
  have hcount : a.m_alive_count ≤ 1 := by
    rcases (is_game_over_iff a).1 hover with h | h
    · exact h
    · omega
  unfold alive_count_consistent at hc
  have hlen : (a.m_robots.filter (fun info => info.is_alive)).length ≤ 1 := by omega
  refine ⟨hlen, ?_, fun h => get_winner_from_none a.m_robots 0 h⟩
  intro i hi
  apply get_winner_first_alive a i hi
  intro k hk
  by_contra hne
  have hk' : (getRobot a k).is_alive = true := by simpa using hne
  have := two_le_alive a.m_robots k i hk hk' hi
  omega

/-- One iteration of the game loop on a state that is not over and whose round
returns. -/
theorem run_game_loop_step (fuel : Nat) (inputs : Nat → Nat → TurnInput) (n k : Nat) (a : Arena)
    (hover : is_game_over a = false) (hround : (run_round fuel a (inputs k)).isSome = true) :
    run_game_loop fuel inputs (n + 1) k a =
      run_game_loop fuel inputs n (k + 1) (next_round_number (after_round fuel a (inputs k))) := by
  rw [run_game_loop, hover, run_round_eq_some fuel a (inputs k) hround]
  rfl

/-- The match of `hazard_match_loaded` runs five rounds and stops. -/
theorem hazard_match_run :
    run_game 0 10 hazard_match_loaded example_obstacles hazard_match_rounds =
      some (hazard_match_after 5, Outcome.winner 1) := by
  have h0 : initialize_board hazard_match_loaded example_obstacles = hazard_match_after 0 := rfl
  have e1 : next_round_number (after_round 0 (hazard_match_after 0) (hazard_match_rounds 0)) =
      hazard_match_after 1 := rfl
  have e2 : next_round_number (after_round 0 (hazard_match_after 1) (hazard_match_rounds 1)) =
      hazard_match_after 2 := rfl
  have e3 : next_round_number (after_round 0 (hazard_match_after 2) (hazard_match_rounds 2)) =
      hazard_match_after 3 := rfl
  have e4 : next_round_number (after_round 0 (hazard_match_after 3) (hazard_match_rounds 3)) =
      hazard_match_after 4 := rfl
  have e5 : next_round_number (after_round 0 (hazard_match_after 4) (hazard_match_rounds 4)) =
      hazard_match_after 5 := rfl
  have hover : is_game_over (hazard_match_after 5) = true := by decide
  have hlast : run_game_loop 0 hazard_match_rounds 5 5 (hazard_match_after 5) =
      some (hazard_match_after 5) := by
    rw [run_game_loop, hover]
    rfl
  have hwin : announce_winner (hazard_match_after 5) = Outcome.winner 1 := by decide
  unfold run_game
  rw [h0,
    run_game_loop_step 0 hazard_match_rounds 9 0 _ (by decide) (by decide), e1,
    run_game_loop_step 0 hazard_match_rounds 8 1 _ (by decide) (by decide), e2,
    run_game_loop_step 0 hazard_match_rounds 7 2 _ (by decide) (by decide), e3,
    run_game_loop_step 0 hazard_match_rounds 6 3 _ (by decide) (by decide), e4,
    run_game_loop_step 0 hazard_match_rounds 5 4 _ (by decide) (by decide), e5,
    hlast, Option.map_some', hwin]

/-- Claim C19 (not met by the code). After the round limit the survivors
reported are exactly the living agents, and while the alive count is in step
with the records a match that ends earlier has at most one living agent, which
`get_winner` returns (`none` when nobody lives). But the count does not stay in
step: the match of `hazard_match_loaded` ends after 5 rounds with
`m_alive_count = 1` while agents 1 and 2 are both alive, and agent 1 is announced
as the winner. -/
theorem match_ends_with_two_alive :
    (∀ a : Arena, a.m_round ≥ a.m_max_rounds →
      announce_winner a = Outcome.timeout
        ((List.range a.m_robots.length).filter (fun i => (getRobot a i).is_alive))) ∧
    (∀ a : Arena, alive_count_consistent a → is_game_over a = true →
      a.m_round < a.m_max_rounds →
      (a.m_robots.filter (fun info => info.is_alive)).length ≤ 1 ∧
      (∀ i, (getRobot a i).is_alive = true →
        get_winner a = some i ∧ announce_winner a = Outcome.winner i) ∧
      ((∀ i, (getRobot a i).is_alive = false) →
        get_winner a = none ∧ announce_winner a = Outcome.no_winner)) ∧
    (run_game 0 10 hazard_match_loaded example_obstacles hazard_match_rounds =
        some (hazard_match_after 5, Outcome.winner 1) ∧
      (hazard_match_after 5).m_round = 5 ∧
      (hazard_match_after 5).m_alive_count = 1 ∧
      is_game_over (hazard_match_after 5) = true ∧
      (List.range (hazard_match_after 5).m_robots.length).filter
        (fun i => (getRobot (hazard_match_after 5) i).is_alive) = [1, 2] ∧
      get_winner (hazard_match_after 5) = some 1) := by
  refine ⟨?_, ?_, ?_⟩
  · intro a h
    simp [announce_winner, h]
  · intro a hc hover hround
    obtain ⟨h1, h2, h3⟩ := winner_of_consistent_count a hc hover hround
    refine ⟨h1, ?_, ?_⟩
    · intro i hi
      refine ⟨h2 i hi, ?_⟩
      unfold announce_winner
      rw [if_neg (by omega), h2 i hi]
    · intro h
      refine ⟨h3 h, ?_⟩
      unfold announce_winner
      rw [if_neg (by omega), h3 h]
  · exact ⟨hazard_match_run, by decide, by decide, by decide, by decide, by decide⟩

/-! ## Readings of the records that the engine leaves alone -/

theorem keeps_same {α : Type} (f : RobotInfo → α) (a : Arena) : keeps f a a := fun _ => rfl

theorem keeps_then {α : Type} {f : RobotInfo → α} {a b c : Arena} (h1 : keeps f a b)
    (h2 : keeps f b c) : keeps f a c :=
  fun j => (h2 j).trans (h1 j)

theorem keeps_of_robots {α : Type} (f : RobotInfo → α) {a b : Arena}
    (h : b.m_robots = a.m_robots) : keeps f a b := by
  intro j
  unfold getRobot
  rw [h]

theorem setRobot_keeps {α : Type} (f : RobotInfo → α) (a : Arena) (i : Nat) (info : RobotInfo)
    (h : f info = f (getRobot a i)) : keeps f a (setRobot a i info) := by
  intro j
  rw [getRobot_setRobot]
  split_ifs with hij
  · rw [h, hij.1]
  · rfl

theorem stuck_count_blind : Blind (fun info => info.stuck_count) := by
  refine ⟨?_, fun _ _ _ => rfl, fun _ => rfl, fun _ => rfl⟩
  intro info d
  unfold damaged
  dsimp only
  split_ifs <;> rfl

theorem grenades_blind : Blind (fun info => info.robot.m_grenades) := by
  refine ⟨?_, fun _ _ _ => rfl, fun _ => rfl, fun _ => rfl⟩
  intro info d
  unfold damaged
  dsimp only
  split_ifs <;> rfl

theorem apply_damage_keeps {α : Type} {f : RobotInfo → α} (hb : Blind f) (a : Arena) (i : Nat)
    (damage : Int) : keeps f a (apply_damage a i damage) := by
  intro j
  rw [apply_damage_getRobot]
  split_ifs with hij
  · rw [hb.damage, hij.1]
  · rfl

theorem hit_cell_keeps {α : Type} {f : RobotInfo → α} (hb : Blind f) (a : Arena)
    (r c damage : Int) : keeps f a (hit_cell a r c damage) := by
  unfold hit_cell
  split_ifs
  · cases get_robot_at a r c with
    | none => exact keeps_same f a
    | some target => exact apply_damage_keeps hb a target damage
  · exact keeps_same f a

theorem foldl_hit_cell_keeps {α : Type} {f : RobotInfo → α} (hb : Blind f) (damage : Int)
    (cells : List (Int × Int)) :
    ∀ a : Arena, keeps f a (cells.foldl (fun s cell => hit_cell s cell.1 cell.2 damage) a) := by
  induction cells with
  | nil => intro a; exact keeps_same f a
  | cons cell rest ih =>
    intro a
    exact keeps_then (hit_cell_keeps hb a cell.1 cell.2 damage) (ih _)

theorem shoot_railgun_loop_keeps {α : Type} {f : RobotInfo → α} (hb : Blind f) (dr dc : Int)
    (fuel : Nat) :
    ∀ (a : Arena) (r c : Int) (b : Arena),
      shoot_railgun_loop dr dc fuel a r c = some b → keeps f a b := by
  induction fuel with
  | zero =>
    intro a r c b h
    unfold shoot_railgun_loop at h
    split_ifs at h
    simp at h
    rw [← h]; exact keeps_same f a
  | succ fuel ih =>
    intro a r c b h
    unfold shoot_railgun_loop at h
    split_ifs at h with hv
    · dsimp only at h
      cases hg : get_robot_at a r c with
      | none =>
        rw [hg] at h
        exact ih a _ _ b h
      | some target =>
        rw [hg] at h
        exact keeps_then (apply_damage_keeps hb a target 12) (ih _ _ _ b h)
    · simp at h
      rw [← h]; exact keeps_same f a

/-- A shot keeps every reading that is blind to damage and, when the shooter
carries grenades, to the ammunition count. -/
theorem handle_shooting_keeps {α : Type} {f : RobotInfo → α} (hb : Blind f) (fuel : Nat)
    (a : Arena) (i : Nat) (shot : Option (Int × Int))
    (hg : (getRobot a i).robot.get_weapon = WeaponType.grenade →
      ∀ info : RobotInfo, f { info with robot := info.robot.decrement_grenades } = f info)
    (b : Arena) (h : handle_shooting fuel a i shot = some b) : keeps f a b := by
  unfold handle_shooting at h
  cases shot with
  | none => simp at h; rw [← h]; exact keeps_same f a
  | some target =>
    obtain ⟨shot_row, shot_col⟩ := target
    dsimp only at h
    cases hw : (getRobot a i).robot.get_weapon with
    | flamethrower =>
      rw [hw] at h; simp at h; rw [← h]
      exact foldl_hit_cell_keeps hb 15 _ a
    | railgun =>
      rw [hw] at h
      exact shoot_railgun_loop_keeps hb _ _ fuel a _ _ b h
    | grenade =>
      rw [hw] at h
      dsimp only at h
      split_ifs at h
      · simp at h; rw [← h]
        exact keeps_then (foldl_hit_cell_keeps hb 20 _ a) (setRobot_keeps f _ i _ (hg hw _))
      · simp at h; rw [← h]; exact keeps_same f a
    | hammer =>
      rw [hw] at h; simp at h; rw [← h]
      exact hit_cell_keeps hb a _ _ 25

theorem clear_robot_from_board_keeps {α : Type} (f : RobotInfo → α) (a : Arena) (i : Nat) :
    keeps f a (clear_robot_from_board a i) :=
  keeps_of_robots f (clear_robot_from_board_cell a i 0 0).1

theorem place_robot_on_board_keeps {α : Type} (f : RobotInfo → α) (a : Arena) (i : Nat)
    (r c : Int) : keeps f a (place_robot_on_board a i r c) := by
  unfold place_robot_on_board
  split_ifs
  · exact keeps_of_robots f rfl
  · exact keeps_same f a

theorem check_obstacle_effects_keeps {α : Type} {f : RobotInfo → α} (hb : Blind f) (a : Arena)
    (i : Nat) (r c : Int) : keeps f a (check_obstacle_effects a i r c) := by
  unfold check_obstacle_effects
  dsimp only
  split_ifs
  · exact setRobot_keeps f a i _ (hb.pit_entry _)
  · exact apply_damage_keeps hb a i 15
  · exact keeps_same f a

theorem move_to_keeps {α : Type} {f : RobotInfo → α} (hb : Blind f) (a : Arena) (i : Nat)
    (r c : Int) :
    keeps f a (setRobot a i { getRobot a i with robot := (getRobot a i).robot.move_to r c }) :=
  setRobot_keeps f a i _ (hb.move _ r c)

theorem move_robot_keeps {α : Type} {f : RobotInfo → α} (hb : Blind f) (a : Arena) (i : Nat)
    (r c : Int) : keeps f a (move_robot a i r c).2 := by
  by_cases hc : can_move_to a r c = true
  · have h : (move_robot a i r c).2 =
        place_robot_on_board
          (check_obstacle_effects
            (setRobot (clear_robot_from_board a i) i
              { getRobot (clear_robot_from_board a i) i with
                robot := (getRobot (clear_robot_from_board a i) i).robot.move_to r c })
            i r c)
          i r c := by
      simp [move_robot, hc]
    rw [h]
    exact keeps_then (keeps_then (keeps_then (clear_robot_from_board_keeps f a i)
      (move_to_keeps hb _ i r c)) (check_obstacle_effects_keeps hb _ i r c))
      (place_robot_on_board_keeps f _ i r c)
  · have h : (move_robot a i r c).2 = a := by simp [move_robot, hc]
    rw [h]
    exact keeps_same f a

theorem try_directions_at_keeps {α : Type} {f : RobotInfo → α} (hb : Blind f) (i : Nat)
    (cr cc dist : Int) (dirs : List Int) :
    ∀ a : Arena, keeps f a (try_directions_at i cr cc dist dirs a).2 := by
  induction dirs with
  | nil => intro a; exact keeps_same f a
  | cons dir rest ih =>
    intro a
    unfold try_directions_at
    dsimp only
    split_ifs
    · exact move_robot_keeps hb a i _ _
    · exact keeps_then (move_robot_keeps hb a i _ _) (ih _)

theorem try_distances_keeps {α : Type} {f : RobotInfo → α} (hb : Blind f) (i : Nat)
    (cr cc : Int) (order : List Int) (n : Nat) :
    ∀ (dist : Int) (a : Arena), keeps f a (try_distances i cr cc order n dist a).2 := by
  induction n with
  | zero => intro dist a; exact keeps_same f a
  | succ n ih =>
    intro dist a
    unfold try_distances
    dsimp only
    split_ifs
    · exact try_directions_at_keeps hb i cr cc dist order a
    · exact keeps_then (try_directions_at_keeps hb i cr cc dist order a) (ih _ _)

theorem try_multiple_directions_keeps {α : Type} {f : RobotInfo → α} (hb : Blind f) (a : Arena)
    (i : Nat) (preferred distance : Int) (all_dirs : List Int) :
    keeps f a (try_multiple_directions a i preferred distance all_dirs).2 := by
  unfold try_multiple_directions
  dsimp only
  split_ifs
  · exact try_distances_keeps hb i _ _ _ _ _ a
  · exact keeps_then (try_distances_keeps hb i _ _ _ _ _ a)
      (try_directions_at_keeps hb i _ _ 1 _ _)

/-! ## A match with one agent -/

theorem lt_length_of_alive (a : Arena) (i : Nat) (h : (getRobot a i).is_alive = true) :
    i < a.m_robots.length := by
  by_contra hi
  have : getRobot a i = default := by
    unfold getRobot
    rw [List.getD_eq_getElem?_getD, List.getElem?_eq_none (Nat.le_of_not_lt hi)]
    rfl
  rw [this] at h
  exact absurd h (by decide)

theorem run_game_loop_of_over (fuel : Nat) (inputs : Nat → Nat → TurnInput) (n k : Nat)
    (a : Arena) (h : is_game_over a = true) : run_game_loop fuel inputs n k a = some a := by
  cases n <;> simp [run_game_loop, h]

/-- A match that is over when `run_game` has set up the board executes no round:
the state announced is the one `initialize_board` built. -/
theorem run_game_of_over (fuel rounds : Nat) (a : Arena) (d : ObstacleDraws)
    (inputs : Nat → Nat → TurnInput) (h : is_game_over (initialize_board a d) = true) :
    run_game fuel rounds a d inputs =
      some (initialize_board a d, announce_winner (initialize_board a d)) := by
  unfold run_game
  rw [run_game_loop_of_over fuel inputs rounds 0 _ h]
  rfl

/-- With agent 0 alive, `announce_winner` names it as long as the round limit has
not been reached. -/
theorem announce_winner_first (a : Arena) (halive : (getRobot a 0).is_alive = true)
    (hround : a.m_round < a.m_max_rounds) : announce_winner a = Outcome.winner 0 := by
  unfold announce_winner
  rw [if_neg (by omega), get_winner_first_alive a 0 halive (fun k hk => absurd hk (by omega))]

/-- Claim C21, counterexample: the match of `single_agent_loaded` executes no
round - `run_game` returns the state `initialize_board` built, with the round
counter at 0 of 1000 - and reports agent 0 as the winner, not a round-limit
termination with survivors. -/
theorem single_agent_match_runs_no_round :
    run_game 0 1000 single_agent_loaded example_obstacles idle_rounds =
      some (initialize_board single_agent_loaded example_obstacles, Outcome.winner 0) ∧
    (initialize_board single_agent_loaded example_obstacles).m_round = 0 ∧
    (initialize_board single_agent_loaded example_obstacles).m_max_rounds = 1000 ∧
    Outcome.winner 0 ≠ Outcome.timeout [0] := by
  refine ⟨?_, rfl, rfl, by decide⟩
  rw [run_game_of_over 0 1000 _ _ _ (by decide)]
  rw [announce_winner_first _ (by decide) (by decide)]

/-- Claim C21 (amended): a match loaded with exactly one agent ends at once.
For every state with one record, alive, counted in `m_alive_count`, and a round
counter below the limit, `run_game` executes no round, whatever the round budget
and the inputs: it returns the state `initialize_board` built, in which the
round counter and the record are as loaded and agent 0 is the only living
agent, and reports agent 0 as the winner. -/
theorem single_agent_match_ends_at_once (fuel rounds : Nat) (a : Arena) (d : ObstacleDraws)
    (inputs : Nat → Nat → TurnInput) (hone : a.m_robots.length = 1)
    (halive : (getRobot a 0).is_alive = true) (hcount : a.m_alive_count = 1)
    (hround : a.m_round < a.m_max_rounds) :
    run_game fuel rounds a d inputs = some (initialize_board a d, Outcome.winner 0) ∧
    (initialize_board a d).m_round = a.m_round ∧
    getRobot (initialize_board a d) 0 = getRobot a 0 ∧
    (∀ j, (getRobot (initialize_board a d) j).is_alive = true → j = 0) := by
  have hover : is_game_over (initialize_board a d) = true := by
    have : (initialize_board a d).m_alive_count = 1 := hcount
    simp [is_game_over, this]
  refine ⟨?_, rfl, rfl, ?_⟩
  · rw [run_game_of_over fuel rounds a d inputs hover]
    rw [announce_winner_first (initialize_board a d) halive hround]
  · intro j hj
    have hlt : j < a.m_robots.length := lt_length_of_alive (initialize_board a d) j hj
    omega

theorem single_agent_match_ends_at_once_witness :
    run_game 0 1000 single_agent_loaded example_obstacles idle_rounds =
      some (initialize_board single_agent_loaded example_obstacles, Outcome.winner 0) ∧
    (initialize_board single_agent_loaded example_obstacles).m_round =
      single_agent_loaded.m_round ∧
    getRobot (initialize_board single_agent_loaded example_obstacles) 0 =
      getRobot single_agent_loaded 0 ∧
    (∀ j, (getRobot (initialize_board single_agent_loaded example_obstacles) j).is_alive = true →
      j = 0) :=
  single_agent_match_ends_at_once 0 1000 single_agent_loaded example_obstacles idle_rounds
    (by decide) (by decide) (by decide) (by decide)

/-! ## Grenade ammunition -/

/-- Claim C23: grenade ammunition accounting in `handle_shooting`, for a
registered agent `i` that names a target. With the grenade weapon and a count
above 0 the shot is resolved (`shoot_grenade` at the target) and then the
agent's count drops by exactly 1, every other count staying as it was; with the
grenade weapon and a count of 0 (or below) the state is unchanged, so no cell is
damaged and the count stays; with the hammer, the railgun or the flamethrower no
agent's grenade count changes. -/
theorem grenade_accounting (fuel : Nat) (a : Arena) (i : Nat) (shot_row shot_col : Int)
    (hi : i < a.m_robots.length) :
    ((getRobot a i).robot.get_weapon = WeaponType.grenade →
      (getRobot a i).robot.get_grenades > 0 →
      ∃ b, handle_shooting fuel a i (some (shot_row, shot_col)) = some b ∧
        b = setRobot (shoot_grenade a shot_row shot_col) i
          { getRobot (shoot_grenade a shot_row shot_col) i with
            robot := (getRobot (shoot_grenade a shot_row shot_col) i).robot.decrement_grenades } ∧
        (getRobot b i).robot.get_grenades = (getRobot a i).robot.get_grenades - 1 ∧
        ∀ j, j ≠ i → (getRobot b j).robot.get_grenades = (getRobot a j).robot.get_grenades) ∧
    ((getRobot a i).robot.get_weapon = WeaponType.grenade →
      (getRobot a i).robot.get_grenades ≤ 0 →
      handle_shooting fuel a i (some (shot_row, shot_col)) = some a) ∧
    ((getRobot a i).robot.get_weapon ≠ WeaponType.grenade →
      ∀ b, handle_shooting fuel a i (some (shot_row, shot_col)) = some b →
        ∀ j, (getRobot b j).robot.get_grenades = (getRobot a j).robot.get_grenades) := by
  refine ⟨?_, ?_, ?_⟩
  · intro hw hg
    refine ⟨_, ?_, rfl, ?_, ?_⟩
    · unfold handle_shooting
      dsimp only
      rw [hw]
      dsimp only
      rw [if_pos hg]
    · have hk := foldl_hit_cell_keeps grenades_blind 20 (grenade_cells shot_row shot_col) a
      have hlen : i < (shoot_grenade a shot_row shot_col).m_robots.length := by
        have := (foldl_hit_cell_stepFrame 20 (grenade_cells shot_row shot_col) a).1.length
        unfold shoot_grenade
        omega
      rw [getRobot_setRobot_self _ _ _ hlen]
      have := hk i
      unfold shoot_grenade
      simp only [RobotBase.get_grenades, RobotBase.decrement_grenades] at this ⊢
      rw [this]
    · intro j hj
      rw [getRobot_setRobot_other _ _ _ _ (Ne.symm hj)]
      exact foldl_hit_cell_keeps grenades_blind 20 (grenade_cells shot_row shot_col) a j
  · intro hw hg
    unfold handle_shooting
    dsimp only
    rw [hw]
    dsimp only
    rw [if_neg (by omega)]
  · intro hw b hb j
    exact handle_shooting_keeps grenades_blind fuel a i _ (fun h => absurd h hw) b hb j

theorem grenade_accounting_witness :
    ((getRobot three_agent_match 2).robot.get_weapon = WeaponType.grenade →
      (getRobot three_agent_match 2).robot.get_grenades > 0 →
      ∃ b, handle_shooting 0 three_agent_match 2 (some (5, 5)) = some b ∧
        b = setRobot (shoot_grenade three_agent_match 5 5) 2
          { getRobot (shoot_grenade three_agent_match 5 5) 2 with
            robot := (getRobot (shoot_grenade three_agent_match 5 5) 2).robot.decrement_grenades } ∧
        (getRobot b 2).robot.get_grenades = (getRobot three_agent_match 2).robot.get_grenades - 1 ∧
        ∀ j, j ≠ 2 →
          (getRobot b j).robot.get_grenades = (getRobot three_agent_match j).robot.get_grenades) ∧
    ((getRobot three_agent_match 2).robot.get_weapon = WeaponType.grenade →
      (getRobot three_agent_match 2).robot.get_grenades ≤ 0 →
      handle_shooting 0 three_agent_match 2 (some (5, 5)) = some three_agent_match) ∧
    ((getRobot three_agent_match 2).robot.get_weapon ≠ WeaponType.grenade →
      ∀ b, handle_shooting 0 three_agent_match 2 (some (5, 5)) = some b →
        ∀ j, (getRobot b j).robot.get_grenades = (getRobot three_agent_match j).robot.get_grenades) :=
  grenade_accounting 0 three_agent_match 2 5 5 (by decide)

/-! ## Terrain on a pit escape -/

/-- Claim C24, the code at the failing input: agent 0 of `three_agent_pit` is
trapped on the pit at (2,0). When the shuffled escape directions start with
north-east, `handle_pit_escape` puts it on the hazard at (1,1) with its health
and armor untouched (through `move_robot` the same entry costs 12 health and one
armor unit); when they start with east, it puts the agent on the pit at (2,1)
with `in_pit` false. -/
theorem pit_escape_skips_terrain_effects :
    position three_agent_pit 0 = (2, 0) ∧ (getRobot three_agent_pit 0).in_pit = true ∧
    three_agent_pit.m_board 1 1 = FLAMETHROWER ∧
    position (handle_pit_escape three_agent_pit 0 [2, 1, 3, 4, 5, 6, 7, 8] idle.escape_draws) 0
      = (1, 1) ∧
    (getRobot (handle_pit_escape three_agent_pit 0 [2, 1, 3, 4, 5, 6, 7, 8] idle.escape_draws)
      0).robot.m_health = (getRobot three_agent_pit 0).robot.m_health ∧
    (getRobot (handle_pit_escape three_agent_pit 0 [2, 1, 3, 4, 5, 6, 7, 8] idle.escape_draws)
      0).robot.m_armor = (getRobot three_agent_pit 0).robot.m_armor ∧
    (getRobot (move_robot three_agent_pit 0 1 1).2 0).robot.m_health =
      (getRobot three_agent_pit 0).robot.m_health - 12 ∧
    three_agent_pit.m_board 2 1 = PIT ∧
    position (handle_pit_escape three_agent_pit 0 [3, 1, 2, 4, 5, 6, 7, 8] idle.escape_draws) 0
      = (2, 1) ∧
    (getRobot (handle_pit_escape three_agent_pit 0 [3, 1, 2, 4, 5, 6, 7, 8] idle.escape_draws)
      0).in_pit = false ∧
    (getRobot (move_robot three_agent_pit 0 2 1).2 0).in_pit = true := by
  decide

/-! ## Turns of dead agents -/

/-- Claim C26, the code at the failing input: agent 0 of `two_agent_worn`
(health 12, no armor, railgun) steps onto the hazard at (5,4) and dies in its
movement phase; `robot_turn` still resolves its attack, and the beam takes 9
health and one armor unit from agent 1 on (5,6). -/
theorem dead_agent_still_shoots :
    (getRobot two_agent_worn 0).is_alive = true ∧
    (getRobot (handle_movement two_agent_worn 0 hazard_step_and_shot) 0).is_alive = false ∧
    robot_turn 20 two_agent_worn 0 hazard_step_and_shot =
      handle_shooting 20 (handle_movement two_agent_worn 0 hazard_step_and_shot) 0
        hazard_step_and_shot.shot ∧
    (robot_turn 20 two_agent_worn 0 hazard_step_and_shot).isSome = true ∧
    (getRobot (handle_movement two_agent_worn 0 hazard_step_and_shot) 1).robot.m_health = 100 ∧
    (getRobot (after_turn 20 two_agent_worn 0 hazard_step_and_shot) 1).robot.m_health = 91 ∧
    (getRobot (after_turn 20 two_agent_worn 0 hazard_step_and_shot) 1).robot.m_armor = 3 := by
  refine ⟨by decide, by decide, robot_turn_not_in_pit _ _ _ _ (by decide), ?_, by decide, ?_, ?_⟩
  · decide
  · decide
  · decide

/-! ## The fallback fan-out -/

theorem move_robot_fst (a : Arena) (i : Nat) (r c : Int) :
    (move_robot a i r c).1 = can_move_to a r c := by
  unfold move_robot
  by_cases h : can_move_to a r c = true
  · simp [h]
  · simp [h]

theorem move_robot_of_blocked (a : Arena) (i : Nat) (r c : Int)
    (h : can_move_to a r c = false) : move_robot a i r c = (false, a) := by
  simp [move_robot, h]

/-- The inner loop takes the first direction whose cell is legal; the rejected
attempts before it leave the state as it was. -/
theorem try_directions_at_first (i : Nat) (cr cc dist : Int) (dirs : List Int) (a : Arena) :
    try_directions_at i cr cc dist dirs a =
      match first_legal a cr cc (dirs.map (fun dir => (dir, dist))) with
      | some x => move_robot a i (candidate_cell cr cc x).1 (candidate_cell cr cc x).2
      | none => (false, a) := by
  induction dirs with
  | nil => rfl
  | cons dir rest ih =>
    unfold try_directions_at
    dsimp only
    by_cases h : can_move_to a (cr + (directions dir).1 * dist) (cc + (directions dir).2 * dist)
        = true
    · have h1 : (move_robot a i (cr + (directions dir).1 * dist)
          (cc + (directions dir).2 * dist)).1 = true := by rw [move_robot_fst]; exact h
      rw [if_pos h1]
      simp only [first_legal, List.map_cons, candidate_cell]
      rw [List.find?_cons_of_pos _ (by simpa using h)]
      exact Prod.ext h1.symm rfl
    · have h1 := move_robot_of_blocked a i _ _ (by simpa using h)
      rw [h1]
      simp only [Bool.false_eq_true, if_false]
      rw [ih]
      simp only [first_legal, List.map_cons]
      rw [List.find?_cons_of_neg _ (by simpa [candidate_cell] using h)]

theorem first_legal_append (a : Arena) (row col : Int) (l1 l2 : List (Int × Int)) :
    first_legal a row col (l1 ++ l2) =
      (first_legal a row col l1).or (first_legal a row col l2) := by
  simp [first_legal]

theorem first_legal_is_legal (a : Arena) (row col : Int) (cands : List (Int × Int))
    (x : Int × Int) (h : first_legal a row col cands = some x) :
    can_move_to a (candidate_cell row col x).1 (candidate_cell row col x).2 = true ∧
    x ∈ cands := by
  unfold first_legal at h
  exact ⟨by simpa using List.find?_some h, List.mem_of_find?_eq_some h⟩

theorem first_legal_eq_none (a : Arena) (row col : Int) (cands : List (Int × Int)) :
    first_legal a row col cands = none ↔
      ∀ x ∈ cands, can_move_to a (candidate_cell row col x).1 (candidate_cell row col x).2
        = false := by
  simp [first_legal]

/-- The nested loops take the first legal candidate in their visiting order. -/
theorem try_distances_first (i : Nat) (cr cc : Int) (order : List Int) (n : Nat) :
    ∀ (dist : Int) (a : Arena),
      try_distances i cr cc order n dist a =
        match first_legal a cr cc (fallback_candidates_from order n dist) with
        | some x => move_robot a i (candidate_cell cr cc x).1 (candidate_cell cr cc x).2
        | none => (false, a) := by
  induction n with
  | zero => intro dist a; rfl
  | succ n ih =>
    intro dist a
    unfold try_distances
    dsimp only
    rw [try_directions_at_first, fallback_candidates_from, first_legal_append]
    cases h : first_legal a cr cc (order.map (fun dir => (dir, dist))) with
    | some x =>
      have hl := (first_legal_is_legal a cr cc _ x h).1
      have h1 : (move_robot a i (candidate_cell cr cc x).1 (candidate_cell cr cc x).2).1
          = true := by rw [move_robot_fst]; exact hl
      simp only [Option.or]
      rw [if_pos h1]
    | none =>
      simp only [Option.or, Bool.false_eq_true, if_false]
      exact ih (dist - 1) a

/-- The fallback as a whole: the first legal candidate of the nested loops, and
the shuffled pass at distance 1 when there is none. -/
theorem try_multiple_directions_first (a : Arena) (i : Nat) (preferred distance : Int)
    (all_dirs : List Int) :
    try_multiple_directions a i preferred distance all_dirs =
      match first_legal a (position a i).1 (position a i).2
          (fallback_candidates (try_order preferred) distance) with
      | some x =>
        move_robot a i (candidate_cell (position a i).1 (position a i).2 x).1
          (candidate_cell (position a i).1 (position a i).2 x).2
      | none => try_directions_at i (position a i).1 (position a i).2 1 all_dirs a := by
  unfold try_multiple_directions
  dsimp only
  rw [try_distances_first]
  unfold fallback_candidates position
  dsimp only
  cases h : first_legal a (getRobot a i).robot.m_location_row
      (getRobot a i).robot.m_location_col
      (fallback_candidates_from (try_order preferred) distance.toNat distance) with
  | some x =>
    have hl := (first_legal_is_legal a _ _ _ x h).1
    have h1 : (move_robot a i
        (candidate_cell (getRobot a i).robot.m_location_row
          (getRobot a i).robot.m_location_col x).1
        (candidate_cell (getRobot a i).robot.m_location_row
          (getRobot a i).robot.m_location_col x).2).1 = true := by
      rw [move_robot_fst]; exact hl
    dsimp only
    rw [if_pos h1]
  | none =>
    dsimp only
    simp only [Bool.false_eq_true, if_false]

/-- The directions `try_order` lists for a preferred direction in 1..8: the
preferred one, its two neighbours in the 8-cycle, then the other five in
increasing order; together, each of 1..8 once. -/
theorem try_order_spec (p : Int) (h1 : 1 ≤ p) (h8 : p ≤ 8) :
    try_order p =
      [p, (if p = 1 then 8 else p - 1), (if p = 8 then 1 else p + 1)] ++
        ([1, 2, 3, 4, 5, 6, 7, 8] : List Int).filter (fun dir =>
          decide (dir ≠ p ∧ dir ≠ (if p = 1 then 8 else p - 1) ∧
            dir ≠ (if p = 8 then 1 else p + 1))) ∧
    (try_order p).Perm [1, 2, 3, 4, 5, 6, 7, 8] ∧
    (try_order p).length = 8 := by
  have : p = 1 ∨ p = 2 ∨ p = 3 ∨ p = 4 ∨ p = 5 ∨ p = 6 ∨ p = 7 ∨ p = 8 := by omega
  rcases this with h | h | h | h | h | h | h | h <;> subst h <;> exact ⟨rfl, by decide, rfl⟩

theorem fallback_candidates_from_eq (order : List Int) (n : Nat) :
    ∀ dist : Int,
      fallback_candidates_from order n dist =
        (List.range n).flatMap
          (fun (k : Nat) => order.map (fun dir => (dir, dist - (k : Int)))) := by
  induction n with
  | zero => intro dist; rfl
  | succ n ih =>
    intro dist
    rw [fallback_candidates_from, ih, List.range_succ_eq_map]
    simp only [List.flatMap_cons, List.flatMap_map, Nat.cast_zero, sub_zero]
    congr 1
    congr 1
    funext k
    simp only [Function.comp, Nat.cast_succ]
    congr 1
    funext dir
    congr 1
    omega

/-- Claim C29, counterexample: agent 0 of `three_agent_match` stands on (5,5)
with mounds on (3,3) and (3,5); for the preferred direction 1 (north) and the
distance 2, the first legal candidate in the direction-by-direction order of the
claim is north at distance 1, the cell (4,5), but `try_multiple_directions`
moves the agent north-east at distance 2, to (3,7). -/
theorem fan_out_is_distance_major :
    position three_agent_match 0 = (5, 5) ∧
    first_legal three_agent_match 5 5 (direction_major_candidates (try_order 1) 2)
      = some (1, 1) ∧
    candidate_cell 5 5 (1, 1) = (4, 5) ∧
    (try_multiple_directions three_agent_match 0 1 2 idle.all_dirs).1 = true ∧
    position (try_multiple_directions three_agent_match 0 1 2 idle.all_dirs).2 0 = (3, 7) := by
  decide

/-- Claim C29 (amended): for a preferred direction p in 1..8 and a requested
distance D, `try_multiple_directions` examines its candidates distance by
distance: for each distance D, D-1, ..., 1 in turn it tries the directions p,
then p-1 and p+1 in the 8-cycle, then the remaining five in increasing order,
before it goes on to the next shorter distance. The move taken is the first
candidate in that order whose cell passes `can_move_to`; when there is none, the
outcome is that of the shuffled pass at distance 1. -/
theorem fallback_fan_out_order (a : Arena) (i : Nat) (p D : Int) (all_dirs : List Int)
    (hp1 : 1 ≤ p) (hp8 : p ≤ 8) :
    try_order p =
      [p, (if p = 1 then 8 else p - 1), (if p = 8 then 1 else p + 1)] ++
        ([1, 2, 3, 4, 5, 6, 7, 8] : List Int).filter (fun dir =>
          decide (dir ≠ p ∧ dir ≠ (if p = 1 then 8 else p - 1) ∧
            dir ≠ (if p = 8 then 1 else p + 1))) ∧
    fallback_candidates (try_order p) D =
      (List.range D.toNat).flatMap
        (fun (k : Nat) => (try_order p).map (fun dir => (dir, D - (k : Int)))) ∧
    (match first_legal a (position a i).1 (position a i).2
        (fallback_candidates (try_order p) D) with
      | some x =>
        try_multiple_directions a i p D all_dirs =
          move_robot a i (candidate_cell (position a i).1 (position a i).2 x).1
            (candidate_cell (position a i).1 (position a i).2 x).2 ∧
        (try_multiple_directions a i p D all_dirs).1 = true
      | none =>
        try_multiple_directions a i p D all_dirs =
          try_directions_at i (position a i).1 (position a i).2 1 all_dirs a) := by
  refine ⟨(try_order_spec p hp1 hp8).1, fallback_candidates_from_eq _ _ _, ?_⟩
  have h := try_multiple_directions_first a i p D all_dirs
  cases hf : first_legal a (position a i).1 (position a i).2
      (fallback_candidates (try_order p) D) with
  | some x =>
    rw [hf] at h
    dsimp only at h ⊢
    refine ⟨h, ?_⟩
    rw [h, move_robot_fst]
    exact (first_legal_is_legal a _ _ _ x hf).1
  | none =>
    rw [hf] at h
    exact h

theorem fallback_fan_out_order_witness :
    try_order 1 =
      [1, (if (1 : Int) = 1 then 8 else 1 - 1), (if (1 : Int) = 8 then 1 else 1 + 1)] ++
        ([1, 2, 3, 4, 5, 6, 7, 8] : List Int).filter (fun dir =>
          decide (dir ≠ 1 ∧ dir ≠ (if (1 : Int) = 1 then 8 else 1 - 1) ∧
            dir ≠ (if (1 : Int) = 8 then 1 else 1 + 1))) ∧
    fallback_candidates (try_order 1) 2 =
      (List.range (2 : Int).toNat).flatMap
        (fun (k : Nat) => (try_order 1).map (fun dir => (dir, 2 - (k : Int)))) ∧
    (match first_legal three_agent_match (position three_agent_match 0).1
        (position three_agent_match 0).2 (fallback_candidates (try_order 1) 2) with
      | some x =>
        try_multiple_directions three_agent_match 0 1 2 idle.all_dirs =
          move_robot three_agent_match 0
            (candidate_cell (position three_agent_match 0).1 (position three_agent_match 0).2 x).1
            (candidate_cell (position three_agent_match 0).1 (position three_agent_match 0).2 x).2 ∧
        (try_multiple_directions three_agent_match 0 1 2 idle.all_dirs).1 = true
      | none =>
        try_multiple_directions three_agent_match 0 1 2 idle.all_dirs =
          try_directions_at 0 (position three_agent_match 0).1 (position three_agent_match 0).2 1
            idle.all_dirs three_agent_match) :=
  fallback_fan_out_order three_agent_match 0 1 2 idle.all_dirs (by decide) (by decide)

/-! ## Teleports: the loops as searches -/

theorem getRobot_of_robots {a b : Arena} (h : b.m_robots = a.m_robots) (j : Nat) :
    getRobot b j = getRobot a j := by
  unfold getRobot
  rw [h]

theorem place_robot_on_board_robots (a : Arena) (i : Nat) (r c : Int) :
    (place_robot_on_board a i r c).m_robots = a.m_robots := by
  unfold place_robot_on_board
  split_ifs <;> rfl

theorem place_robot_on_board_board (a : Arena) (i : Nat) (r c : Int) :
    (place_robot_on_board a i r c).m_board =
      if is_valid_position a r c = true then setCell a.m_board r c (symbol a i)
      else a.m_board := by
  unfold place_robot_on_board symbol
  split_ifs <;> rfl

theorem clear_robot_from_board_robots (a : Arena) (i : Nat) :
    (clear_robot_from_board a i).m_robots = a.m_robots :=
  (clear_robot_from_board_cell a i 0 0).1

theorem clear_robot_from_board_board (a : Arena) (i : Nat) :
    (clear_robot_from_board a i).m_board =
      if is_valid_position a (position a i).1 (position a i).2 = true ∧
          a.m_board (position a i).1 (position a i).2 = symbol a i then
        setCell a.m_board (position a i).1 (position a i).2 EMPTY
      else a.m_board := by
  unfold clear_robot_from_board symbol position
  dsimp only
  by_cases h1 : is_valid_position a (getRobot a i).robot.m_location_row
      (getRobot a i).robot.m_location_col = true
  · by_cases h2 : a.m_board (getRobot a i).robot.m_location_row
        (getRobot a i).robot.m_location_col = (getRobot a i).robot.m_character
    · rw [if_pos h1, if_pos h2, if_pos ⟨h1, h2⟩]
    · rw [if_pos h1, if_neg h2, if_neg (fun h => h2 h.2)]
  · rw [if_neg h1, if_neg (fun h => h1 h.1)]

/-- The attempt loop of `handle_stuck_robot` teleports to the candidate of the
first attempt that finds an empty cell, and only resets the counter when no
attempt does. -/
theorem stuck_loop_first (i : Nat) (draws : Nat → Int × Int) (n : Nat) :
    ∀ (attempt : Nat) (a : Arena),
      stuck_loop i draws n attempt a =
        match first_empty_candidate a draws attempt n with
        | some k =>
          stuck_teleport a i (stuck_candidate a k (draws k)).1 (stuck_candidate a k (draws k)).2
        | none => setRobot a i { getRobot a i with stuck_count := 0 } := by
  induction n with
  | zero => intro attempt a; rfl
  | succ n ih =>
    intro attempt a
    unfold stuck_loop first_empty_candidate
    dsimp only
    rw [List.range'_succ]
    by_cases h : a.m_board (stuck_candidate a attempt (draws attempt)).1
        (stuck_candidate a attempt (draws attempt)).2 = EMPTY
    · rw [if_pos h, List.find?_cons_of_pos _ (by simpa using h)]
      rfl
    · rw [if_neg h, List.find?_cons_of_neg _ (by simpa using h)]
      exact ih (attempt + 1) a

theorem handle_stuck_robot_first (a : Arena) (i : Nat) (draws : Nat → Int × Int) :
    handle_stuck_robot a i draws =
      match first_empty_candidate (clear_robot_from_board a i) draws 0 100 with
      | some k =>
        stuck_teleport (clear_robot_from_board a i) i
          (stuck_candidate (clear_robot_from_board a i) k (draws k)).1
          (stuck_candidate (clear_robot_from_board a i) k (draws k)).2
      | none =>
        setRobot (clear_robot_from_board a i) i
          { getRobot (clear_robot_from_board a i) i with stuck_count := 0 } :=
  stuck_loop_first i draws 100 0 _

/-- The adjacent phase of `handle_pit_escape` relocates to the first direction
whose cell is legal. -/
theorem escape_adjacent_first (i : Nat) (cr cc : Int) (dirs : List Int) (a : Arena) :
    escape_adjacent i cr cc dirs a =
      (first_escape_direction a cr cc dirs).map
        (fun dir => pit_relocate a i (cr + (directions dir).1) (cc + (directions dir).2)) := by
  induction dirs with
  | nil => rfl
  | cons dir rest ih =>
    unfold escape_adjacent first_escape_direction
    dsimp only
    by_cases h : can_move_to a (cr + (directions dir).1) (cc + (directions dir).2) = true
    · rw [if_pos h, List.find?_cons_of_pos _ (by simpa using h)]
      rfl
    · rw [if_neg h, List.find?_cons_of_neg _ (by simpa using h)]
      exact ih

/-- The teleport phase of `handle_pit_escape` relocates to the first drawn cell
that is empty, and does nothing when none is. -/
theorem escape_teleport_first (i : Nat) (draws : Nat → Int × Int) (n : Nat) :
    ∀ (attempt : Nat) (a : Arena),
      escape_teleport i draws n attempt a =
        match first_empty_draw a draws attempt n with
        | some k => pit_relocate a i (draws k).1 (draws k).2
        | none => a := by
  induction n with
  | zero => intro attempt a; rfl
  | succ n ih =>
    intro attempt a
    unfold escape_teleport first_empty_draw
    dsimp only
    rw [List.range'_succ]
    by_cases h : a.m_board (draws attempt).1 (draws attempt).2 = EMPTY
    · rw [if_pos h, List.find?_cons_of_pos _ (by simpa using h)]
      rfl
    · rw [if_neg h, List.find?_cons_of_neg _ (by simpa using h)]
      exact ih (attempt + 1) a

/-- What a relocation out of a pit does to a registered agent: the pit flag is
off, the recorded position is the new cell, the new cell (if in bounds) holds the
agent's symbol, and the old cell, if it is in bounds, held the symbol and is not
the new cell, is empty. -/
theorem pit_relocate_effect (a : Arena) (i : Nat) (r c : Int) (hi : i < a.m_robots.length) :
    (getRobot (pit_relocate a i r c) i).in_pit = false ∧
    position (pit_relocate a i r c) i = (r, c) ∧
    symbol (pit_relocate a i r c) i = symbol a i ∧
    (is_valid_position a r c = true → (pit_relocate a i r c).m_board r c = symbol a i) ∧
    (is_valid_position a (position a i).1 (position a i).2 = true →
      a.m_board (position a i).1 (position a i).2 = symbol a i →
      position a i ≠ (r, c) →
      (pit_relocate a i r c).m_board (position a i).1 (position a i).2 = EMPTY) := by
  have hr1 := clear_robot_from_board_robots a i
  have hg1 : getRobot (clear_robot_from_board a i) i = getRobot a i := getRobot_of_robots hr1 i
  have hl1 : i < (clear_robot_from_board a i).m_robots.length := by rw [hr1]; exact hi
  have hd := clear_robot_from_board_cell a i 0 0
  have hinfo : getRobot (pit_relocate a i r c) i =
      { getRobot a i with robot := (getRobot a i).robot.move_to r c, in_pit := false } := by
    unfold pit_relocate
    dsimp only
    rw [getRobot_setRobot_self _ _ _ (by
      rw [place_robot_on_board_robots]; simpa [setRobot] using hl1)]
    rw [getRobot_of_robots (place_robot_on_board_robots _ i r c) i,
      getRobot_setRobot_self _ _ _ hl1, hg1]
  have hboard : (pit_relocate a i r c).m_board =
      if is_valid_position a r c = true then
        setCell (clear_robot_from_board a i).m_board r c (symbol a i)
      else (clear_robot_from_board a i).m_board := by
    unfold pit_relocate
    dsimp only
    show (place_robot_on_board _ i r c).m_board = _
    rw [place_robot_on_board_board]
    have hv : is_valid_position (setRobot (clear_robot_from_board a i) i
        { getRobot (clear_robot_from_board a i) i with
          robot := (getRobot (clear_robot_from_board a i) i).robot.move_to r c }) r c =
        is_valid_position a r c :=
      is_valid_position_congr a _ hd.2.1 hd.2.2.1 r c
    have hs : symbol (setRobot (clear_robot_from_board a i) i
        { getRobot (clear_robot_from_board a i) i with
          robot := (getRobot (clear_robot_from_board a i) i).robot.move_to r c }) i =
        symbol a i := by
      unfold symbol
      rw [getRobot_setRobot_self _ _ _ hl1, hg1]
      rfl
    rw [hv, hs]
    rfl
  refine ⟨by rw [hinfo], ?_, ?_, ?_, ?_⟩
  · unfold position; rw [hinfo]; rfl
  · unfold symbol; rw [hinfo]; rfl
  · intro hv
    rw [hboard, if_pos hv]
    simp [setCell]
  · intro hv hsym hne
    have hclear : (clear_robot_from_board a i).m_board =
        setCell a.m_board (position a i).1 (position a i).2 EMPTY := by
      rw [clear_robot_from_board_board, if_pos ⟨hv, hsym⟩]
    rw [hboard, hclear]
    have hne2 : ¬ ((position a i).1 = r ∧ (position a i).2 = c) := by
      intro h
      exact hne (Prod.ext h.1 h.2)
    split_ifs <;> simp [setCell, hne2]

theorem can_move_to_valid (a : Arena) (r c : Int) (h : can_move_to a r c = true) :
    is_valid_position a r c = true := by
  unfold can_move_to at h
  by_contra hv
  simp [hv] at h

theorem handle_pit_escape_first (a : Arena) (i : Nat) (dirs : List Int)
    (draws : Nat → Int × Int) :
    handle_pit_escape a i dirs draws =
      match first_escape_direction a (position a i).1 (position a i).2 dirs with
      | some dir =>
        pit_relocate a i ((position a i).1 + (directions dir).1)
          ((position a i).2 + (directions dir).2)
      | none =>
        match first_empty_draw a draws 0 50 with
        | some k => pit_relocate a i (draws k).1 (draws k).2
        | none => a := by
  unfold handle_pit_escape position
  dsimp only
  rw [escape_adjacent_first, escape_teleport_first]
  cases first_escape_direction a (getRobot a i).robot.m_location_row
    (getRobot a i).robot.m_location_col dirs <;> rfl

theorem pit_relocate_escaped_to (a : Arena) (i : Nat) (r c : Int) (hi : i < a.m_robots.length)
    (hv : is_valid_position a r c = true)
    (hne : is_valid_position a (position a i).1 (position a i).2 = true →
      a.m_board (position a i).1 (position a i).2 = symbol a i → position a i ≠ (r, c)) :
    escaped_to a (pit_relocate a i r c) i (r, c) := by
  obtain ⟨h1, h2, h3, h4, h5⟩ := pit_relocate_effect a i r c hi
  refine ⟨h1, h2, ?_, h3, fun hvo hs => h5 hvo hs (hne hvo hs)⟩
  rw [h3]
  exact h4 hv

/-- Claim C25: the result of `handle_pit_escape` for a registered agent whose
symbol is not the empty marker, with escape directions drawn from 1..8 and
teleport draws inside the grid. When an adjacent cell passes `can_move_to`, the
agent is relocated to the first such cell in the shuffled order; otherwise, when
one of the 50 samples is empty, to the first empty sample. In both cases `in_pit`
is false, the recorded position is the new cell, the new cell holds the agent's
symbol and the old cell is empty if it held the symbol. When no adjacent cell is
legal and all 50 samples are non-empty, the state is returned as it was: `in_pit`,
the board and the position are unchanged. -/
theorem pit_escape_result (a : Arena) (i : Nat) (dirs : List Int) (draws : Nat → Int × Int)
    (hi : i < a.m_robots.length) (hsym : symbol a i ≠ EMPTY)
    (hdirs : ∀ d ∈ dirs, 1 ≤ d ∧ d ≤ 8)
    (hdraws : ∀ k, k < 50 → is_valid_position a (draws k).1 (draws k).2 = true) :
    (∀ d, first_escape_direction a (position a i).1 (position a i).2 dirs = some d →
      escaped_to a (handle_pit_escape a i dirs draws) i
        ((position a i).1 + (directions d).1, (position a i).2 + (directions d).2)) ∧
    (first_escape_direction a (position a i).1 (position a i).2 dirs = none →
      ∀ k, first_empty_draw a draws 0 50 = some k →
        escaped_to a (handle_pit_escape a i dirs draws) i (draws k)) ∧
    (first_escape_direction a (position a i).1 (position a i).2 dirs = none →
      first_empty_draw a draws 0 50 = none → handle_pit_escape a i dirs draws = a) := by
  have hfirst := handle_pit_escape_first a i dirs draws
  refine ⟨?_, ?_, ?_⟩
  · intro d hd
    rw [hd] at hfirst
    rw [hfirst]
    unfold first_escape_direction at hd
    have hlegal := List.find?_some hd
    have hmem := List.mem_of_find?_eq_some hd
    obtain ⟨hd1, hd8⟩ := hdirs d hmem
    refine pit_relocate_escaped_to a i _ _ hi (can_move_to_valid a _ _ hlegal) ?_
    intro _ _ heq
    have h1 := congrArg Prod.fst heq
    have h2 := congrArg Prod.snd heq
    simp only at h1 h2
    rcases directions_ne_zero d hd1 hd8 with h | h
    · omega
    · omega
  · intro hnone k hk
    rw [hnone, hk] at hfirst
    rw [hfirst]
    unfold first_empty_draw at hk
    have hempty : a.m_board (draws k).1 (draws k).2 = EMPTY := by
      simpa using List.find?_some hk
    have hmem := List.mem_of_find?_eq_some hk
    have hk50 : k < 50 := by
      have := (List.mem_range'_1.1 hmem).2
      omega
    refine pit_relocate_escaped_to a i _ _ hi (hdraws k hk50) ?_
    intro _ hs heq
    rw [heq] at hs
    exact hsym (hs.symm.trans hempty)
  · intro hnone hnone2
    rw [hnone, hnone2] at hfirst
    exact hfirst

theorem pit_escape_result_witness :
    first_escape_direction three_agent_pit (position three_agent_pit 0).1
      (position three_agent_pit 0).2 idle.escape_dirs = some 1 ∧
    escaped_to three_agent_pit
      (handle_pit_escape three_agent_pit 0 idle.escape_dirs idle.escape_draws) 0
      ((position three_agent_pit 0).1 + (directions 1).1,
        (position three_agent_pit 0).2 + (directions 1).2) :=
  ⟨by decide,
   (pit_escape_result three_agent_pit 0 idle.escape_dirs idle.escape_draws (by decide)
    (by decide) (by decide)
    (fun _ _ => (by decide : is_valid_position three_agent_pit 0 0 = true))).1 1 (by decide)⟩

/-! ## The teleport recovery -/

theorem first_empty_candidate_congr (a b : Arena) (draws : Nat → Int × Int) (s n : Nat)
    (hb : b.m_board = a.m_board) (hr : b.m_rows = a.m_rows) (hc : b.m_cols = a.m_cols) :
    first_empty_candidate b draws s n = first_empty_candidate a draws s n := by
  unfold first_empty_candidate stuck_candidate
  simp only [hb, hr, hc]

theorem stuck_candidate_congr (a b : Arena) (k : Nat) (draw : Int × Int)
    (hr : b.m_rows = a.m_rows) (hc : b.m_cols = a.m_cols) :
    stuck_candidate b k draw = stuck_candidate a k draw := by
  unfold stuck_candidate
  simp only [hr, hc]

/-- A candidate of the teleport search is in bounds when the draw it is computed
from is. -/
theorem stuck_candidate_valid (a : Arena) (k : Nat) (draw : Int × Int)
    (hv : is_valid_position a draw.1 draw.2 = true) :
    is_valid_position a (stuck_candidate a k draw).1 (stuck_candidate a k draw).2 = true := by
  unfold stuck_candidate
  dsimp only
  split_ifs
  · simp only [is_valid_position, Bool.and_eq_true, decide_eq_true_eq] at hv ⊢
    omega
  · exact hv

/-- What a teleport of the recovery does to a registered agent: the recorded
position is the cell, the cell (if in bounds) holds the agent's symbol, every
other cell is as before, and the stuck counter is 0. -/
theorem stuck_teleport_effect (a : Arena) (i : Nat) (r c : Int) (hi : i < a.m_robots.length) :
    position (stuck_teleport a i r c) i = (r, c) ∧
    symbol (stuck_teleport a i r c) i = symbol a i ∧
    (getRobot (stuck_teleport a i r c) i).stuck_count = 0 ∧
    (stuck_teleport a i r c).m_board =
      if is_valid_position a r c = true then setCell a.m_board r c (symbol a i)
      else a.m_board := by
  have hinfo : getRobot (stuck_teleport a i r c) i =
      { getRobot a i with robot := (getRobot a i).robot.move_to r c, stuck_count := 0 } := by
    unfold stuck_teleport
    dsimp only
    rw [getRobot_setRobot_self _ _ _ (by
      rw [place_robot_on_board_robots]; simpa [setRobot] using hi)]
    rw [getRobot_of_robots (place_robot_on_board_robots _ i r c) i,
      getRobot_setRobot_self _ _ _ hi]
  refine ⟨by unfold position; rw [hinfo]; rfl, by unfold symbol; rw [hinfo]; rfl, by rw [hinfo], ?_⟩
  unfold stuck_teleport
  dsimp only
  show (place_robot_on_board _ i r c).m_board = _
  rw [place_robot_on_board_board]
  have hs : symbol (setRobot a i
      { getRobot a i with robot := (getRobot a i).robot.move_to r c }) i = symbol a i := by
    unfold symbol
    rw [getRobot_setRobot_self _ _ _ hi]
    rfl
  rw [hs]
  rfl

/-- The failure path of `handle_movement`: when the primary move and the whole
fallback are rejected, the stuck counter is stepped and, from a counter that was
not negative, the teleport recovery runs in the same call. -/
theorem handle_movement_stuck (a : Arena) (i : Nat) (inp : TurnInput)
    (hi : i < a.m_robots.length)
    (h0 : ¬ (inp.move_direction = 0 ∨ inp.move_distance = 0))
    (hprimary : can_move_to a
      ((getRobot a i).robot.m_location_row +
        (directions inp.move_direction).1 *
          min inp.move_distance (getRobot a i).robot.get_move_speed)
      ((getRobot a i).robot.m_location_col +
        (directions inp.move_direction).2 *
          min inp.move_distance (getRobot a i).robot.get_move_speed) = false)
    (hfallback : try_multiple_directions a i inp.move_direction
      (min inp.move_distance (getRobot a i).robot.get_move_speed) inp.all_dirs = (false, a))
    (hs : 0 ≤ (getRobot a i).stuck_count) :
    handle_movement a i inp =
      setRobot
        (handle_stuck_robot
          (setRobot a i { getRobot a i with stuck_count := (getRobot a i).stuck_count + 1 })
          i inp.stuck_draws) i
        { getRobot
            (handle_stuck_robot
              (setRobot a i { getRobot a i with stuck_count := (getRobot a i).stuck_count + 1 })
              i inp.stuck_draws) i with stuck_count := 0 } := by
  unfold handle_movement
  dsimp only
  rw [if_neg h0, move_robot_of_blocked a i _ _ hprimary]
  simp only [Bool.false_eq_true, not_false_eq_true, if_true]
  rw [hfallback]
  simp only [Bool.false_eq_true, not_false_eq_true, if_true]
  rw [getRobot_setRobot_self _ _ _ hi]
  dsimp only
  have h1 : (getRobot a i).stuck_count + 1 ≥ 1 := by omega
  simp only [h1, if_true]

theorem can_move_to_of_wall (a : Arena) (r c : Int)
    (h : is_valid_position a r c = false ∨ a.m_board r c = MOUND) : can_move_to a r c = false := by
  unfold can_move_to
  rcases h with h | h
  · simp [h]
  · simp [h]

theorem try_order_range (p : Int) (h1 : 1 ≤ p) (h8 : p ≤ 8) (d : Int) (hd : d ∈ try_order p) :
    1 ≤ d ∧ d ≤ 8 := by
  have hmem := (try_order_spec p h1 h8).2.1.mem_iff.1 hd
  simp only [List.mem_cons, List.mem_singleton, List.not_mem_nil, or_false] at hmem
  omega

/-- The fallback fails, and leaves the state as it was, when no candidate of the
nested loops and no direction of the shuffled pass is legal. -/
theorem try_multiple_directions_none (a : Arena) (i : Nat) (preferred distance : Int)
    (all_dirs : List Int)
    (h1 : first_legal a (position a i).1 (position a i).2
      (fallback_candidates (try_order preferred) distance) = none)
    (h2 : first_legal a (position a i).1 (position a i).2
      (all_dirs.map (fun dir => (dir, 1))) = none) :
    try_multiple_directions a i preferred distance all_dirs = (false, a) := by
  rw [try_multiple_directions_first, h1]
  dsimp only
  rw [try_directions_at_first, h2]

/-- What the teleport recovery does to a registered agent when its draws are
inside the grid. If one of the 100 candidates is empty once the agent's own cell
has been cleared, the agent is recorded on the first such candidate, an in-bounds
cell that now holds its symbol and that was empty before the call or is the cell
the agent stood on. If none is, the recorded position stays and the board is the
one `clear_robot_from_board` left. -/
theorem handle_stuck_robot_effect (a : Arena) (i : Nat) (draws : Nat → Int × Int)
    (hi : i < a.m_robots.length)
    (hdraws : ∀ k, is_valid_position a (draws k).1 (draws k).2 = true) :
    match first_empty_candidate (clear_robot_from_board a i) draws 0 100 with
    | some k =>
      position (handle_stuck_robot a i draws) i = stuck_candidate a k (draws k) ∧
      is_valid_position a (stuck_candidate a k (draws k)).1
        (stuck_candidate a k (draws k)).2 = true ∧
      (handle_stuck_robot a i draws).m_board (stuck_candidate a k (draws k)).1
        (stuck_candidate a k (draws k)).2 = symbol a i ∧
      (a.m_board (stuck_candidate a k (draws k)).1 (stuck_candidate a k (draws k)).2 = EMPTY ∨
        stuck_candidate a k (draws k) = position a i)
    | none =>
      position (handle_stuck_robot a i draws) i = position a i ∧
      (handle_stuck_robot a i draws).m_board = (clear_robot_from_board a i).m_board := by
  have hd := clear_robot_from_board_cell a i 0 0
  have hl : i < (clear_robot_from_board a i).m_robots.length := by rw [hd.1]; exact hi
  have hg : getRobot (clear_robot_from_board a i) i = getRobot a i := getRobot_of_robots hd.1 i
  have hfirst := handle_stuck_robot_first a i draws
  cases hk : first_empty_candidate (clear_robot_from_board a i) draws 0 100 with
  | some k =>
    rw [hk] at hfirst
    dsimp only at hfirst ⊢
    rw [stuck_candidate_congr a (clear_robot_from_board a i) k (draws k) hd.2.1 hd.2.2.1]
      at hfirst
    have hv := stuck_candidate_valid a k (draws k) (hdraws k)
    obtain ⟨e1, e2, -, e4⟩ := stuck_teleport_effect (clear_robot_from_board a i) i
      (stuck_candidate a k (draws k)).1 (stuck_candidate a k (draws k)).2 hl
    have hv2 : is_valid_position (clear_robot_from_board a i)
        (stuck_candidate a k (draws k)).1 (stuck_candidate a k (draws k)).2 = true := by
      rw [is_valid_position_congr a _ hd.2.1 hd.2.2.1]; exact hv
    have hs : symbol (clear_robot_from_board a i) i = symbol a i := by
      unfold symbol; rw [hg]
    refine ⟨by rw [hfirst]; exact e1, hv, ?_, ?_⟩
    · rw [hfirst, e4, if_pos hv2, hs]
      simp [setCell]
    · unfold first_empty_candidate at hk
      have hempty := List.find?_some hk
      simp only [decide_eq_true_eq] at hempty
      rw [stuck_candidate_congr a (clear_robot_from_board a i) k (draws k) hd.2.1 hd.2.2.1]
        at hempty
      rw [clear_robot_from_board_board] at hempty
      split_ifs at hempty with hc
      · by_cases hp : stuck_candidate a k (draws k) = position a i
        · exact Or.inr hp
        · left
          have hne : ¬ ((stuck_candidate a k (draws k)).1 = (position a i).1 ∧
              (stuck_candidate a k (draws k)).2 = (position a i).2) :=
            fun h => hp (Prod.ext h.1 h.2)
          simpa [setCell, hne] using hempty
      · exact Or.inl hempty
  | none =>
    rw [hk] at hfirst
    dsimp only at hfirst ⊢
    rw [hfirst]
    refine ⟨?_, rfl⟩
    unfold position
    rw [getRobot_setRobot_self _ _ _ hl, hg]

/-- Claim C27, the code at the failing input: agent 0 of `walled_match` stands on
(5,5) with its symbol there; with teleport draws whose 100 samples all fall on
the mound at (4,5), so that the search finds no empty cell, `handle_stuck_robot`
leaves the agent alive and recorded on (5,5) but the cell (5,5) empty. -/
theorem failed_teleport_clears_cell :
    first_empty_candidate (clear_robot_from_board walled_match 0) mound_draws 0 100 = none ∧
    position walled_match 0 = (5, 5) ∧
    walled_match.m_board 5 5 = '!' ∧
    position (handle_stuck_robot walled_match 0 mound_draws) 0 = (5, 5) ∧
    (getRobot (handle_stuck_robot walled_match 0 mound_draws) 0).is_alive = true ∧
    (handle_stuck_robot walled_match 0 mound_draws).m_board 5 5 = EMPTY := by
  decide

/-- Outside the agent's recorded cell `clear_robot_from_board` changes nothing. -/
theorem clear_robot_from_board_elsewhere (a : Arena) (i : Nat) (r c : Int)
    (h : (r, c) ≠ position a i) :
    (clear_robot_from_board a i).m_board r c = a.m_board r c := by
  rw [clear_robot_from_board_board]
  split_ifs
  · have hne : ¬ (r = (position a i).1 ∧ c = (position a i).2) :=
      fun e => h (Prod.ext e.1 e.2)
    simp [setCell, hne]
  · rfl

/-- The teleport search finds the same attempt on the board with the agent's
marker lifted as on the board before, when no sample up to that attempt is the
agent's recorded cell. -/
theorem first_empty_candidate_after_clear (a : Arena) (i : Nat) (draws : Nat → Int × Int) :
    ∀ (n s k : Nat), first_empty_candidate a draws s n = some k →
      (∀ j, s ≤ j → j ≤ k → stuck_candidate a j (draws j) ≠ position a i) →
      first_empty_candidate (clear_robot_from_board a i) draws s n = some k := by
  have hd := clear_robot_from_board_cell a i 0 0
  intro n
  induction n with
  | zero => intro s k hk; simp [first_empty_candidate] at hk
  | succ n ih =>
    intro s k hk hown
    unfold first_empty_candidate at hk ⊢
    rw [List.range'_succ] at hk ⊢
    have hcand := stuck_candidate_congr a (clear_robot_from_board a i) s (draws s)
      hd.2.1 hd.2.2.1
    by_cases h : a.m_board (stuck_candidate a s (draws s)).1
        (stuck_candidate a s (draws s)).2 = EMPTY
    · rw [List.find?_cons_of_pos _ (by simpa using h)] at hk
      have hc : (clear_robot_from_board a i).m_board (stuck_candidate a s (draws s)).1
          (stuck_candidate a s (draws s)).2 = EMPTY := by
        rcases (clear_robot_from_board_cell a i (stuck_candidate a s (draws s)).1
          (stuck_candidate a s (draws s)).2).2.2.2 with e | e
        · rw [e]; exact h
        · exact e.2
      rw [List.find?_cons_of_pos _ (by simpa [hcand] using hc)]
      exact hk
    · rw [List.find?_cons_of_neg _ (by simpa using h)] at hk
      have hmem := List.mem_of_find?_eq_some hk
      rw [List.mem_range'_1] at hmem
      have hc : ¬ (clear_robot_from_board a i).m_board (stuck_candidate a s (draws s)).1
          (stuck_candidate a s (draws s)).2 = EMPTY := by
        have he := clear_robot_from_board_elsewhere a i (stuck_candidate a s (draws s)).1
          (stuck_candidate a s (draws s)).2 (hown s le_rfl (by omega))
        rw [he]
        exact h
      rw [List.find?_cons_of_neg _ (by simpa [hcand] using hc)]
      exact ih (s + 1) k hk (fun j h1 h2 => hown j (by omega) h2)

/-- The attempt the teleport search stops at is an attempt on an empty cell. -/
theorem first_empty_candidate_empty (a : Arena) (draws : Nat → Int × Int) (s n k : Nat)
    (hk : first_empty_candidate a draws s n = some k) :
    a.m_board (stuck_candidate a k (draws k)).1 (stuck_candidate a k (draws k)).2 = EMPTY := by
  unfold first_empty_candidate at hk
  have h := List.find?_some hk
  simpa using h

/-- When no sample of the teleport search is empty on the board before the call,
no sample that is empty once the agent's marker is lifted can be anything but the
agent's recorded cell. -/
theorem first_empty_candidate_own_cell (a : Arena) (i : Nat) (draws : Nat → Int × Int)
    (s n k : Nat) (hnone : first_empty_candidate a draws s n = none)
    (hk : first_empty_candidate (clear_robot_from_board a i) draws s n = some k) :
    stuck_candidate a k (draws k) = position a i := by
  have hd := clear_robot_from_board_cell a i 0 0
  have hempty := first_empty_candidate_empty _ draws s n k hk
  rw [stuck_candidate_congr a (clear_robot_from_board a i) k (draws k) hd.2.1 hd.2.2.1] at hempty
  have hmem : k ∈ List.range' s n := by
    unfold first_empty_candidate at hk
    exact List.mem_of_find?_eq_some hk
  by_contra hne
  have he := clear_robot_from_board_elsewhere a i (stuck_candidate a k (draws k)).1
    (stuck_candidate a k (draws k)).2 hne
  rw [he] at hempty
  unfold first_empty_candidate at hnone
  rw [List.find?_eq_none] at hnone
  have := hnone k hmem
  simp [hempty] at this

/-- Claim C22, counterexample. Agent 0 of `walled_match` stands on (5,5) inside a
ring of 8 mounds and asks for one step north; with teleport draws whose 100
samples all fall on a mound, the search finds no empty cell and the agent ends
the call recorded on (5,5), the cell it started on. Agent 2 of `walled_disabled`
stands on (5,5) inside the same ring with move speed 0 and asks for one step
north, with teleport draws that fall on the empty cell (8,8): the distance is
capped to 0, the move onto its own cell is accepted, and the agent ends the call
recorded on (5,5) with the cell (8,8) still empty. -/
theorem walled_in_not_relocated :
    (∀ p ∈ ring_cells, walled_match.m_board p.1 p.2 = MOUND) ∧
    position walled_match 0 = (5, 5) ∧
    first_empty_candidate walled_match north_mound_draws.stuck_draws 0 100 = none ∧
    position (handle_movement walled_match 0 north_mound_draws) 0 = (5, 5) ∧
    (∀ p ∈ ring_cells, walled_disabled.m_board p.1 p.2 = MOUND) ∧
    position walled_disabled 2 = (5, 5) ∧
    (getRobot walled_disabled 2).robot.get_move_speed = 0 ∧
    stuck_candidate walled_disabled 0 (north_free.stuck_draws 0) = (8, 8) ∧
    walled_disabled.m_board 8 8 = EMPTY ∧
    position (handle_movement walled_disabled 2 north_free) 2 = (5, 5) ∧
    (handle_movement walled_disabled 2 north_free).m_board 8 8 = EMPTY := by
  decide

/-- A teleport sample on the agent's own cell: with draws that the
centre-biased formula maps to (5,5), the cell agent 0 of `walled_match` stands
on and `handle_stuck_robot` has emptied before it samples, the recovery lands
the agent on the cell it started on. -/
theorem teleport_sample_on_own_cell :
    position walled_match 0 = (5, 5) ∧
    walled_match.m_board 5 5 = '!' ∧
    stuck_candidate walled_match 0 (north_own_cell.stuck_draws 0) = (5, 5) ∧
    position (handle_movement walled_match 0 north_own_cell) 0 = (5, 5) := by
  decide

/-- Claim C22 (amended): a registered agent with a move speed of at least 1 whose
8 neighbouring cells are all mounds or out of bounds asks for a move of distance
1 in a direction 1..8, with a stuck counter that is not negative, shuffled
directions from 1..8 and teleport draws inside the grid. Then `handle_movement`
engages `handle_stuck_robot` in that same call. If one of the 100 sampled cells
is empty before the call and no sample up to the first such cell is the cell the
agent stands on, the agent ends the call recorded on that first empty sampled
cell: a cell different from the one it started on, in bounds, empty before the
call, and now holding its symbol. If none of the 100 sampled cells is empty
before the call, the recorded position is unchanged. -/
theorem walled_in_teleport (a : Arena) (i : Nat) (inp : TurnInput)
    (hi : i < a.m_robots.length)
    (hdir1 : 1 ≤ inp.move_direction) (hdir8 : inp.move_direction ≤ 8)
    (hdist : inp.move_distance = 1)
    (hspeed : 1 ≤ (getRobot a i).robot.get_move_speed)
    (hstuck : 0 ≤ (getRobot a i).stuck_count)
    (hshuffle : ∀ d ∈ inp.all_dirs, 1 ≤ d ∧ d ≤ 8)
    (hwall : ∀ d, 1 ≤ d → d ≤ 8 →
      is_valid_position a ((position a i).1 + (directions d).1)
        ((position a i).2 + (directions d).2) = false ∨
      a.m_board ((position a i).1 + (directions d).1)
        ((position a i).2 + (directions d).2) = MOUND)
    (hdraws : ∀ k, is_valid_position a (inp.stuck_draws k).1 (inp.stuck_draws k).2 = true) :
    handle_movement a i inp =
      setRobot
        (handle_stuck_robot
          (setRobot a i { getRobot a i with stuck_count := (getRobot a i).stuck_count + 1 })
          i inp.stuck_draws) i
        { getRobot
            (handle_stuck_robot
              (setRobot a i { getRobot a i with stuck_count := (getRobot a i).stuck_count + 1 })
              i inp.stuck_draws) i with stuck_count := 0 } ∧
    (match first_empty_candidate a inp.stuck_draws 0 100 with
      | some k =>
        (∀ j, j ≤ k → stuck_candidate a j (inp.stuck_draws j) ≠ position a i) →
          position (handle_movement a i inp) i = stuck_candidate a k (inp.stuck_draws k) ∧
          position (handle_movement a i inp) i ≠ position a i ∧
          is_valid_position a (stuck_candidate a k (inp.stuck_draws k)).1
            (stuck_candidate a k (inp.stuck_draws k)).2 = true ∧
          a.m_board (stuck_candidate a k (inp.stuck_draws k)).1
            (stuck_candidate a k (inp.stuck_draws k)).2 = EMPTY ∧
          (handle_movement a i inp).m_board (stuck_candidate a k (inp.stuck_draws k)).1
            (stuck_candidate a k (inp.stuck_draws k)).2 = symbol a i
      | none => position (handle_movement a i inp) i = position a i) := by
  have hmin : min inp.move_distance (getRobot a i).robot.get_move_speed = 1 := by
    rw [hdist]; exact min_eq_left hspeed
  have hblock : ∀ d, 1 ≤ d → d ≤ 8 →
      can_move_to a ((position a i).1 + (directions d).1)
        ((position a i).2 + (directions d).2) = false :=
    fun d h1 h8 => can_move_to_of_wall a _ _ (hwall d h1 h8)
  have h0 : ¬ (inp.move_direction = 0 ∨ inp.move_distance = 0) := by omega
  have hprimary : can_move_to a
      ((getRobot a i).robot.m_location_row +
        (directions inp.move_direction).1 *
          min inp.move_distance (getRobot a i).robot.get_move_speed)
      ((getRobot a i).robot.m_location_col +
        (directions inp.move_direction).2 *
          min inp.move_distance (getRobot a i).robot.get_move_speed) = false := by
    rw [hmin, mul_one, mul_one]
    exact hblock _ hdir1 hdir8
  have hfallback : try_multiple_directions a i inp.move_direction
      (min inp.move_distance (getRobot a i).robot.get_move_speed) inp.all_dirs = (false, a) := by
    rw [hmin]
    apply try_multiple_directions_none
    · rw [first_legal_eq_none]
      intro x hx
      have hc : fallback_candidates (try_order inp.move_direction) 1 =
          (try_order inp.move_direction).map (fun dir => (dir, 1)) := by
        simp [fallback_candidates, fallback_candidates_from]
      rw [hc] at hx
      obtain ⟨d, hd, rfl⟩ := List.mem_map.1 hx
      obtain ⟨d1, d8⟩ := try_order_range _ hdir1 hdir8 d hd
      simp only [candidate_cell, mul_one]
      exact hblock d d1 d8
    · rw [first_legal_eq_none]
      intro x hx
      obtain ⟨d, hd, rfl⟩ := List.mem_map.1 hx
      obtain ⟨d1, d8⟩ := hshuffle d hd
      simp only [candidate_cell, mul_one]
      exact hblock d d1 d8
  have hm := handle_movement_stuck a i inp hi h0 hprimary hfallback hstuck
  refine ⟨hm, ?_⟩
  rw [hm]
  have hg3 : getRobot (setRobot a i
      { getRobot a i with stuck_count := (getRobot a i).stuck_count + 1 }) i =
      { getRobot a i with stuck_count := (getRobot a i).stuck_count + 1 } :=
    getRobot_setRobot_self _ _ _ hi
  generalize ha3 : setRobot a i
    { getRobot a i with stuck_count := (getRobot a i).stuck_count + 1 } = a3 at hg3 ⊢
  have hb3 : a3.m_board = a.m_board := by rw [← ha3]; rfl
  have hr3 : a3.m_rows = a.m_rows := by rw [← ha3]; rfl
  have hc3 : a3.m_cols = a.m_cols := by rw [← ha3]; rfl
  have hl3 : i < a3.m_robots.length := by rw [← ha3]; simpa [setRobot] using hi
  have hp3 : position a3 i = position a i := by unfold position; rw [hg3]
  have hs3 : symbol a3 i = symbol a i := by unfold symbol; rw [hg3]
  have hv3 : ∀ r c, is_valid_position a3 r c = is_valid_position a r c :=
    is_valid_position_congr a a3 hr3 hc3
  have hcb : (clear_robot_from_board a3 i).m_board = (clear_robot_from_board a i).m_board := by
    rw [clear_robot_from_board_board, clear_robot_from_board_board, hp3, hs3, hb3, hv3]
  have hfe : first_empty_candidate (clear_robot_from_board a3 i) inp.stuck_draws 0 100 =
      first_empty_candidate (clear_robot_from_board a i) inp.stuck_draws 0 100 := by
    have d3 := clear_robot_from_board_cell a3 i 0 0
    have d0 := clear_robot_from_board_cell a i 0 0
    exact first_empty_candidate_congr _ _ _ _ _ hcb
      (by rw [d3.2.1, d0.2.1, hr3]) (by rw [d3.2.2.1, d0.2.2.1, hc3])
  have he := handle_stuck_robot_effect a3 i inp.stuck_draws hl3
    (fun k => by rw [hv3]; exact hdraws k)
  have hlen : i < (handle_stuck_robot a3 i inp.stuck_draws).m_robots.length := by
    rw [(handle_stuck_robot_stepFrame a3 i inp.stuck_draws).1.length]; exact hl3
  have hpos : position (setRobot (handle_stuck_robot a3 i inp.stuck_draws) i
      { getRobot (handle_stuck_robot a3 i inp.stuck_draws) i with stuck_count := 0 }) i =
      position (handle_stuck_robot a3 i inp.stuck_draws) i := by
    unfold position
    rw [getRobot_setRobot_self _ _ _ hlen]
  rw [hfe] at he
  cases hk : first_empty_candidate a inp.stuck_draws 0 100 with
  | some k =>
    dsimp only
    intro hown
    have hck := first_empty_candidate_after_clear a i inp.stuck_draws 100 0 k hk
      (fun j _ hj => hown j hj)
    rw [hck] at he
    dsimp only at he
    rw [stuck_candidate_congr a a3 k _ hr3 hc3, hv3, hs3, hb3, hp3] at he
    have hp := hpos.trans he.1
    refine ⟨hp, ?_, he.2.1, first_empty_candidate_empty a _ 0 100 k hk, he.2.2.1⟩
    rw [hp]
    exact hown k le_rfl
  | none =>
    dsimp only
    cases hc : first_empty_candidate (clear_robot_from_board a i) inp.stuck_draws 0 100 with
    | some k =>
      rw [hc] at he
      dsimp only at he
      rw [stuck_candidate_congr a a3 k _ hr3 hc3, hp3] at he
      exact (hpos.trans he.1).trans
        (first_empty_candidate_own_cell a i inp.stuck_draws 0 100 k hk hc)
    | none =>
      rw [hc] at he
      dsimp only at he
      exact hpos.trans (he.1.trans hp3)

/-- Claim C22 (amended) at a concrete input: agent 0 of `walled_match` stands on
(5,5) inside the ring of 8 mounds and asks for one step north; the first
teleport sample falls on the empty cell (8,8), and the agent ends the call
recorded on (8,8), which then holds its symbol '!'. -/
theorem walled_in_teleport_witness :
    position walled_match 0 = (5, 5) ∧
    walled_match.m_board 8 8 = EMPTY ∧
    position (handle_movement walled_match 0 north_free) 0 = (8, 8) ∧
    (handle_movement walled_match 0 north_free).m_board 8 8 = '!' := by
  have h := (walled_in_teleport walled_match 0 north_free (by decide) (by decide) (by decide)
    (by decide) (by decide) (by decide) (by decide)
    (by
      intro d h1 h8
      have : d = 1 ∨ d = 2 ∨ d = 3 ∨ d = 4 ∨ d = 5 ∨ d = 6 ∨ d = 7 ∨ d = 8 := by omega
      rcases this with h | h | h | h | h | h | h | h <;> subst h <;> exact Or.inr (by decide))
    (fun _ => (by decide : is_valid_position walled_match 4 4 = true))).2
  have hk : first_empty_candidate walled_match north_free.stuck_draws 0 100 = some 0 := by
    decide
  rw [hk] at h
  dsimp only at h
  have hc : stuck_candidate walled_match 0 (north_free.stuck_draws 0) = (8, 8) := by decide
  have hown : ∀ j, j ≤ 0 →
      stuck_candidate walled_match j (north_free.stuck_draws j) ≠ position walled_match 0 := by
    intro j hj
    have hj0 : j = 0 := by omega
    subst hj0
    decide
  obtain ⟨h1, -, -, h4, h5⟩ := h hown
  rw [hc] at h1 h4 h5
  exact ⟨by decide, h4, h1, h5.trans (by decide)⟩

/-! ## The stuck counter -/

theorem keeps_except_of_keeps {α : Type} {f : RobotInfo → α} {a b : Arena} (i : Nat)
    (h : keeps f a b) : keeps_except f i a b :=
  fun j _ => h j

theorem keeps_except_then {α : Type} {f : RobotInfo → α} {i : Nat} {a b c : Arena}
    (h1 : keeps_except f i a b) (h2 : keeps_except f i b c) : keeps_except f i a c :=
  fun j hj => (h2 j hj).trans (h1 j hj)

theorem setRobot_keeps_except {α : Type} (f : RobotInfo → α) (a : Arena) (i : Nat)
    (info : RobotInfo) : keeps_except f i a (setRobot a i info) := by
  intro j hj
  rw [getRobot_setRobot_other _ _ _ _ (Ne.symm hj)]

theorem getRobot_of_unregistered (a : Arena) (i : Nat) (hi : ¬ i < a.m_robots.length) :
    getRobot a i = default := by
  unfold getRobot
  rw [List.getD_eq_getElem?_getD, List.getElem?_eq_none (Nat.le_of_not_lt hi)]
  rfl

theorem pit_relocate_keeps {α : Type} {f : RobotInfo → α} (hb : Blind f) (a : Arena) (i : Nat)
    (r c : Int) : keeps f a (pit_relocate a i r c) := by
  unfold pit_relocate
  dsimp only
  exact keeps_then (keeps_then (keeps_then (clear_robot_from_board_keeps f a i)
    (move_to_keeps hb _ i r c)) (place_robot_on_board_keeps f _ i r c))
    (setRobot_keeps f _ i _ (hb.pit_exit _))

theorem handle_pit_escape_keeps {α : Type} {f : RobotInfo → α} (hb : Blind f) (a : Arena)
    (i : Nat) (dirs : List Int) (draws : Nat → Int × Int) :
    keeps f a (handle_pit_escape a i dirs draws) := by
  rw [handle_pit_escape_first]
  cases first_escape_direction a (position a i).1 (position a i).2 dirs with
  | some dir => exact pit_relocate_keeps hb a i _ _
  | none =>
    cases first_empty_draw a draws 0 50 with
    | some k => exact pit_relocate_keeps hb a i _ _
    | none => exact keeps_same f a

theorem handle_stuck_robot_keeps_except {α : Type} (f : RobotInfo → α) (a : Arena) (i : Nat)
    (draws : Nat → Int × Int) : keeps_except f i a (handle_stuck_robot a i draws) := by
  rw [handle_stuck_robot_first]
  have hc := keeps_except_of_keeps i (clear_robot_from_board_keeps f a i)
  cases first_empty_candidate (clear_robot_from_board a i) draws 0 100 with
  | some k =>
    dsimp only
    unfold stuck_teleport
    dsimp only
    exact keeps_except_then hc (keeps_except_then (keeps_except_then
      (setRobot_keeps_except f _ i _)
      (keeps_except_of_keeps i (place_robot_on_board_keeps f _ i _ _)))
      (setRobot_keeps_except f _ i _))
  | none => exact keeps_except_then hc (setRobot_keeps_except f _ i _)

/-- The movement phase of agent `i` changes no other agent's stuck counter. -/
theorem handle_movement_keeps_except (a : Arena) (i : Nat) (inp : TurnInput) :
    keeps_except (fun info => info.stuck_count) i a (handle_movement a i inp) := by
  unfold handle_movement
  dsimp only
  by_cases h0 : inp.move_direction = 0 ∨ inp.move_distance = 0
  · rw [if_pos h0]; exact fun _ _ => rfl
  · rw [if_neg h0]
    have hm := keeps_except_of_keeps i (move_robot_keeps stuck_count_blind a i
      ((getRobot a i).robot.m_location_row +
        (directions inp.move_direction).1 *
          min inp.move_distance (getRobot a i).robot.get_move_speed)
      ((getRobot a i).robot.m_location_col +
        (directions inp.move_direction).2 *
          min inp.move_distance (getRobot a i).robot.get_move_speed))
    generalize move_robot a i
      ((getRobot a i).robot.m_location_row +
        (directions inp.move_direction).1 *
          min inp.move_distance (getRobot a i).robot.get_move_speed)
      ((getRobot a i).robot.m_location_col +
        (directions inp.move_direction).2 *
          min inp.move_distance (getRobot a i).robot.get_move_speed) = res at hm ⊢
    obtain ⟨moved, a1⟩ := res
    cases moved with
    | true =>
      simp only [not_true_eq_false, if_false, if_true]
      exact keeps_except_then hm (setRobot_keeps_except _ a1 i _)
    | false =>
      simp only [Bool.false_eq_true, not_false_eq_true, if_true]
      have ht := keeps_except_of_keeps i (try_multiple_directions_keeps stuck_count_blind a1 i
        inp.move_direction (min inp.move_distance (getRobot a i).robot.get_move_speed)
        inp.all_dirs)
      generalize try_multiple_directions a1 i inp.move_direction
        (min inp.move_distance (getRobot a i).robot.get_move_speed) inp.all_dirs = res2 at ht ⊢
      obtain ⟨moved2, a2⟩ := res2
      cases moved2 with
      | true =>
        simp only [not_true_eq_false, if_false, if_true]
        exact keeps_except_then (keeps_except_then hm ht) (setRobot_keeps_except _ a2 i _)
      | false =>
        simp only [Bool.false_eq_true, not_false_eq_true, if_true]
        have h3 := setRobot_keeps_except (fun info : RobotInfo => info.stuck_count) a2 i
          { getRobot a2 i with stuck_count := (getRobot a2 i).stuck_count + 1 }
        generalize setRobot a2 i
          { getRobot a2 i with stuck_count := (getRobot a2 i).stuck_count + 1 } = a3 at h3 ⊢
        have h4 := keeps_except_then (keeps_except_then hm ht) h3
        by_cases hs : (getRobot a3 i).stuck_count ≥ 1
        · simp only [hs, if_true]
          exact keeps_except_then (keeps_except_then h4
            (handle_stuck_robot_keeps_except _ a3 i _)) (setRobot_keeps_except _ _ i _)
        · simp only [hs, if_false, Bool.false_eq_true]
          exact h4

/-- After a call of `handle_movement` in which a registered agent with a stuck
counter that is not negative requested a move, its stuck counter is 0. -/
theorem handle_movement_resets (a : Arena) (i : Nat) (inp : TurnInput)
    (hi : i < a.m_robots.length) (hs : 0 ≤ (getRobot a i).stuck_count)
    (hdir : inp.move_direction ≠ 0) (hdist : inp.move_distance ≠ 0) :
    (getRobot (handle_movement a i inp) i).stuck_count = 0 := by
  unfold handle_movement
  dsimp only
  rw [if_neg (by omega)]
  have hm := move_robot_keeps stuck_count_blind a i
    ((getRobot a i).robot.m_location_row +
      (directions inp.move_direction).1 *
        min inp.move_distance (getRobot a i).robot.get_move_speed)
    ((getRobot a i).robot.m_location_col +
      (directions inp.move_direction).2 *
        min inp.move_distance (getRobot a i).robot.get_move_speed)
  have hl := (move_robot_stepFrame a i
    ((getRobot a i).robot.m_location_row +
      (directions inp.move_direction).1 *
        min inp.move_distance (getRobot a i).robot.get_move_speed)
    ((getRobot a i).robot.m_location_col +
      (directions inp.move_direction).2 *
        min inp.move_distance (getRobot a i).robot.get_move_speed)).1.length
  generalize move_robot a i
    ((getRobot a i).robot.m_location_row +
      (directions inp.move_direction).1 *
        min inp.move_distance (getRobot a i).robot.get_move_speed)
    ((getRobot a i).robot.m_location_col +
      (directions inp.move_direction).2 *
        min inp.move_distance (getRobot a i).robot.get_move_speed) = res at hm hl ⊢
  obtain ⟨moved, a1⟩ := res
  dsimp only at hm hl
  cases moved with
  | true =>
    simp only [not_true_eq_false, if_false, if_true]
    rw [getRobot_setRobot_self _ _ _ (by omega)]
  | false =>
    simp only [Bool.false_eq_true, not_false_eq_true, if_true]
    have ht := try_multiple_directions_keeps stuck_count_blind a1 i inp.move_direction
      (min inp.move_distance (getRobot a i).robot.get_move_speed) inp.all_dirs
    have hl2 := (try_multiple_directions_stepFrame a1 i inp.move_direction
      (min inp.move_distance (getRobot a i).robot.get_move_speed) inp.all_dirs).1.length
    generalize try_multiple_directions a1 i inp.move_direction
      (min inp.move_distance (getRobot a i).robot.get_move_speed) inp.all_dirs = res2
      at ht hl2 ⊢
    obtain ⟨moved2, a2⟩ := res2
    dsimp only at ht hl2
    cases moved2 with
    | true =>
      simp only [not_true_eq_false, if_false, if_true]
      rw [getRobot_setRobot_self _ _ _ (by omega)]
    | false =>
      simp only [Bool.false_eq_true, not_false_eq_true, if_true]
      have h2 : (getRobot a2 i).stuck_count = (getRobot a i).stuck_count :=
        (ht i).trans (hm i)
      rw [getRobot_setRobot_self a2 i _ (by omega)]
      dsimp only
      have h1 : (getRobot a2 i).stuck_count + 1 ≥ 1 := by omega
      simp only [h1, if_true]
      rw [getRobot_setRobot_self _ _ _ (by
        rw [(handle_stuck_robot_stepFrame _ i inp.stuck_draws).1.length]
        simp only [setRobot, List.length_set]
        omega)]

/-- The movement phase keeps all stuck counters at 0. -/
theorem handle_movement_stuck_zero (a : Arena) (i : Nat) (inp : TurnInput)
    (h0 : ∀ j, (getRobot a j).stuck_count = 0) :
    ∀ j, (getRobot (handle_movement a i inp) j).stuck_count = 0 := by
  intro j
  by_cases hj : j = i
  · subst hj
    by_cases hi : j < a.m_robots.length
    · by_cases hreq : inp.move_direction = 0 ∨ inp.move_distance = 0
      · have : handle_movement a j inp = a := by
          unfold handle_movement
          dsimp only
          rw [if_pos hreq]
        rw [this]
        exact h0 j
      · exact handle_movement_resets a j inp hi (by rw [h0 j]) (fun h => hreq (Or.inl h))
          (fun h => hreq (Or.inr h))
    · have hl := (handle_movement_stepFrame a j inp).1.length
      rw [getRobot_of_unregistered _ j (by omega)]
      rfl
  · exact (handle_movement_keeps_except a i inp j hj).trans (h0 j)

/-- A turn keeps all stuck counters at 0. -/
theorem robot_turn_stuck_zero (fuel : Nat) (a : Arena) (i : Nat) (inp : TurnInput) (b : Arena)
    (h : robot_turn fuel a i inp = some b) (h0 : ∀ j, (getRobot a j).stuck_count = 0) :
    ∀ j, (getRobot b j).stuck_count = 0 := by
  have hshoot : ∀ s : Arena, handle_shooting fuel s i inp.shot = some b →
      (∀ j, (getRobot s j).stuck_count = 0) → ∀ j, (getRobot b j).stuck_count = 0 := by
    intro s hs hz j
    exact (handle_shooting_keeps stuck_count_blind fuel s i inp.shot (fun _ _ => rfl) b hs
      j).trans (hz j)
  cases hpit : (getRobot a i).in_pit with
  | false =>
    rw [robot_turn_not_in_pit fuel a i inp hpit] at h
    exact hshoot _ h (handle_movement_stuck_zero a i inp h0)
  | true =>
    have hk1 : keeps (fun info : RobotInfo => info.stuck_count) a
        (setRobot a i { getRobot a i with pit_turns := (getRobot a i).pit_turns + 1 }) :=
      setRobot_keeps _ a i _ rfl
    by_cases hlt : (getRobot a i).pit_turns + 1 < 5
    · rw [(robot_turn_in_pit fuel a i inp hpit).1 hlt] at h
      exact hshoot _ h (fun j => (hk1 j).trans (h0 j))
    · rw [(robot_turn_in_pit fuel a i inp hpit).2 (by omega)] at h
      refine hshoot _ h (fun j => ?_)
      have hk2 := handle_pit_escape_keeps stuck_count_blind
        (setRobot a i { getRobot a i with pit_turns := (getRobot a i).pit_turns + 1 })
        i inp.escape_dirs inp.escape_draws
      have hk3 := setRobot_keeps (fun info : RobotInfo => info.stuck_count)
        (handle_pit_escape
          (setRobot a i { getRobot a i with pit_turns := (getRobot a i).pit_turns + 1 })
          i inp.escape_dirs inp.escape_draws) i
        { getRobot
            (handle_pit_escape
              (setRobot a i { getRobot a i with pit_turns := (getRobot a i).pit_turns + 1 })
              i inp.escape_dirs inp.escape_draws) i with pit_turns := 0 } rfl
      exact ((hk3 j).trans (hk2 j)).trans ((hk1 j).trans (h0 j))

/-- Claim C28: the stuck counter is resettable. In a match that starts with every
stuck counter at 0, every state between turns (after any number of turns and
round steps) has every stuck counter at 0; and after every call of
`handle_movement` in which a registered agent whose counter is not negative
requested a move (direction and distance both non-zero), that agent's counter is
0, whichever of the primary move, a fallback move or the teleport recovery
(successful or not) was taken. -/
theorem stuck_count_reset (a0 s : Arena) (h0 : ∀ j, (getRobot a0 j).stuck_count = 0)
    (hr : BetweenTurns a0 s) :
    (∀ j, (getRobot s j).stuck_count = 0) ∧
    (∀ (a : Arena) (i : Nat) (inp : TurnInput), i < a.m_robots.length →
      0 ≤ (getRobot a i).stuck_count → inp.move_direction ≠ 0 → inp.move_distance ≠ 0 →
      (getRobot (handle_movement a i inp) i).stuck_count = 0) := by
  refine ⟨?_, fun a i inp hi hs hd hdist => handle_movement_resets a i inp hi hs hd hdist⟩
  induction hr with
  | start => exact h0
  | turn fuel i inp _ _ hturn ih => exact robot_turn_stuck_zero fuel _ i inp _ hturn ih
  | round _ ih => exact ih

theorem stuck_count_reset_witness :
    (∀ j, (getRobot (next_round_number (after_turn 0 three_agent_match 0 step_east))
      j).stuck_count = 0) ∧
    (∀ (a : Arena) (i : Nat) (inp : TurnInput), i < a.m_robots.length →
      0 ≤ (getRobot a i).stuck_count → inp.move_direction ≠ 0 → inp.move_distance ≠ 0 →
      (getRobot (handle_movement a i inp) i).stuck_count = 0) :=
  stuck_count_reset three_agent_match
    (next_round_number (after_turn 0 three_agent_match 0 step_east))
    (by
      intro j
      by_cases hj : j < 3
      · interval_cases j <;> decide
      · have hl : three_agent_match.m_robots.length = 3 := by decide
        rw [getRobot_of_unregistered three_agent_match j (by omega)]
        rfl)
    (BetweenTurns.round (BetweenTurns.turn 0 0 step_east BetweenTurns.start (by decide)
      (robot_turn_eq_some 0 three_agent_match 0 step_east (by decide))))

/-! ## The move-speed cap -/

theorem directions_bounded (d : Int) :
    ((directions d).1 = -1 ∨ (directions d).1 = 0 ∨ (directions d).1 = 1) ∧
    ((directions d).2 = -1 ∨ (directions d).2 = 0 ∨ (directions d).2 = 1) := by
  unfold directions
  split_ifs <;> simp

/-- An accepted move records the destination as the position of a registered
agent. -/
theorem move_robot_position (a : Arena) (i : Nat) (r c : Int) (hi : i < a.m_robots.length)
    (hc : can_move_to a r c = true) : position (move_robot a i r c).2 i = (r, c) := by
  have h : (move_robot a i r c).2 =
      place_robot_on_board
        (check_obstacle_effects
          (setRobot (clear_robot_from_board a i) i
            { getRobot (clear_robot_from_board a i) i with
              robot := (getRobot (clear_robot_from_board a i) i).robot.move_to r c })
          i r c)
        i r c := by
    simp [move_robot, hc]
  have hl : i < (clear_robot_from_board a i).m_robots.length := by
    rw [clear_robot_from_board_robots]; exact hi
  rw [h]
  have h1 : position (place_robot_on_board
      (check_obstacle_effects
        (setRobot (clear_robot_from_board a i) i
          { getRobot (clear_robot_from_board a i) i with
            robot := (getRobot (clear_robot_from_board a i) i).robot.move_to r c })
        i r c) i r c) i =
      position (check_obstacle_effects
        (setRobot (clear_robot_from_board a i) i
          { getRobot (clear_robot_from_board a i) i with
            robot := (getRobot (clear_robot_from_board a i) i).robot.move_to r c })
        i r c) i := by
    unfold position
    rw [getRobot_of_robots (place_robot_on_board_robots _ i r c) i]
  rw [h1, (check_obstacle_effects_frame _ i r c).2.2.2.1 i]
  unfold position
  rw [getRobot_setRobot_self _ _ _ hl]
  rfl

theorem mem_fallback_candidates_from (order : List Int) (n : Nat) :
    ∀ (dist : Int) (x : Int × Int), x ∈ fallback_candidates_from order n dist →
      dist - n < x.2 ∧ x.2 ≤ dist := by
  induction n with
  | zero => intro dist x hx; simp [fallback_candidates_from] at hx
  | succ n ih =>
    intro dist x hx
    rw [fallback_candidates_from, List.mem_append] at hx
    rcases hx with hx | hx
    · obtain ⟨d, -, rfl⟩ := List.mem_map.1 hx
      dsimp only
      push_cast
      omega
    · have := ih (dist - 1) x hx
      push_cast
      omega

/-- A successful fallback leaves a registered agent on the cell of a candidate
whose distance is between 1 and the requested distance, or 1 in the shuffled
pass. -/
theorem try_multiple_directions_position (a : Arena) (i : Nat) (preferred distance : Int)
    (all_dirs : List Int) (hi : i < a.m_robots.length)
    (h : (try_multiple_directions a i preferred distance all_dirs).1 = true) :
    ∃ x : Int × Int, ((1 ≤ x.2 ∧ x.2 ≤ distance) ∨ x.2 = 1) ∧
      position (try_multiple_directions a i preferred distance all_dirs).2 i =
        candidate_cell (position a i).1 (position a i).2 x := by
  have hf := try_multiple_directions_first a i preferred distance all_dirs
  cases h1 : first_legal a (position a i).1 (position a i).2
      (fallback_candidates (try_order preferred) distance) with
  | some x =>
    rw [h1] at hf
    dsimp only at hf
    obtain ⟨hl, hmem⟩ := first_legal_is_legal a _ _ _ x h1
    have hb := mem_fallback_candidates_from _ _ _ x hmem
    refine ⟨x, Or.inl ⟨by omega, hb.2⟩, ?_⟩
    rw [hf]
    exact move_robot_position a i _ _ hi hl
  | none =>
    rw [h1] at hf
    dsimp only at hf
    rw [try_directions_at_first] at hf
    cases h2 : first_legal a (position a i).1 (position a i).2
        (all_dirs.map (fun dir => (dir, 1))) with
    | some x =>
      rw [h2] at hf
      dsimp only at hf
      obtain ⟨hl, hmem⟩ := first_legal_is_legal a _ _ _ x h2
      obtain ⟨d, -, rfl⟩ := List.mem_map.1 hmem
      refine ⟨(d, 1), Or.inr rfl, ?_⟩
      rw [hf]
      exact move_robot_position a i _ _ hi hl
    | none =>
      rw [h2] at hf
      dsimp only at hf
      rw [hf] at h
      exact absurd h Bool.false_ne_true

theorem handle_movement_primary (a : Arena) (i : Nat) (inp : TurnInput)
    (h0 : ¬ (inp.move_direction = 0 ∨ inp.move_distance = 0))
    (hlegal : can_move_to a
      ((getRobot a i).robot.m_location_row +
        (directions inp.move_direction).1 *
          min inp.move_distance (getRobot a i).robot.get_move_speed)
      ((getRobot a i).robot.m_location_col +
        (directions inp.move_direction).2 *
          min inp.move_distance (getRobot a i).robot.get_move_speed) = true) :
    handle_movement a i inp =
      setRobot
        (move_robot a i
          ((getRobot a i).robot.m_location_row +
            (directions inp.move_direction).1 *
              min inp.move_distance (getRobot a i).robot.get_move_speed)
          ((getRobot a i).robot.m_location_col +
            (directions inp.move_direction).2 *
              min inp.move_distance (getRobot a i).robot.get_move_speed)).2 i
        { getRobot
            (move_robot a i
              ((getRobot a i).robot.m_location_row +
                (directions inp.move_direction).1 *
                  min inp.move_distance (getRobot a i).robot.get_move_speed)
              ((getRobot a i).robot.m_location_col +
                (directions inp.move_direction).2 *
                  min inp.move_distance (getRobot a i).robot.get_move_speed)).2 i with
          stuck_count := 0 } := by
  have h1 := move_robot_fst a i
    ((getRobot a i).robot.m_location_row +
      (directions inp.move_direction).1 *
        min inp.move_distance (getRobot a i).robot.get_move_speed)
    ((getRobot a i).robot.m_location_col +
      (directions inp.move_direction).2 *
        min inp.move_distance (getRobot a i).robot.get_move_speed)
  rw [hlegal] at h1
  unfold handle_movement
  dsimp only
  rw [if_neg h0]
  simp only [h1, not_true_eq_false, if_false, if_true]

theorem handle_movement_fallback (a : Arena) (i : Nat) (inp : TurnInput)
    (h0 : ¬ (inp.move_direction = 0 ∨ inp.move_distance = 0))
    (hblocked : can_move_to a
      ((getRobot a i).robot.m_location_row +
        (directions inp.move_direction).1 *
          min inp.move_distance (getRobot a i).robot.get_move_speed)
      ((getRobot a i).robot.m_location_col +
        (directions inp.move_direction).2 *
          min inp.move_distance (getRobot a i).robot.get_move_speed) = false)
    (hfb : (try_multiple_directions a i inp.move_direction
      (min inp.move_distance (getRobot a i).robot.get_move_speed) inp.all_dirs).1 = true) :
    handle_movement a i inp =
      setRobot
        (try_multiple_directions a i inp.move_direction
          (min inp.move_distance (getRobot a i).robot.get_move_speed) inp.all_dirs).2 i
        { getRobot
            (try_multiple_directions a i inp.move_direction
              (min inp.move_distance (getRobot a i).robot.get_move_speed) inp.all_dirs).2 i with
          stuck_count := 0 } := by
  unfold handle_movement
  dsimp only
  rw [if_neg h0, move_robot_of_blocked a i _ _ hblocked]
  simp only [Bool.false_eq_true, not_false_eq_true, if_true, hfb, not_true_eq_false, if_false]

/-- The cap of `handle_movement` where it works: for a registered agent with move
speed at least 1 that asks for a direction 1..8 and a distance of at least 1,
either the teleport recovery is engaged or the agent ends at most `move speed`
cells, in rows and in columns, from where it stood. -/
theorem handle_movement_within_speed (a : Arena) (i : Nat) (inp : TurnInput)
    (hi : i < a.m_robots.length) (hdist : 1 ≤ inp.move_distance)
    (hdir : inp.move_direction ≠ 0)
    (hspeed : 1 ≤ (getRobot a i).robot.get_move_speed)
    (hstuck : 0 ≤ (getRobot a i).stuck_count) :
    handle_movement a i inp =
      setRobot
        (handle_stuck_robot
          (setRobot a i { getRobot a i with stuck_count := (getRobot a i).stuck_count + 1 })
          i inp.stuck_draws) i
        { getRobot
            (handle_stuck_robot
              (setRobot a i { getRobot a i with stuck_count := (getRobot a i).stuck_count + 1 })
              i inp.stuck_draws) i with stuck_count := 0 } ∨
    (|(position (handle_movement a i inp) i).1 - (position a i).1| ≤
        (getRobot a i).robot.get_move_speed ∧
      |(position (handle_movement a i inp) i).2 - (position a i).2| ≤
        (getRobot a i).robot.get_move_speed) := by
  have h0 : ¬ (inp.move_direction = 0 ∨ inp.move_distance = 0) := by omega
  have hbound : ∀ x : Int × Int,
      ((1 ≤ x.2 ∧ x.2 ≤ min inp.move_distance (getRobot a i).robot.get_move_speed) ∨ x.2 = 1) →
      |(candidate_cell (position a i).1 (position a i).2 x).1 - (position a i).1| ≤
          (getRobot a i).robot.get_move_speed ∧
        |(candidate_cell (position a i).1 (position a i).2 x).2 - (position a i).2| ≤
          (getRobot a i).robot.get_move_speed := by
    intro x hx
    have hx2 : 1 ≤ x.2 ∧ x.2 ≤ (getRobot a i).robot.get_move_speed := by
      rcases hx with hx | hx
      · have := min_le_right inp.move_distance (getRobot a i).robot.get_move_speed
        omega
      · omega
    obtain ⟨hb1, hb2⟩ := directions_bounded x.1
    unfold candidate_cell
    dsimp only
    constructor
    · rw [abs_le]
      rcases hb1 with h | h | h <;> rw [h] <;> constructor <;> omega
    · rw [abs_le]
      rcases hb2 with h | h | h <;> rw [h] <;> constructor <;> omega
  have hposset : ∀ s : Arena, i < s.m_robots.length →
      position (setRobot s i { getRobot s i with stuck_count := 0 }) i = position s i := by
    intro s hs
    unfold position
    rw [getRobot_setRobot_self _ _ _ hs]
  by_cases hlegal : can_move_to a
      ((getRobot a i).robot.m_location_row +
        (directions inp.move_direction).1 *
          min inp.move_distance (getRobot a i).robot.get_move_speed)
      ((getRobot a i).robot.m_location_col +
        (directions inp.move_direction).2 *
          min inp.move_distance (getRobot a i).robot.get_move_speed) = true
  · right
    rw [handle_movement_primary a i inp h0 hlegal,
      hposset _ (by rw [(move_robot_stepFrame a i _ _).1.length]; exact hi),
      move_robot_position a i _ _ hi hlegal]
    have hm : 1 ≤ min inp.move_distance (getRobot a i).robot.get_move_speed :=
      le_min hdist hspeed
    exact hbound (inp.move_direction,
      min inp.move_distance (getRobot a i).robot.get_move_speed) (Or.inl ⟨hm, le_refl _⟩)
  · have hblocked : can_move_to a
        ((getRobot a i).robot.m_location_row +
          (directions inp.move_direction).1 *
            min inp.move_distance (getRobot a i).robot.get_move_speed)
        ((getRobot a i).robot.m_location_col +
          (directions inp.move_direction).2 *
            min inp.move_distance (getRobot a i).robot.get_move_speed) = false := by
      simpa using hlegal
    by_cases hfb : (try_multiple_directions a i inp.move_direction
        (min inp.move_distance (getRobot a i).robot.get_move_speed) inp.all_dirs).1 = true
    · right
      rw [handle_movement_fallback a i inp h0 hblocked hfb,
        hposset _ (by
          rw [(try_multiple_directions_stepFrame a i _ _ _).1.length]; exact hi)]
      obtain ⟨x, hx, hp⟩ := try_multiple_directions_position a i _ _ _ hi hfb
      rw [hp]
      exact hbound x hx
    · left
      have hnone : try_multiple_directions a i inp.move_direction
          (min inp.move_distance (getRobot a i).robot.get_move_speed) inp.all_dirs
            = (false, a) := by
        have hf := try_multiple_directions_first a i inp.move_direction
          (min inp.move_distance (getRobot a i).robot.get_move_speed) inp.all_dirs
        cases h1 : first_legal a (position a i).1 (position a i).2
            (fallback_candidates (try_order inp.move_direction)
              (min inp.move_distance (getRobot a i).robot.get_move_speed)) with
        | some x =>
          rw [h1] at hf
          dsimp only at hf
          rw [hf, move_robot_fst, (first_legal_is_legal a _ _ _ x h1).1] at hfb
          exact absurd rfl hfb
        | none =>
          cases h2 : first_legal a (position a i).1 (position a i).2
              (inp.all_dirs.map (fun dir => (dir, 1))) with
          | some x =>
            rw [h1] at hf
            dsimp only at hf
            rw [try_directions_at_first, h2] at hf
            dsimp only at hf
            rw [hf, move_robot_fst, (first_legal_is_legal a _ _ _ x h2).1] at hfb
            exact absurd rfl hfb
          | none => exact try_multiple_directions_none a i _ _ _ h1 h2
      exact handle_movement_stuck a i inp hi h0 hblocked hnone hstuck

/-- Claim C30, the code at the failing input: agent 0 of `three_agent_match`
stands on (5,5) with move speed 2 and returns the directive (direction 1,
distance -10). `min(-10, 2)` is -10, the primary move to (15,5) is accepted, and
`handle_movement` leaves the agent 10 cells from where it stood. -/
theorem negative_distance_escapes_cap :
    position three_agent_match 0 = (5, 5) ∧
    (getRobot three_agent_match 0).robot.get_move_speed = 2 ∧
    (getRobot three_agent_match 0).in_pit = false ∧
    min backward_ten.move_distance (getRobot three_agent_match 0).robot.get_move_speed = -10 ∧
    (move_robot three_agent_match 0 15 5).1 = true ∧
    position (handle_movement three_agent_match 0 backward_ten) 0 = (15, 5) := by
  decide

/-! ## The flamethrower and its shooter -/

/-- Claim C31, the code at the failing input: on every diagonal aim (directions
2, 4, 6, 8) the cells `shoot_flamethrower` examines include the shooter's own
cell, for every shooter position; on the axis aims (1, 3, 5, 7) they do not.
Agent 0 of `three_agent_match` stands on (5,5) with its symbol there and the
flamethrower; aiming at (3,7) gives direction 2, and its own shot takes 12 of its
100 health points and one of its 5 armor units. -/
theorem flamethrower_burns_shooter :
    (∀ row col direction : Int,
      direction = 2 ∨ direction = 4 ∨ direction = 6 ∨ direction = 8 →
      (row, col) ∈ flamethrower_cells row col direction) ∧
    (∀ row col direction : Int,
      direction = 1 ∨ direction = 3 ∨ direction = 5 ∨ direction = 7 →
      (row, col) ∉ flamethrower_cells row col direction) ∧
    position three_agent_match 0 = (5, 5) ∧
    three_agent_match.m_board 5 5 = symbol three_agent_match 0 ∧
    (getRobot three_agent_match 0).robot.get_weapon = WeaponType.flamethrower ∧
    find_direction (aim_sign 3 5) (aim_sign 7 5) = 2 ∧
    ((getRobot three_agent_match 0).robot.m_health,
      (getRobot three_agent_match 0).robot.m_armor) = (100, 5) ∧
    (handle_shooting 0 three_agent_match 0 (some (3, 7))).map
      (fun b => ((getRobot b 0).robot.m_health, (getRobot b 0).robot.m_armor,
        (getRobot b 0).is_alive)) = some (88, 4, true) := by
  refine ⟨?_, ?_, by decide, by decide, by decide, by decide, by decide,
    by set_option maxRecDepth 4096 in decide⟩
  · intro row col direction h
    rcases h with h | h | h | h <;> subst h <;>
      simp [flamethrower_cells, directions]
  · intro row col direction h
    rcases h with h | h | h | h <;> subst h <;>
      simp [flamethrower_cells, directions]

/-! ## Railgun shots that do not end -/

/-- A railgun shot along one of the 8 directions returns within max(rows, cols)
iterations of its loop. -/
theorem shoot_railgun_returns (a : Arena) (shooter_row shooter_col direction : Int)
    (h1 : 1 ≤ direction) (h8 : direction ≤ 8) :
    (shoot_railgun (max a.m_rows a.m_cols).toNat a shooter_row shooter_col direction).isSome
      = true := by
  have hshoot : shoot_railgun (max a.m_rows a.m_cols).toNat a shooter_row shooter_col direction =
      shoot_railgun_loop (directions direction).1 (directions direction).2
        (max a.m_rows a.m_cols).toNat a
        (shooter_row + (directions direction).1) (shooter_col + (directions direction).2) := rfl
  rcases shoot_railgun_loop_cases (directions direction).1 (directions direction).2
      (max a.m_rows a.m_cols).toNat a shooter_row shooter_col with ⟨n, -, -, -, h3⟩ | ⟨hall, -⟩
  · rw [hshoot, h3]
    rfl
  · exfalso
    have := ray_in_bounds_le a shooter_row shooter_col direction
      ((max a.m_rows a.m_cols).toNat + 1) h1 h8 (fun k hk => hall k (by omega))
    omega

/-- Claim C32, the code at the failing input: when the target is the shooter's
own in-bounds cell, `handle_shooting` derives direction 0, whose vector is
(0, 0), and the loop of `shoot_railgun` is still running after any number of
iterations. For the directions 1..8 the shot returns within max(rows, cols)
iterations. -/
theorem railgun_direction_zero_never_ends (fuel : Nat) (a : Arena)
    (shooter_row shooter_col : Int)
    (hv : is_valid_position a shooter_row shooter_col = true) :
    find_direction (aim_sign shooter_row shooter_row) (aim_sign shooter_col shooter_col) = 0 ∧
    directions 0 = (0, 0) ∧
    shoot_railgun fuel a shooter_row shooter_col 0 = none ∧
    (∀ direction, 1 ≤ direction → direction ≤ 8 →
      (shoot_railgun (max a.m_rows a.m_cols).toNat a shooter_row shooter_col direction).isSome
        = true) := by
  have h0 : directions 0 = (0, 0) := by decide
  refine ⟨?_, h0, ?_, fun direction h1 h8 => shoot_railgun_returns a _ _ direction h1 h8⟩
  · have e1 : aim_sign shooter_row shooter_row = 0 := by simp [aim_sign]
    have e2 : aim_sign shooter_col shooter_col = 0 := by simp [aim_sign]
    rw [e1, e2]
    decide
  · unfold shoot_railgun
    simp only [h0, add_zero]
    exact shoot_railgun_loop_zero_vector fuel a shooter_row shooter_col hv

theorem railgun_direction_zero_never_ends_witness :
    find_direction (aim_sign 5 5) (aim_sign 5 5) = 0 ∧
    directions 0 = (0, 0) ∧
    shoot_railgun 1000 two_agent_match 5 5 0 = none ∧
    (∀ direction, 1 ≤ direction → direction ≤ 8 →
      (shoot_railgun (max two_agent_match.m_rows two_agent_match.m_cols).toNat two_agent_match
        5 5 direction).isSome = true) :=
  railgun_direction_zero_never_ends 1000 two_agent_match 5 5 (by decide)

/-! ## The shuffled pass of the fallback -/

theorem mem_fallback_candidates (order : List Int) (distance : Int) (x : Int × Int) :
    x ∈ fallback_candidates order distance ↔ x.1 ∈ order ∧ 1 ≤ x.2 ∧ x.2 ≤ distance := by
  unfold fallback_candidates
  rw [fallback_candidates_from_eq, List.mem_flatMap]
  constructor
  · rintro ⟨k, hk, hx⟩
    rw [List.mem_range] at hk
    obtain ⟨dir, hdir, rfl⟩ := List.mem_map.1 hx
    dsimp only
    exact ⟨hdir, by omega, by omega⟩
  · rintro ⟨h1, h2, h3⟩
    refine ⟨(distance - x.2).toNat, List.mem_range.2 (by omega), List.mem_map.2 ⟨x.1, h1, ?_⟩⟩
    refine Prod.ext rfl ?_
    dsimp only
    omega

theorem try_multiple_directions_without_shuffle_first (a : Arena) (i : Nat)
    (preferred distance : Int) :
    try_multiple_directions_without_shuffle a i preferred distance =
      match first_legal a (position a i).1 (position a i).2
          (fallback_candidates (try_order preferred) distance) with
      | some x =>
        move_robot a i (candidate_cell (position a i).1 (position a i).2 x).1
          (candidate_cell (position a i).1 (position a i).2 x).2
      | none => (false, a) := by
  unfold try_multiple_directions_without_shuffle
  dsimp only
  rw [try_distances_first]
  rfl

/-- Claim C33: the shuffled last resort of `try_multiple_directions` is
redundant. For a preferred direction in 1..8, a distance D >= 1 and shuffled
directions from 1..8, the call returns the same flag and the same state as the
function without the shuffled pass; it returns true exactly when some direction
d in 1..8 and step k in 1..D give a destination that passes `can_move_to`; and
the result is the same for every other shuffle. -/
theorem shuffled_pass_redundant (a : Arena) (i : Nat) (p D : Int) (all_dirs : List Int)
    (hp1 : 1 ≤ p) (hp8 : p ≤ 8) (hD : 1 ≤ D) (hshuffle : ∀ d ∈ all_dirs, 1 ≤ d ∧ d ≤ 8) :
    try_multiple_directions a i p D all_dirs =
      try_multiple_directions_without_shuffle a i p D ∧
    ((try_multiple_directions a i p D all_dirs).1 = true ↔
      ∃ d k : Int, 1 ≤ d ∧ d ≤ 8 ∧ 1 ≤ k ∧ k ≤ D ∧
        can_move_to a ((position a i).1 + (directions d).1 * k)
          ((position a i).2 + (directions d).2 * k) = true) ∧
    (∀ other_dirs : List Int, (∀ d ∈ other_dirs, 1 ≤ d ∧ d ≤ 8) →
      try_multiple_directions a i p D other_dirs = try_multiple_directions a i p D all_dirs) := by
  have hperm := (try_order_spec p hp1 hp8).2.1
  -- with no legal candidate in the nested loops, no shuffled direction is legal
  have hnone : ∀ dirs : List Int, (∀ d ∈ dirs, 1 ≤ d ∧ d ≤ 8) →
      first_legal a (position a i).1 (position a i).2
        (fallback_candidates (try_order p) D) = none →
      first_legal a (position a i).1 (position a i).2 (dirs.map (fun dir => (dir, 1))) = none := by
    intro dirs hdirs h1
    rw [first_legal_eq_none] at h1 ⊢
    intro x hx
    obtain ⟨d, hd, rfl⟩ := List.mem_map.1 hx
    apply h1
    rw [mem_fallback_candidates]
    refine ⟨hperm.mem_iff.2 ?_, le_refl _, hD⟩
    have := hdirs d hd
    simp only [List.mem_cons, List.mem_singleton, List.not_mem_nil, or_false]
    omega
  have heq : ∀ dirs : List Int, (∀ d ∈ dirs, 1 ≤ d ∧ d ≤ 8) →
      try_multiple_directions a i p D dirs =
        try_multiple_directions_without_shuffle a i p D := by
    intro dirs hdirs
    rw [try_multiple_directions_first, try_multiple_directions_without_shuffle_first]
    cases h1 : first_legal a (position a i).1 (position a i).2
        (fallback_candidates (try_order p) D) with
    | some x => rfl
    | none =>
      dsimp only
      rw [try_directions_at_first, hnone dirs hdirs h1]
  refine ⟨heq all_dirs hshuffle, ?_, fun other h => (heq other h).trans (heq all_dirs hshuffle).symm⟩
  rw [heq all_dirs hshuffle, try_multiple_directions_without_shuffle_first]
  constructor
  · intro h
    cases h1 : first_legal a (position a i).1 (position a i).2
        (fallback_candidates (try_order p) D) with
    | some x =>
      obtain ⟨hl, hmem⟩ := first_legal_is_legal a _ _ _ x h1
      obtain ⟨m1, m2, m3⟩ := (mem_fallback_candidates _ _ x).1 hmem
      obtain ⟨d1, d8⟩ := try_order_range p hp1 hp8 x.1 m1
      exact ⟨x.1, x.2, d1, d8, m2, m3, hl⟩
    | none =>
      rw [h1] at h
      exact absurd h Bool.false_ne_true
  · rintro ⟨d, k, d1, d8, k1, kD, hl⟩
    cases h1 : first_legal a (position a i).1 (position a i).2
        (fallback_candidates (try_order p) D) with
    | some x =>
      dsimp only
      rw [move_robot_fst]
      exact (first_legal_is_legal a _ _ _ x h1).1
    | none =>
      exfalso
      rw [first_legal_eq_none] at h1
      have hmem : (d, k) ∈ fallback_candidates (try_order p) D := by
        rw [mem_fallback_candidates]
        refine ⟨hperm.mem_iff.2 ?_, k1, kD⟩
        simp only [List.mem_cons, List.mem_singleton, List.not_mem_nil, or_false]
        omega
      have := h1 (d, k) hmem
      simp only [candidate_cell] at this
      rw [hl] at this
      exact absurd this (by decide)

theorem shuffled_pass_redundant_witness :
    try_multiple_directions three_agent_match 0 1 2 idle.all_dirs =
      try_multiple_directions_without_shuffle three_agent_match 0 1 2 ∧
    ((try_multiple_directions three_agent_match 0 1 2 idle.all_dirs).1 = true ↔
      ∃ d k : Int, 1 ≤ d ∧ d ≤ 8 ∧ 1 ≤ k ∧ k ≤ 2 ∧
        can_move_to three_agent_match ((position three_agent_match 0).1 + (directions d).1 * k)
          ((position three_agent_match 0).2 + (directions d).2 * k) = true) ∧
    (∀ other_dirs : List Int, (∀ d ∈ other_dirs, 1 ≤ d ∧ d ≤ 8) →
      try_multiple_directions three_agent_match 0 1 2 other_dirs =
        try_multiple_directions three_agent_match 0 1 2 idle.all_dirs) :=
  shuffled_pass_redundant three_agent_match 0 1 2 idle.all_dirs (by decide) (by decide)
    (by decide) (by decide)

/-! ## The cells a railgun shot visits -/

/-- The cells the railgun loop visits: the cells `(r, c) + k * (dr, dc)`,
k = 0, 1, ..., below `fuel`, up to the first one that is out of bounds. -/
theorem mem_railgun_visited (dr dc : Int) (fuel : Nat) :
    ∀ (a : Arena) (r c : Int) (p : Int × Int),
      p ∈ railgun_visited dr dc fuel a r c ↔
        ∃ k : Nat, k < fuel ∧ p = (r + dr * (k : Int), c + dc * (k : Int)) ∧
          ∀ j : Nat, j ≤ k →
            is_valid_position a (r + dr * (j : Int)) (c + dc * (j : Int)) = true := by
  induction fuel with
  | zero =>
    intro a r c p
    simp [railgun_visited]
  | succ fuel ih =>
    intro a r c p
    unfold railgun_visited
    by_cases hv : is_valid_position a r c = true
    · rw [if_pos hv]
      dsimp only
      have hval : ∀ x y, is_valid_position
          (match get_robot_at a r c with
            | some target => apply_damage a target 12
            | none => a) x y = is_valid_position a x y := by
        intro x y
        cases get_robot_at a r c with
        | none => rfl
        | some target =>
          have hf := (apply_damage_stepFrame a target 12).1
          exact is_valid_position_congr a _ hf.rows hf.cols x y
      rw [List.mem_cons, ih]
      constructor
      · rintro (e | ⟨k, hk, e, hall⟩)
        · refine ⟨0, by omega, by simp [e], ?_⟩
          intro j hj
          have : j = 0 := by omega
          subst this
          simpa using hv
        · refine ⟨k + 1, by omega, ?_, ?_⟩
          · rw [e]
            refine Prod.ext ?_ ?_ <;> push_cast <;> ring
          · intro j hj
            cases j with
            | zero => simpa using hv
            | succ j =>
              have := hall j (by omega)
              rw [hval] at this
              have e1 : r + dr * ((j + 1 : Nat) : Int) = r + dr + dr * (j : Int) := by
                push_cast; ring
              have e2 : c + dc * ((j + 1 : Nat) : Int) = c + dc + dc * (j : Int) := by
                push_cast; ring
              rw [e1, e2]
              exact this
      · rintro ⟨k, hk, e, hall⟩
        cases k with
        | zero => left; simp [e]
        | succ k =>
          right
          refine ⟨k, by omega, ?_, ?_⟩
          · rw [e]
            refine Prod.ext ?_ ?_ <;> push_cast <;> ring
          · intro j hj
            rw [hval]
            have := hall (j + 1) (by omega)
            have e1 : r + dr * ((j + 1 : Nat) : Int) = r + dr + dr * (j : Int) := by
              push_cast; ring
            have e2 : c + dc * ((j + 1 : Nat) : Int) = c + dc + dc * (j : Int) := by
              push_cast; ring
            rw [e1, e2] at this
            exact this
    · rw [if_neg hv]
      simp only [List.not_mem_nil, false_iff]
      rintro ⟨k, -, -, hall⟩
      have := hall 0 (by omega)
      simp only [Nat.cast_zero, mul_zero, add_zero] at this
      exact hv this

theorem directions_find_direction (s1 s2 : Int) (h1 : s1 = 1 ∨ s1 = -1 ∨ s1 = 0)
    (h2 : s2 = 1 ∨ s2 = -1 ∨ s2 = 0) : directions (find_direction s1 s2) = (s1, s2) := by
  rcases h1 with h | h | h <;> rcases h2 with g | g | g <;> subst h <;> subst g <;> decide

/-- Claim C36, what the code does: for an in-bounds shooter and an in-bounds
target with row offset a and column offset b, the railgun shot derived in
`handle_shooting` visits the target cell, within max(rows, cols) iterations,
exactly when a = 0 or b = 0 or |a| = |b|. That includes the offset (0, 0): when
the target is the shooter's own cell the loop runs on that cell from its first
iteration on (and, the direction being 0, never stops), whereas the claim says
the own cell is not visited. A target with 0 < |a| != |b| > 0 is never
visited. -/
theorem railgun_target_on_beam (fuel : Nat) (a : Arena)
    (shooter_row shooter_col target_row target_col : Int)
    (hs : is_valid_position a shooter_row shooter_col = true)
    (ht : is_valid_position a target_row target_col = true)
    (hfuel : (max a.m_rows a.m_cols).toNat ≤ fuel) :
    ((target_row, target_col) ∈
        railgun_shot_visited fuel a shooter_row shooter_col target_row target_col ↔
      (target_row - shooter_row = 0 ∨ target_col - shooter_col = 0 ∨
        |target_row - shooter_row| = |target_col - shooter_col|)) ∧
    (shooter_row, shooter_col) ∈
      railgun_shot_visited fuel a shooter_row shooter_col shooter_row shooter_col ∧
    shoot_railgun fuel a shooter_row shooter_col
      (find_direction (aim_sign shooter_row shooter_row)
        (aim_sign shooter_col shooter_col)) = none := by
  have hmain : ∀ tr tc : Int, is_valid_position a tr tc = true →
      ((tr, tc) ∈ railgun_shot_visited fuel a shooter_row shooter_col tr tc ↔
        (tr - shooter_row = 0 ∨ tc - shooter_col = 0 ∨
          |tr - shooter_row| = |tc - shooter_col|)) := by
    intro tr tc hvt
    have c1 := aim_sign_cases tr shooter_row
    have c2 := aim_sign_cases tc shooter_col
    have hd := directions_find_direction (aim_sign tr shooter_row) (aim_sign tc shooter_col)
      (by omega) (by omega)
    unfold railgun_shot_visited
    dsimp only
    rw [hd, mem_railgun_visited, abs_eq_abs]
    dsimp only
    simp only [is_valid_position, Bool.and_eq_true, decide_eq_true_eq] at hs hvt ⊢
    have hmax1 := le_max_left a.m_rows a.m_cols
    have hmax2 := le_max_right a.m_rows a.m_cols
    generalize max a.m_rows a.m_cols = mx at hfuel hmax1 hmax2
    constructor
    · rintro ⟨k, -, e, -⟩
      have e1 := congrArg Prod.fst e
      have e2 := congrArg Prod.snd e
      simp only at e1 e2
      rcases c1 with ⟨o1, s1⟩ | ⟨o1, s1⟩ | ⟨o1, s1⟩ <;>
        rcases c2 with ⟨o2, s2⟩ | ⟨o2, s2⟩ | ⟨o2, s2⟩ <;>
        rw [s1] at e1 <;> rw [s2] at e2 <;> omega
    · intro h
      refine ⟨(max (tr - shooter_row) (max (shooter_row - tr)
        (max (tc - shooter_col) (shooter_col - tc))) - 1).toNat, ?_, ?_, ?_⟩
      · omega
      · rcases c1 with ⟨o1, s1⟩ | ⟨o1, s1⟩ | ⟨o1, s1⟩ <;>
          rcases c2 with ⟨o2, s2⟩ | ⟨o2, s2⟩ | ⟨o2, s2⟩ <;>
          rw [s1, s2] <;> refine Prod.ext ?_ ?_ <;> dsimp only <;> omega
      · intro j hj
        rcases c1 with ⟨o1, s1⟩ | ⟨o1, s1⟩ | ⟨o1, s1⟩ <;>
          rcases c2 with ⟨o2, s2⟩ | ⟨o2, s2⟩ | ⟨o2, s2⟩ <;>
          rw [s1, s2] <;> omega
  have hown := (hmain shooter_row shooter_col hs).2 (Or.inl (by omega))
  refine ⟨hmain target_row target_col ht, hown, ?_⟩
  have e1 : aim_sign shooter_row shooter_row = 0 := by simp [aim_sign]
  have e2 : aim_sign shooter_col shooter_col = 0 := by simp [aim_sign]
  have h0 : find_direction 0 0 = 0 := by decide
  have hz : directions 0 = (0, 0) := by decide
  rw [e1, e2, h0]
  unfold shoot_railgun
  simp only [hz, add_zero]
  exact shoot_railgun_loop_zero_vector fuel a shooter_row shooter_col hs

theorem railgun_target_on_beam_witness :
    get_robot_at two_agent_match 5 5 = some 0 ∧
    (((5, 5) : Int × Int) ∈ railgun_shot_visited 20 two_agent_match 5 5 5 5 ↔
      ((5 : Int) - 5 = 0 ∨ (5 : Int) - 5 = 0 ∨ |(5 : Int) - 5| = |(5 : Int) - 5|)) ∧
    ((5, 5) : Int × Int) ∈ railgun_shot_visited 20 two_agent_match 5 5 5 5 ∧
    shoot_railgun 20 two_agent_match 5 5
      (find_direction (aim_sign 5 5) (aim_sign 5 5)) = none :=
  ⟨by decide, railgun_target_on_beam 20 two_agent_match 5 5 5 5 (by decide) (by decide)
    (by decide)⟩

/-! ## The Garrett agent and its own grenade -/

theorem grenade_cells_nodup (target_row target_col : Int) :
    (grenade_cells target_row target_col).Nodup := by
  simp [grenade_cells, List.flatMap]

theorem mem_grenade_cells (target_row target_col r c : Int) :
    (r, c) ∈ grenade_cells target_row target_col ↔
      (target_row - 1 ≤ r ∧ r ≤ target_row + 1 ∧ target_col - 1 ≤ c ∧ c ≤ target_col + 1) := by
  simp only [grenade_cells, List.flatMap_cons, List.flatMap_nil, List.map_cons, List.map_nil,
    List.append_nil, List.cons_append, List.nil_append, List.mem_cons, Prod.mk.injEq,
    List.not_mem_nil, or_false]
  constructor
  · intro h
    omega
  · intro h
    have hr : r = target_row + -1 ∨ r = target_row + 0 ∨ r = target_row + 1 := by omega
    have hc : c = target_col + -1 ∨ c = target_col + 0 ∨ c = target_col + 1 := by omega
    rcases hr with e | e | e <;> rcases hc with f | f | f <;> subst e <;> subst f <;> simp

/-- Claim C35: the Garrett agent always hits itself. Whenever
`Garrett_Robot::get_shot_location` returns a target, the target is within one
row and one column of the agent's recorded position and the agent has grenades
left, so the agent's own cell is one of the nine cells of `shoot_grenade`. With
the grenade weapon and in a state whose markers stand at their agents' positions
(the agent's own cell in bounds and holding its registered symbol),
`handle_shooting` resolves the shot, the shooter takes exactly one
`apply_damage` of 20 points and loses one grenade, and so does the agent whose
symbol stands on the target cell. -/
theorem garrett_hits_itself (fuel : Nat) (a : Arena) (i : Nat) (g : Garrett_Robot)
    (shot_row shot_col : Int) (hi : i < a.m_robots.length)
    (hw : (getRobot a i).robot.get_weapon = WeaponType.grenade)
    (hshot : g.get_shot_location (getRobot a i).robot = some (shot_row, shot_col))
    (hdead : a.m_robot_symbol_to_index.lookup DEAD_ROBOT = none)
    (hmarkers : markers_at_positions a)
    (hvalid : is_valid_position a (position a i).1 (position a i).2 = true)
    (hown : a.m_robot_symbol_to_index.lookup (a.m_board (position a i).1 (position a i).2)
      = some i) :
    (-1 ≤ shot_row - (position a i).1 ∧ shot_row - (position a i).1 ≤ 1) ∧
    (-1 ≤ shot_col - (position a i).2 ∧ shot_col - (position a i).2 ≤ 1) ∧
    position a i ∈ grenade_cells shot_row shot_col ∧
    (getRobot a i).robot.get_grenades > 0 ∧
    handle_shooting fuel a i (some (shot_row, shot_col)) =
      some (setRobot (shoot_grenade a shot_row shot_col) i
        { getRobot (shoot_grenade a shot_row shot_col) i with
          robot := (getRobot (shoot_grenade a shot_row shot_col) i).robot.decrement_grenades }) ∧
    getRobot (shoot_grenade a shot_row shot_col) i = getRobot (apply_damage a i 20) i ∧
    (∀ b, handle_shooting fuel a i (some (shot_row, shot_col)) = some b →
      getRobot b i =
        { damaged (getRobot a i) 20 with
          robot := (damaged (getRobot a i) 20).robot.decrement_grenades }) ∧
    (∀ j, j < a.m_robots.length → is_valid_position a shot_row shot_col = true →
      a.m_robot_symbol_to_index.lookup (a.m_board shot_row shot_col) = some j →
      getRobot (shoot_grenade a shot_row shot_col) j = getRobot (apply_damage a j 20) j) := by
  -- what the agent's own test gives
  have hg : (getRobot a i).robot.get_grenades > 0 ∧
      (shot_row - (getRobot a i).robot.m_location_row).natAbs ≤ 1 ∧
      (shot_col - (getRobot a i).robot.m_location_col).natAbs ≤ 1 := by
    unfold Garrett_Robot.get_shot_location at hshot
    dsimp only at hshot
    split_ifs at hshot with h1 h2
    have e := Option.some.inj hshot
    have e1 := congrArg Prod.fst e
    have e2 := congrArg Prod.snd e
    simp only at e1 e2
    rw [← e1, ← e2]
    refine ⟨?_, h2.1, h2.2⟩
    by_contra hn
    exact h1 (Or.inr (by omega))
  obtain ⟨hgren, hr, hc⟩ := hg
  have hrow : -1 ≤ shot_row - (position a i).1 ∧ shot_row - (position a i).1 ≤ 1 := by
    unfold position; dsimp only; omega
  have hcol : -1 ≤ shot_col - (position a i).2 ∧ shot_col - (position a i).2 ≤ 1 := by
    unfold position; dsimp only; omega
  have hmem : position a i ∈ grenade_cells shot_row shot_col := by
    have : position a i = ((position a i).1, (position a i).2) := rfl
    rw [this, mem_grenade_cells]
    omega
  have hnd := grenade_cells_nodup shot_row shot_col
  have hvict := foldl_hit_cell_victims 20 (grenade_cells shot_row shot_col) hnd a hdead hmarkers
  have hself : getRobot (shoot_grenade a shot_row shot_col) i = damaged (getRobot a i) 20 :=
    (hvict i).1 ⟨position a i, hmem, hvalid, hown⟩ hi
  have hshoot : handle_shooting fuel a i (some (shot_row, shot_col)) =
      some (setRobot (shoot_grenade a shot_row shot_col) i
        { getRobot (shoot_grenade a shot_row shot_col) i with
          robot := (getRobot (shoot_grenade a shot_row shot_col) i).robot.decrement_grenades }) := by
    unfold handle_shooting
    dsimp only
    rw [hw]
    dsimp only
    rw [if_pos hgren]
  have hlen : i < (shoot_grenade a shot_row shot_col).m_robots.length := by
    have := (foldl_hit_cell_stepFrame 20 (grenade_cells shot_row shot_col) a).1.length
    unfold shoot_grenade
    omega
  refine ⟨hrow, hcol, hmem, hgren, hshoot, ?_, ?_, ?_⟩
  · rw [hself, apply_damage_getRobot, if_pos ⟨rfl, hi⟩]
  · intro b hb
    rw [hshoot] at hb
    rw [← Option.some.inj hb, getRobot_setRobot_self _ _ _ hlen, hself]
  · intro j hj hv hl
    have hm : (shot_row, shot_col) ∈ grenade_cells shot_row shot_col := by
      rw [mem_grenade_cells]; omega
    rw [apply_damage_getRobot, if_pos ⟨rfl, hj⟩]
    exact (hvict j).1 ⟨(shot_row, shot_col), hm, hv, hl⟩ hj

/-- Claim C35 at a concrete input: agent 2 of `three_agent_match` carries
grenades on (5,6) and has recorded an enemy on (5,5); its shot at (5,5) costs
itself 17 health points (20 less the armor mitigation), as it costs the agent on
(5,5). -/
theorem garrett_hits_itself_witness :
    Garrett_Robot.get_shot_location ⟨true, 5, 5⟩ (getRobot three_agent_match 2).robot
      = some (5, 5) ∧
    position three_agent_match 2 ∈ grenade_cells 5 5 ∧
    getRobot (shoot_grenade three_agent_match 5 5) 2 =
      getRobot (apply_damage three_agent_match 2 20) 2 ∧
    (getRobot (shoot_grenade three_agent_match 5 5) 2).robot.m_health = 83 ∧
    (getRobot (shoot_grenade three_agent_match 5 5) 0).robot.m_health = 83 :=
  have h := garrett_hits_itself 0 three_agent_match 2 ⟨true, 5, 5⟩ 5 5 (by decide) (by decide)
    (by decide) (by decide) three_agent_match_markers (by decide) (by decide)
  ⟨by decide, h.2.2.1, h.2.2.2.2.2.1, by set_option maxRecDepth 4096 in decide,
   by set_option maxRecDepth 4096 in decide⟩

/-! ## Terrain through a match -/

theorem terrain_kept_same (a : Arena) : terrain_kept a a :=
  fun _ _ => ⟨Iff.rfl, id, id⟩

theorem terrain_kept_then {a b c : Arena} (h1 : terrain_kept a b) (h2 : terrain_kept b c) :
    terrain_kept a c :=
  fun r c' => ⟨(h1 r c').1.trans (h2 r c').1, fun h => (h1 r c').2.1 ((h2 r c').2.1 h),
    fun h => (h1 r c').2.2 ((h2 r c').2.2 h)⟩

theorem terrain_kept_of_board {a b : Arena} (h : b.m_board = a.m_board) : terrain_kept a b := by
  intro r c
  rw [h]
  exact ⟨Iff.rfl, id, id⟩

/-- A write of a marker that is no terrain marker on a cell that is no mound
keeps the terrain. -/
theorem terrain_kept_setCell (a b : Arena) (r c : Int) (v : Char)
    (hb : b.m_board = setCell a.m_board r c v) (hcell : a.m_board r c ≠ MOUND)
    (hv : v ≠ PIT ∧ v ≠ FLAMETHROWER ∧ v ≠ MOUND) : terrain_kept a b := by
  intro r' c'
  rw [hb]
  unfold setCell
  by_cases h : r' = r ∧ c' = c
  · rw [if_pos h, h.1, h.2]
    exact ⟨⟨fun e => absurd e hcell, fun e => absurd e hv.2.2⟩, fun e => absurd e hv.1,
      fun e => absurd e hv.2.1⟩
  · rw [if_neg h]
    exact ⟨Iff.rfl, id, id⟩

/-- The well-formedness carries over a step that keeps the frame and the terrain
and records agents on cells that were no mounds. -/
theorem settled_of_step {a b : Arena} (hs : Settled a) (hf : Frame a b) (hk : terrain_kept a b)
    (hpos : ∀ j, j < a.m_robots.length →
      position b j = position a j ∨
        a.m_board (position b j).1 (position b j).2 ≠ MOUND) : Settled b := by
  refine ⟨?_, ?_, ?_⟩
  · intro j hj hm
    rw [hf.length] at hj
    have hma := (hk _ _).1.2 hm
    rcases hpos j hj with e | e
    · rw [e] at hma
      exact hs.off_mounds j hj hma
    · exact e hma
  · intro j
    rw [hf.character j]
    exact hs.symbols j
  · intro ch j h
    rw [hf.index] at h
    rw [hf.length]
    exact hs.registered ch j h

theorem clear_robot_from_board_terrain (a : Arena) (i : Nat) (hs : Settled a) :
    terrain_kept a (clear_robot_from_board a i) ∧ Settled (clear_robot_from_board a i) := by
  have hk : terrain_kept a (clear_robot_from_board a i) := by
    by_cases h : is_valid_position a (position a i).1 (position a i).2 = true ∧
        a.m_board (position a i).1 (position a i).2 = symbol a i
    · refine terrain_kept_setCell a _ (position a i).1 (position a i).2 EMPTY ?_ ?_ (by decide)
      · rw [clear_robot_from_board_board, if_pos h]
      · rw [h.2]; exact (hs.symbols i).2.2
    · refine terrain_kept_of_board ?_
      rw [clear_robot_from_board_board, if_neg h]
  refine ⟨hk, settled_of_step hs (clear_robot_from_board_stepFrame a i).1 hk ?_⟩
  intro j _
  left
  unfold position
  rw [getRobot_of_robots (clear_robot_from_board_robots a i) j]

theorem place_robot_on_board_terrain (a : Arena) (i : Nat) (r c : Int) (hs : Settled a)
    (hcell : a.m_board r c ≠ MOUND) :
    terrain_kept a (place_robot_on_board a i r c) ∧ Settled (place_robot_on_board a i r c) := by
  have hk : terrain_kept a (place_robot_on_board a i r c) := by
    by_cases h : is_valid_position a r c = true
    · refine terrain_kept_setCell a _ r c (symbol a i) ?_ hcell (hs.symbols i)
      rw [place_robot_on_board_board, if_pos h]
    · refine terrain_kept_of_board ?_
      rw [place_robot_on_board_board, if_neg h]
  refine ⟨hk, settled_of_step hs (place_robot_on_board_stepFrame a i r c).1 hk ?_⟩
  intro j _
  left
  unfold position
  rw [getRobot_of_robots (place_robot_on_board_robots a i r c) j]

/-- A write of a record that keeps the symbol, the weapon and the pit timer and
puts the position on a cell that is no mound. -/
theorem setRobot_terrain (a : Arena) (i : Nat) (info : RobotInfo) (hs : Settled a)
    (hc : info.robot.m_character = (getRobot a i).robot.m_character)
    (hw : info.robot.m_weapon = (getRobot a i).robot.m_weapon)
    (hp : info.pit_turns = (getRobot a i).pit_turns)
    (hcell : a.m_board info.robot.m_location_row info.robot.m_location_col ≠ MOUND) :
    terrain_kept a (setRobot a i info) ∧ Settled (setRobot a i info) := by
  have hk : terrain_kept a (setRobot a i info) := terrain_kept_of_board rfl
  refine ⟨hk, settled_of_step hs (setRobot_stepFrame a i info hc hw hp).1 hk ?_⟩
  intro j _
  unfold position
  rw [getRobot_setRobot]
  split_ifs with h
  · right; exact hcell
  · left; rfl

/-- A write of a record that leaves symbol, weapon, pit timer and position as
they were. -/
theorem setRobot_terrain_still (a : Arena) (i : Nat) (info : RobotInfo) (hs : Settled a)
    (hc : info.robot.m_character = (getRobot a i).robot.m_character)
    (hw : info.robot.m_weapon = (getRobot a i).robot.m_weapon)
    (hp : info.pit_turns = (getRobot a i).pit_turns)
    (hrow : info.robot.m_location_row = (getRobot a i).robot.m_location_row)
    (hcol : info.robot.m_location_col = (getRobot a i).robot.m_location_col) :
    terrain_kept a (setRobot a i info) ∧ Settled (setRobot a i info) := by
  have hk : terrain_kept a (setRobot a i info) := terrain_kept_of_board rfl
  refine ⟨hk, settled_of_step hs (setRobot_stepFrame a i info hc hw hp).1 hk ?_⟩
  intro j _
  left
  unfold position
  rw [getRobot_setRobot]
  split_ifs with h
  · rw [hrow, hcol, h.1]
  · rfl

theorem apply_damage_terrain (a : Arena) (t : Nat) (damage : Int) (hs : Settled a)
    (ht : t < a.m_robots.length) :
    terrain_kept a (apply_damage a t damage) ∧ Settled (apply_damage a t damage) := by
  have hk : terrain_kept a (apply_damage a t damage) := by
    intro r c
    rcases apply_damage_board a t damage r c with e | ⟨e1, e2⟩
    · rw [e]
      exact ⟨Iff.rfl, id, id⟩
    · have hm : a.m_board r c ≠ MOUND := by
        have h1 := congrArg Prod.fst e1
        have h2 := congrArg Prod.snd e1
        simp only at h1 h2
        rw [h1, h2]
        exact hs.off_mounds t ht
      rw [e2]
      exact ⟨⟨fun e => absurd e hm, fun e => absurd e (by decide)⟩,
        fun e => absurd e (by decide), fun e => absurd e (by decide)⟩
  refine ⟨hk, settled_of_step hs (apply_damage_stepFrame a t damage).1 hk ?_⟩
  intro j _
  left
  exact (apply_damage_frame a t damage).2.2.2.1 j

theorem check_obstacle_effects_terrain (a : Arena) (i : Nat) (r c : Int) (hs : Settled a)
    (hi : i < a.m_robots.length) :
    terrain_kept a (check_obstacle_effects a i r c) ∧
      Settled (check_obstacle_effects a i r c) := by
  unfold check_obstacle_effects
  dsimp only
  split_ifs
  · exact setRobot_terrain_still a i _ hs rfl rfl rfl rfl rfl
  · exact apply_damage_terrain a i 15 hs hi
  · exact ⟨terrain_kept_same a, hs⟩

theorem can_move_to_not_mound (a : Arena) (r c : Int) (h : can_move_to a r c = true) :
    a.m_board r c ≠ MOUND := by
  intro hm
  have := can_move_to_of_wall a r c (Or.inr hm)
  rw [h] at this
  exact absurd this (by decide)

/-- The relocation steps shared by `move_robot` and the teleports, on a cell that
is no mound: the record is moved there and the symbol written. -/
theorem move_to_terrain (a : Arena) (i : Nat) (r c : Int) (hs : Settled a)
    (hcell : a.m_board r c ≠ MOUND) :
    terrain_kept a
        (setRobot a i { getRobot a i with robot := (getRobot a i).robot.move_to r c }) ∧
      Settled (setRobot a i { getRobot a i with robot := (getRobot a i).robot.move_to r c }) :=
  setRobot_terrain a i _ hs rfl rfl rfl hcell

theorem move_robot_terrain (a : Arena) (i : Nat) (r c : Int) (hs : Settled a)
    (hi : i < a.m_robots.length) :
    terrain_kept a (move_robot a i r c).2 ∧ Settled (move_robot a i r c).2 := by
  by_cases hc : can_move_to a r c = true
  · have h : (move_robot a i r c).2 =
        place_robot_on_board
          (check_obstacle_effects
            (setRobot (clear_robot_from_board a i) i
              { getRobot (clear_robot_from_board a i) i with
                robot := (getRobot (clear_robot_from_board a i) i).robot.move_to r c })
            i r c)
          i r c := by
      simp [move_robot, hc]
    rw [h]
    have hcell := can_move_to_not_mound a r c hc
    obtain ⟨k1, s1⟩ := clear_robot_from_board_terrain a i hs
    have c1 : (clear_robot_from_board a i).m_board r c ≠ MOUND :=
      fun e => hcell ((k1 r c).1.2 e)
    obtain ⟨k2, s2⟩ := move_to_terrain (clear_robot_from_board a i) i r c s1 c1
    have l2 : i < (setRobot (clear_robot_from_board a i) i
        { getRobot (clear_robot_from_board a i) i with
          robot := (getRobot (clear_robot_from_board a i) i).robot.move_to r c }).m_robots.length := by
      simp only [setRobot, List.length_set, clear_robot_from_board_robots]
      exact hi
    obtain ⟨k3, s3⟩ := check_obstacle_effects_terrain _ i r c s2 l2
    have k13 := terrain_kept_then (terrain_kept_then k1 k2) k3
    have c3 : (check_obstacle_effects
        (setRobot (clear_robot_from_board a i) i
          { getRobot (clear_robot_from_board a i) i with
            robot := (getRobot (clear_robot_from_board a i) i).robot.move_to r c })
        i r c).m_board r c ≠ MOUND := fun e => hcell ((k13 r c).1.2 e)
    obtain ⟨k4, s4⟩ := place_robot_on_board_terrain _ i r c s3 c3
    exact ⟨terrain_kept_then k13 k4, s4⟩
  · have h : (move_robot a i r c).2 = a := by simp [move_robot, hc]
    rw [h]
    exact ⟨terrain_kept_same a, hs⟩

theorem hit_cell_terrain (a : Arena) (r c damage : Int) (hs : Settled a) :
    terrain_kept a (hit_cell a r c damage) ∧ Settled (hit_cell a r c damage) := by
  unfold hit_cell
  split_ifs with hv
  · cases hg : get_robot_at a r c with
    | none => exact ⟨terrain_kept_same a, hs⟩
    | some target =>
      have ht : target < a.m_robots.length := by
        unfold get_robot_at at hg
        rw [if_neg (by simpa using hv)] at hg
        exact hs.registered _ _ hg
      exact apply_damage_terrain a target damage hs ht
  · exact ⟨terrain_kept_same a, hs⟩

theorem foldl_hit_cell_terrain (damage : Int) (cells : List (Int × Int)) :
    ∀ a : Arena, Settled a →
      terrain_kept a (cells.foldl (fun s cell => hit_cell s cell.1 cell.2 damage) a) ∧
        Settled (cells.foldl (fun s cell => hit_cell s cell.1 cell.2 damage) a) := by
  induction cells with
  | nil => intro a hs; exact ⟨terrain_kept_same a, hs⟩
  | cons cell rest ih =>
    intro a hs
    obtain ⟨k1, s1⟩ := hit_cell_terrain a cell.1 cell.2 damage hs
    obtain ⟨k2, s2⟩ := ih _ s1
    exact ⟨terrain_kept_then k1 k2, s2⟩

theorem shoot_railgun_loop_terrain (dr dc : Int) (fuel : Nat) :
    ∀ (a : Arena) (r c : Int) (b : Arena), Settled a →
      shoot_railgun_loop dr dc fuel a r c = some b → terrain_kept a b ∧ Settled b := by
  induction fuel with
  | zero =>
    intro a r c b hs h
    unfold shoot_railgun_loop at h
    split_ifs at h
    simp at h
    rw [← h]; exact ⟨terrain_kept_same a, hs⟩
  | succ fuel ih =>
    intro a r c b hs h
    unfold shoot_railgun_loop at h
    split_ifs at h with hv
    · dsimp only at h
      have hh := hit_cell_terrain a r c 12 hs
      have he : hit_cell a r c 12 =
          (match get_robot_at a r c with
            | some target => apply_damage a target 12
            | none => a) := by
        simp [hit_cell, hv]
      rw [he] at hh
      obtain ⟨k2, s2⟩ := ih _ _ _ b hh.2 h
      exact ⟨terrain_kept_then hh.1 k2, s2⟩
    · simp at h
      rw [← h]; exact ⟨terrain_kept_same a, hs⟩

theorem handle_shooting_terrain (fuel : Nat) (a : Arena) (i : Nat) (shot : Option (Int × Int))
    (b : Arena) (hs : Settled a) (h : handle_shooting fuel a i shot = some b) :
    terrain_kept a b ∧ Settled b := by
  unfold handle_shooting at h
  cases shot with
  | none => simp at h; rw [← h]; exact ⟨terrain_kept_same a, hs⟩
  | some target =>
    obtain ⟨shot_row, shot_col⟩ := target
    dsimp only at h
    cases hw : (getRobot a i).robot.get_weapon with
    | flamethrower =>
      rw [hw] at h; simp at h; rw [← h]
      exact foldl_hit_cell_terrain 15 _ a hs
    | railgun =>
      rw [hw] at h
      exact shoot_railgun_loop_terrain _ _ fuel a _ _ b hs h
    | grenade =>
      rw [hw] at h
      dsimp only at h
      split_ifs at h
      · simp at h; rw [← h]
        obtain ⟨k1, s1⟩ := foldl_hit_cell_terrain 20 (grenade_cells shot_row shot_col) a hs
        obtain ⟨k2, s2⟩ := setRobot_terrain_still (shoot_grenade a shot_row shot_col) i
          { getRobot (shoot_grenade a shot_row shot_col) i with
            robot := (getRobot (shoot_grenade a shot_row shot_col) i).robot.decrement_grenades }
          s1 rfl rfl rfl rfl rfl
        exact ⟨terrain_kept_then k1 k2, s2⟩
      · simp at h; rw [← h]; exact ⟨terrain_kept_same a, hs⟩
    | hammer =>
      rw [hw] at h; simp at h; rw [← h]
      exact hit_cell_terrain a _ _ 25 hs

theorem try_directions_at_terrain (i : Nat) (cr cc dist : Int) (dirs : List Int) (a : Arena)
    (hs : Settled a) (hi : i < a.m_robots.length) :
    terrain_kept a (try_directions_at i cr cc dist dirs a).2 ∧
      Settled (try_directions_at i cr cc dist dirs a).2 := by
  rw [try_directions_at_first]
  cases first_legal a cr cc (dirs.map (fun dir => (dir, dist))) with
  | some x => exact move_robot_terrain a i _ _ hs hi
  | none => exact ⟨terrain_kept_same a, hs⟩

theorem try_multiple_directions_terrain (a : Arena) (i : Nat) (preferred distance : Int)
    (all_dirs : List Int) (hs : Settled a) (hi : i < a.m_robots.length) :
    terrain_kept a (try_multiple_directions a i preferred distance all_dirs).2 ∧
      Settled (try_multiple_directions a i preferred distance all_dirs).2 := by
  rw [try_multiple_directions_first]
  cases first_legal a (position a i).1 (position a i).2
      (fallback_candidates (try_order preferred) distance) with
  | some x => exact move_robot_terrain a i _ _ hs hi
  | none => exact try_directions_at_terrain i _ _ 1 all_dirs a hs hi

theorem stuck_teleport_terrain (a : Arena) (i : Nat) (r c : Int) (hs : Settled a)
    (hcell : a.m_board r c ≠ MOUND) :
    terrain_kept a (stuck_teleport a i r c) ∧ Settled (stuck_teleport a i r c) := by
  unfold stuck_teleport
  dsimp only
  obtain ⟨k1, s1⟩ := move_to_terrain a i r c hs hcell
  obtain ⟨k2, s2⟩ := place_robot_on_board_terrain _ i r c s1 hcell
  obtain ⟨k3, s3⟩ := setRobot_terrain_still
    (place_robot_on_board
      (setRobot a i { getRobot a i with robot := (getRobot a i).robot.move_to r c }) i r c) i
    { getRobot (place_robot_on_board
        (setRobot a i { getRobot a i with robot := (getRobot a i).robot.move_to r c }) i r c) i
      with stuck_count := 0 } s2 rfl rfl rfl rfl rfl
  exact ⟨terrain_kept_then (terrain_kept_then k1 k2) k3, s3⟩

theorem handle_stuck_robot_terrain (a : Arena) (i : Nat) (draws : Nat → Int × Int)
    (hs : Settled a) :
    terrain_kept a (handle_stuck_robot a i draws) ∧ Settled (handle_stuck_robot a i draws) := by
  rw [handle_stuck_robot_first]
  obtain ⟨k1, s1⟩ := clear_robot_from_board_terrain a i hs
  cases hk : first_empty_candidate (clear_robot_from_board a i) draws 0 100 with
  | some k =>
    dsimp only
    unfold first_empty_candidate at hk
    have hempty := List.find?_some hk
    simp only [decide_eq_true_eq] at hempty
    obtain ⟨k2, s2⟩ := stuck_teleport_terrain (clear_robot_from_board a i) i _ _ s1
      (by rw [hempty]; decide)
    exact ⟨terrain_kept_then k1 k2, s2⟩
  | none =>
    dsimp only
    obtain ⟨k2, s2⟩ := setRobot_terrain_still (clear_robot_from_board a i) i
      { getRobot (clear_robot_from_board a i) i with stuck_count := 0 } s1 rfl rfl rfl rfl rfl
    exact ⟨terrain_kept_then k1 k2, s2⟩

theorem pit_relocate_terrain (a : Arena) (i : Nat) (r c : Int) (hs : Settled a)
    (hcell : a.m_board r c ≠ MOUND) :
    terrain_kept a (pit_relocate a i r c) ∧ Settled (pit_relocate a i r c) := by
  unfold pit_relocate
  dsimp only
  obtain ⟨k1, s1⟩ := clear_robot_from_board_terrain a i hs
  have c1 : (clear_robot_from_board a i).m_board r c ≠ MOUND :=
    fun e => hcell ((k1 r c).1.2 e)
  obtain ⟨k2, s2⟩ := move_to_terrain (clear_robot_from_board a i) i r c s1 c1
  obtain ⟨k3, s3⟩ := place_robot_on_board_terrain _ i r c s2 c1
  obtain ⟨k4, s4⟩ := setRobot_terrain_still
    (place_robot_on_board
      (setRobot (clear_robot_from_board a i) i
        { getRobot (clear_robot_from_board a i) i with
          robot := (getRobot (clear_robot_from_board a i) i).robot.move_to r c }) i r c) i
    { getRobot (place_robot_on_board
        (setRobot (clear_robot_from_board a i) i
          { getRobot (clear_robot_from_board a i) i with
            robot := (getRobot (clear_robot_from_board a i) i).robot.move_to r c }) i r c) i
      with in_pit := false } s3 rfl rfl rfl rfl rfl
  exact ⟨terrain_kept_then (terrain_kept_then (terrain_kept_then k1 k2) k3) k4, s4⟩

theorem handle_pit_escape_terrain (a : Arena) (i : Nat) (dirs : List Int)
    (draws : Nat → Int × Int) (hs : Settled a) :
    terrain_kept a (handle_pit_escape a i dirs draws) ∧
      Settled (handle_pit_escape a i dirs draws) := by
  rw [handle_pit_escape_first]
  cases hd : first_escape_direction a (position a i).1 (position a i).2 dirs with
  | some dir =>
    dsimp only
    unfold first_escape_direction at hd
    have hlegal := List.find?_some hd
    exact pit_relocate_terrain a i _ _ hs (can_move_to_not_mound a _ _ hlegal)
  | none =>
    dsimp only
    cases hk : first_empty_draw a draws 0 50 with
    | some k =>
      dsimp only
      unfold first_empty_draw at hk
      have hempty := List.find?_some hk
      simp only [decide_eq_true_eq] at hempty
      exact pit_relocate_terrain a i _ _ hs (by rw [hempty]; decide)
    | none => exact ⟨terrain_kept_same a, hs⟩

theorem handle_movement_terrain (a : Arena) (i : Nat) (inp : TurnInput) (hs : Settled a)
    (hi : i < a.m_robots.length) :
    terrain_kept a (handle_movement a i inp) ∧ Settled (handle_movement a i inp) := by
  unfold handle_movement
  dsimp only
  by_cases h0 : inp.move_direction = 0 ∨ inp.move_distance = 0
  · rw [if_pos h0]; exact ⟨terrain_kept_same a, hs⟩
  · rw [if_neg h0]
    have hm := move_robot_terrain a i
      ((getRobot a i).robot.m_location_row +
        (directions inp.move_direction).1 *
          min inp.move_distance (getRobot a i).robot.get_move_speed)
      ((getRobot a i).robot.m_location_col +
        (directions inp.move_direction).2 *
          min inp.move_distance (getRobot a i).robot.get_move_speed) hs hi
    have hl := (move_robot_stepFrame a i
      ((getRobot a i).robot.m_location_row +
        (directions inp.move_direction).1 *
          min inp.move_distance (getRobot a i).robot.get_move_speed)
      ((getRobot a i).robot.m_location_col +
        (directions inp.move_direction).2 *
          min inp.move_distance (getRobot a i).robot.get_move_speed)).1.length
    generalize move_robot a i
      ((getRobot a i).robot.m_location_row +
        (directions inp.move_direction).1 *
          min inp.move_distance (getRobot a i).robot.get_move_speed)
      ((getRobot a i).robot.m_location_col +
        (directions inp.move_direction).2 *
          min inp.move_distance (getRobot a i).robot.get_move_speed) = res at hm hl ⊢
    obtain ⟨moved, a1⟩ := res
    dsimp only at hm hl
    obtain ⟨k1, s1⟩ := hm
    cases moved with
    | true =>
      simp only [not_true_eq_false, if_false, if_true]
      obtain ⟨k2, s2⟩ := setRobot_terrain_still a1 i { getRobot a1 i with stuck_count := 0 } s1
        rfl rfl rfl rfl rfl
      exact ⟨terrain_kept_then k1 k2, s2⟩
    | false =>
      simp only [Bool.false_eq_true, not_false_eq_true, if_true]
      have ht := try_multiple_directions_terrain a1 i inp.move_direction
        (min inp.move_distance (getRobot a i).robot.get_move_speed) inp.all_dirs s1 (by omega)
      generalize try_multiple_directions a1 i inp.move_direction
        (min inp.move_distance (getRobot a i).robot.get_move_speed) inp.all_dirs = res2 at ht ⊢
      obtain ⟨moved2, a2⟩ := res2
      dsimp only at ht
      obtain ⟨k2, s2⟩ := ht
      cases moved2 with
      | true =>
        simp only [not_true_eq_false, if_false, if_true]
        obtain ⟨k3, s3⟩ := setRobot_terrain_still a2 i { getRobot a2 i with stuck_count := 0 }
          s2 rfl rfl rfl rfl rfl
        exact ⟨terrain_kept_then (terrain_kept_then k1 k2) k3, s3⟩
      | false =>
        simp only [Bool.false_eq_true, not_false_eq_true, if_true]
        have h3 := setRobot_terrain_still a2 i
          { getRobot a2 i with stuck_count := (getRobot a2 i).stuck_count + 1 } s2
          rfl rfl rfl rfl rfl
        generalize setRobot a2 i
          { getRobot a2 i with stuck_count := (getRobot a2 i).stuck_count + 1 } = a3 at h3 ⊢
        obtain ⟨k3, s3⟩ := h3
        have k13 := terrain_kept_then (terrain_kept_then k1 k2) k3
        by_cases hst : (getRobot a3 i).stuck_count ≥ 1
        · simp only [hst, if_true]
          obtain ⟨k4, s4⟩ := handle_stuck_robot_terrain a3 i inp.stuck_draws s3
          obtain ⟨k5, s5⟩ := setRobot_terrain_still (handle_stuck_robot a3 i inp.stuck_draws) i
            { getRobot (handle_stuck_robot a3 i inp.stuck_draws) i with stuck_count := 0 } s4
            rfl rfl rfl rfl rfl
          exact ⟨terrain_kept_then (terrain_kept_then k13 k4) k5, s5⟩
        · simp only [hst, if_false, Bool.false_eq_true]
          exact ⟨k13, s3⟩

/-- A write of the pit timer alone. -/
theorem pit_turns_terrain (a : Arena) (i : Nat) (n : Int) (hs : Settled a) :
    terrain_kept a (setRobot a i { getRobot a i with pit_turns := n }) ∧
      Settled (setRobot a i { getRobot a i with pit_turns := n }) := by
  have hk : terrain_kept a (setRobot a i { getRobot a i with pit_turns := n }) :=
    terrain_kept_of_board rfl
  refine ⟨hk, settled_of_step hs (pit_turns_frame a i n) hk ?_⟩
  intro j _
  left
  unfold position
  rw [getRobot_setRobot]
  split_ifs with h
  · rw [h.1]
  · rfl

/-- A turn of a registered agent keeps the terrain and the well-formedness. -/
theorem robot_turn_terrain (fuel : Nat) (a : Arena) (i : Nat) (inp : TurnInput) (b : Arena)
    (hs : Settled a) (hi : i < a.m_robots.length) (h : robot_turn fuel a i inp = some b) :
    terrain_kept a b ∧ Settled b := by
  cases hpit : (getRobot a i).in_pit with
  | false =>
    rw [robot_turn_not_in_pit fuel a i inp hpit] at h
    obtain ⟨k1, s1⟩ := handle_movement_terrain a i inp hs hi
    obtain ⟨k2, s2⟩ := handle_shooting_terrain fuel _ i inp.shot b s1 h
    exact ⟨terrain_kept_then k1 k2, s2⟩
  | true =>
    obtain ⟨k1, s1⟩ := pit_turns_terrain a i ((getRobot a i).pit_turns + 1) hs
    by_cases hlt : (getRobot a i).pit_turns + 1 < 5
    · rw [(robot_turn_in_pit fuel a i inp hpit).1 hlt] at h
      obtain ⟨k2, s2⟩ := handle_shooting_terrain fuel _ i inp.shot b s1 h
      exact ⟨terrain_kept_then k1 k2, s2⟩
    · rw [(robot_turn_in_pit fuel a i inp hpit).2 (by omega)] at h
      obtain ⟨k2, s2⟩ := handle_pit_escape_terrain
        (setRobot a i { getRobot a i with pit_turns := (getRobot a i).pit_turns + 1 })
        i inp.escape_dirs inp.escape_draws s1
      obtain ⟨k3, s3⟩ := pit_turns_terrain
        (handle_pit_escape
          (setRobot a i { getRobot a i with pit_turns := (getRobot a i).pit_turns + 1 })
          i inp.escape_dirs inp.escape_draws) i 0 s2
      obtain ⟨k4, s4⟩ := handle_shooting_terrain fuel _ i inp.shot b s3 h
      exact ⟨terrain_kept_then (terrain_kept_then (terrain_kept_then k1 k2) k3) k4, s4⟩

/-- Between turns the terrain is that of the start: same mounds, no new pit, no
new hazard. -/
theorem between_turns_terrain (a0 s : Arena) (hs : Settled a0) (hr : BetweenTurns a0 s) :
    terrain_kept a0 s ∧ Settled s := by
  induction hr with
  | start => exact ⟨terrain_kept_same a0, hs⟩
  | turn fuel i inp _ halive hturn ih =>
    obtain ⟨k1, s1⟩ := ih
    obtain ⟨k2, s2⟩ := robot_turn_terrain fuel _ i inp _ s1 (lt_length_of_alive _ i halive) hturn
    exact ⟨terrain_kept_then k1 k2, s2⟩
  | round _ ih =>
    obtain ⟨k1, s1⟩ := ih
    exact ⟨k1, ⟨s1.off_mounds, s1.symbols, s1.registered⟩⟩

/-- An accepted move leaves the agent's symbol on the destination. -/
theorem move_robot_marks_cell (a : Arena) (i : Nat) (r c : Int)
    (hc : can_move_to a r c = true) : (move_robot a i r c).2.m_board r c = symbol a i := by
  have h : (move_robot a i r c).2 =
      place_robot_on_board
        (check_obstacle_effects
          (setRobot (clear_robot_from_board a i) i
            { getRobot (clear_robot_from_board a i) i with
              robot := (getRobot (clear_robot_from_board a i) i).robot.move_to r c })
          i r c)
        i r c := by
    simp [move_robot, hc]
  have hf := (((clear_robot_from_board_stepFrame a i).followedBy
    (move_to_stepFrame _ i r c)).followedBy (check_obstacle_effects_stepFrame _ i r c)).1
  rw [h, place_robot_on_board_board, is_valid_position_congr a _ hf.rows hf.cols,
    if_pos (can_move_to_valid a r c hc), hf.character i]
  simp [setCell]

/-- An accepted move to another cell leaves the old cell empty if it held the
agent's symbol. -/
theorem move_robot_clears_old (a : Arena) (i : Nat) (r c : Int) (hi : i < a.m_robots.length)
    (hc : can_move_to a r c = true) (hne : position a i ≠ (r, c))
    (hv : is_valid_position a (position a i).1 (position a i).2 = true)
    (hsym : a.m_board (position a i).1 (position a i).2 = symbol a i) :
    (move_robot a i r c).2.m_board (position a i).1 (position a i).2 = EMPTY := by
  have h : (move_robot a i r c).2 =
      place_robot_on_board
        (check_obstacle_effects
          (setRobot (clear_robot_from_board a i) i
            { getRobot (clear_robot_from_board a i) i with
              robot := (getRobot (clear_robot_from_board a i) i).robot.move_to r c })
          i r c)
        i r c := by
    simp [move_robot, hc]
  have hl : i < (clear_robot_from_board a i).m_robots.length := by
    rw [clear_robot_from_board_robots]; exact hi
  have hne2 : ¬ ((position a i).1 = r ∧ (position a i).2 = c) :=
    fun e => hne (Prod.ext e.1 e.2)
  have hp2 : position (setRobot (clear_robot_from_board a i) i
      { getRobot (clear_robot_from_board a i) i with
        robot := (getRobot (clear_robot_from_board a i) i).robot.move_to r c }) i = (r, c) := by
    unfold position
    rw [getRobot_setRobot_self _ _ _ hl]
    rfl
  have hcheck := (check_obstacle_effects_frame
    (setRobot (clear_robot_from_board a i) i
      { getRobot (clear_robot_from_board a i) i with
        robot := (getRobot (clear_robot_from_board a i) i).robot.move_to r c }) i r c).2.2.2.2.2
    (position a i).1 (position a i).2 (by rw [hp2]; exact hne)
  have hclear : (clear_robot_from_board a i).m_board (position a i).1 (position a i).2
      = EMPTY := by
    rw [clear_robot_from_board_board, if_pos ⟨hv, hsym⟩]
    simp [setCell]
  rw [h, place_robot_on_board_board]
  split_ifs
  · simp only [setCell, hne2, if_false]
    rw [hcheck]
    exact hclear
  · rw [hcheck]
    exact hclear

/-- A pit escape that takes the agent to another cell leaves the old cell empty
if it held the agent's symbol. -/
theorem handle_pit_escape_clears_old (a : Arena) (i : Nat) (dirs : List Int)
    (draws : Nat → Int × Int) (hi : i < a.m_robots.length)
    (hne : position (handle_pit_escape a i dirs draws) i ≠ position a i)
    (hv : is_valid_position a (position a i).1 (position a i).2 = true)
    (hsym : a.m_board (position a i).1 (position a i).2 = symbol a i) :
    (handle_pit_escape a i dirs draws).m_board (position a i).1 (position a i).2 = EMPTY := by
  have hfirst := handle_pit_escape_first a i dirs draws
  have hrel : ∀ r c, handle_pit_escape a i dirs draws = pit_relocate a i r c →
      (handle_pit_escape a i dirs draws).m_board (position a i).1 (position a i).2 = EMPTY := by
    intro r c e
    obtain ⟨-, h2, -, -, h5⟩ := pit_relocate_effect a i r c hi
    rw [e] at hne ⊢
    rw [h2] at hne
    exact h5 hv hsym (fun e' => hne e'.symm)
  cases hd : first_escape_direction a (position a i).1 (position a i).2 dirs with
  | some dir =>
    rw [hd] at hfirst
    exact hrel _ _ hfirst
  | none =>
    rw [hd] at hfirst
    dsimp only at hfirst
    cases hk : first_empty_draw a draws 0 50 with
    | some k =>
      rw [hk] at hfirst
      exact hrel _ _ hfirst
    | none =>
      rw [hk] at hfirst
      dsimp only at hfirst
      rw [hfirst] at hne
      exact absurd rfl hne

/-- A teleport recovery that takes the agent to another cell leaves the old cell
empty if it held the agent's symbol. -/
theorem handle_stuck_robot_clears_old (a : Arena) (i : Nat) (draws : Nat → Int × Int)
    (hi : i < a.m_robots.length)
    (hne : position (handle_stuck_robot a i draws) i ≠ position a i)
    (hv : is_valid_position a (position a i).1 (position a i).2 = true)
    (hsym : a.m_board (position a i).1 (position a i).2 = symbol a i) :
    (handle_stuck_robot a i draws).m_board (position a i).1 (position a i).2 = EMPTY := by
  have hfirst := handle_stuck_robot_first a i draws
  have hl : i < (clear_robot_from_board a i).m_robots.length := by
    rw [clear_robot_from_board_robots]; exact hi
  have hg : getRobot (clear_robot_from_board a i) i = getRobot a i :=
    getRobot_of_robots (clear_robot_from_board_robots a i) i
  have hclear : (clear_robot_from_board a i).m_board (position a i).1 (position a i).2
      = EMPTY := by
    rw [clear_robot_from_board_board, if_pos ⟨hv, hsym⟩]
    simp [setCell]
  cases hk : first_empty_candidate (clear_robot_from_board a i) draws 0 100 with
  | some k =>
    rw [hk] at hfirst
    dsimp only at hfirst
    obtain ⟨e1, -, -, e4⟩ := stuck_teleport_effect (clear_robot_from_board a i) i
      (stuck_candidate (clear_robot_from_board a i) k (draws k)).1
      (stuck_candidate (clear_robot_from_board a i) k (draws k)).2 hl
    rw [hfirst] at hne ⊢
    rw [e1] at hne
    have hne2 : ¬ ((position a i).1 = (stuck_candidate (clear_robot_from_board a i) k (draws k)).1 ∧
        (position a i).2 = (stuck_candidate (clear_robot_from_board a i) k (draws k)).2) :=
      fun e => hne (Prod.ext e.1.symm e.2.symm)
    rw [e4]
    split_ifs
    · simp only [setCell, hne2, if_false]
      exact hclear
    · exact hclear
  | none =>
    rw [hk] at hfirst
    dsimp only at hfirst
    rw [hfirst] at hne
    exfalso
    apply hne
    unfold position
    rw [getRobot_setRobot_self _ _ _ hl, hg]

/-- Under kept terrain on a grid of the same size, the pits and the hazards are
no more and the mounds as many as before. -/
theorem count_cells_of_terrain_kept (a b : Arena) (hk : terrain_kept a b)
    (hr : b.m_rows = a.m_rows) (hc : b.m_cols = a.m_cols) :
    count_cells b PIT ≤ count_cells a PIT ∧
    count_cells b FLAMETHROWER ≤ count_cells a FLAMETHROWER ∧
    count_cells b MOUND = count_cells a MOUND := by
  have hg : grid_cells b = grid_cells a := by
    unfold grid_cells
    rw [hr, hc]
  unfold count_cells
  rw [hg]
  refine ⟨?_, ?_, ?_⟩
  · apply List.countP_mono_left
    intro p _ hp
    simp only [decide_eq_true_eq] at hp ⊢
    exact (hk p.1 p.2).2.1 hp
  · apply List.countP_mono_left
    intro p _ hp
    simp only [decide_eq_true_eq] at hp ⊢
    exact (hk p.1 p.2).2.2 hp
  · apply List.countP_congr
    intro p _
    simp only [decide_eq_true_eq]
    exact ((hk p.1 p.2).1).symm

/-- The loop of `initialize_board` that writes the agents' symbols never writes a
mound marker on a cell, when no symbol is the mound marker. -/
theorem foldl_symbols_no_mound (l : List RobotInfo) :
    ∀ (b0 : Int → Int → Char) (r c : Int),
      (∀ info ∈ l, info.robot.m_character ≠ MOUND) → b0 r c ≠ MOUND →
      (l.foldl
        (fun b info =>
          if info.is_alive then
            setCell b info.robot.m_location_row info.robot.m_location_col info.robot.m_character
          else b) b0) r c ≠ MOUND := by
  induction l with
  | nil => intro b0 r c _ h; exact h
  | cons x rest ih =>
    intro b0 r c hsym h
    rw [List.foldl_cons]
    apply ih
    · exact fun info hi => hsym info (List.mem_cons_of_mem _ hi)
    · split_ifs
      · unfold setCell
        split_ifs
        · exact hsym x (List.mem_cons_self _ _)
        · exact h
      · exact h

/-- After that loop every living agent of the list stands on a cell that holds no
mound marker. -/
theorem foldl_symbols_off_mounds (l : List RobotInfo) :
    ∀ (b0 : Int → Int → Char),
      (∀ info ∈ l, info.is_alive = true ∧ info.robot.m_character ≠ MOUND) →
      ∀ info ∈ l,
        (l.foldl
          (fun b info =>
            if info.is_alive then
              setCell b info.robot.m_location_row info.robot.m_location_col
                info.robot.m_character
            else b) b0) info.robot.m_location_row info.robot.m_location_col ≠ MOUND := by
  induction l with
  | nil => intro b0 _ info hi; exact absurd hi (List.not_mem_nil _)
  | cons x rest ih =>
    intro b0 h info hi
    rw [List.foldl_cons]
    rcases List.mem_cons.1 hi with e | e
    · subst e
      apply foldl_symbols_no_mound
      · exact fun y hy => (h y (List.mem_cons_of_mem _ hy)).2
      · rw [if_pos (h info (List.mem_cons_self _ _)).1]
        simp only [setCell, and_self, if_true]
        exact (h info (List.mem_cons_self _ _)).2
    · exact ih _ (fun y hy => h y (List.mem_cons_of_mem _ hy)) info e

/-- The state `initialize_board` builds is well-formed, when every registered
agent is alive, no symbol is a terrain marker and the symbol map names
registered agents only (as after `load_robots` with symbols from
`ROBOT_SYMBOLS`). -/
theorem initialize_board_settled (a : Arena) (d : ObstacleDraws)
    (halive : ∀ j, j < a.m_robots.length → (getRobot a j).is_alive = true)
    (hsym : ∀ j, symbol a j ≠ PIT ∧ symbol a j ≠ FLAMETHROWER ∧ symbol a j ≠ MOUND)
    (hreg : ∀ ch j, a.m_robot_symbol_to_index.lookup ch = some j → j < a.m_robots.length) :
    Settled (initialize_board a d) := by
  have hget : ∀ j (hj : j < a.m_robots.length), getRobot a j = a.m_robots.get ⟨j, hj⟩ := by
    intro j hj
    unfold getRobot
    rw [List.getD_eq_getElem _ _ hj]
    rfl
  have hall : ∀ info ∈ a.m_robots, info.is_alive = true ∧ info.robot.m_character ≠ MOUND := by
    intro info hi
    obtain ⟨n, hn⟩ := List.get_of_mem hi
    have e := hget n.1 n.2
    have e2 : getRobot a n.1 = info := by rw [e]; exact hn
    refine ⟨?_, ?_⟩
    · rw [← e2]; exact halive n.1 n.2
    · have := (hsym n.1).2.2
      unfold symbol at this
      rw [e2] at this
      exact this
  refine ⟨?_, hsym, hreg⟩
  intro j hj
  have hj' : j < a.m_robots.length := hj
  have hmem : getRobot a j ∈ a.m_robots := by
    rw [hget j hj']
    exact List.get_mem _ _ _
  exact foldl_symbols_off_mounds a.m_robots _ hall (getRobot a j) hmem

theorem between_turns_size (a0 s : Arena) (hr : BetweenTurns a0 s) :
    s.m_rows = a0.m_rows ∧ s.m_cols = a0.m_cols := by
  induction hr with
  | start => exact ⟨rfl, rfl⟩
  | turn fuel i inp _ _ hturn ih =>
    have hf := robot_turn_frame fuel _ i inp _ hturn
    exact ⟨hf.rows.trans ih.1, hf.cols.trans ih.2⟩
  | round _ ih => exact ih

theorem lookup_mem_values (ch : Char) (j : Nat) (l : List (Char × Nat))
    (h : l.lookup ch = some j) : j ∈ l.map Prod.snd := by
  induction l with
  | nil => simp at h
  | cons x rest ih =>
    obtain ⟨k, v⟩ := x
    rw [List.lookup_cons] at h
    by_cases e : (ch == k) = true
    · rw [e] at h
      have e2 := Option.some.inj h
      simp only [List.map_cons, List.mem_cons]
      left
      exact e2.symm
    · have e' : (ch == k) = false := by simpa using e
      rw [e'] at h
      simp only [List.map_cons, List.mem_cons]
      right
      exact ih h

theorem three_agent_match_settled : Settled three_agent_match := by
  have hl : (load_robots (Arena.new 20 20)
      [(new_robot 2 5 WeaponType.flamethrower, fun _ => (5, 5)),
       (new_robot 3 4 WeaponType.railgun, fun _ => (10, 10)),
       (new_robot 3 4 WeaponType.grenade, fun _ => (5, 6))]).2.m_robots.length = 3 := by decide
  apply initialize_board_settled
  · intro j hj
    rw [hl] at hj
    interval_cases j <;> decide
  · intro j
    by_cases hj : j < 3
    · interval_cases j <;> decide
    · unfold symbol
      rw [getRobot_of_unregistered _ j (by rw [hl]; exact hj)]
      decide
  · intro ch j h
    have := lookup_mem_values ch j _ h
    rw [hl]
    have hv : (load_robots (Arena.new 20 20)
        [(new_robot 2 5 WeaponType.flamethrower, fun _ => (5, 5)),
         (new_robot 3 4 WeaponType.railgun, fun _ => (10, 10)),
         (new_robot 3 4 WeaponType.grenade, fun _ => (5, 6))]).2.m_robot_symbol_to_index.map
        Prod.snd = [2, 1, 0] := by decide
    rw [hv] at this
    simp only [List.mem_cons, List.mem_singleton, List.not_mem_nil, or_false] at this
    omega

/-- Claim C34, counterexample. On the set-up: with a mound drawn on the cell
(5,5) where agent 0 stands, `place_obstacles` writes the mound and the loop of
`initialize_board` that follows it overwrites it with the agent's symbol (6
mounds become 5). On leaving: agent 2 ('#') of `three_agent_match` enters the
hazard at (5,4) by `move_robot` and the cell holds '#'; agent 0 ('!') then moves
onto the same cell, which `can_move_to` accepts; when agent 2 then leaves for
(4,4), the cell (5,4) is not emptied: it holds '!'. -/
theorem hazard_cell_shared_not_emptied :
    (place_obstacles { two_agent_loaded with m_board := fun _ _ => EMPTY }
      buried_obstacles).m_board 5 5 = MOUND ∧
    (initialize_board two_agent_loaded buried_obstacles).m_board 5 5 = '!' ∧
    count_cells (place_obstacles { two_agent_loaded with m_board := fun _ _ => EMPTY }
      buried_obstacles) MOUND = 6 ∧
    count_cells (initialize_board two_agent_loaded buried_obstacles) MOUND = 5 ∧
    three_agent_match.m_board 5 4 = FLAMETHROWER ∧
    (move_robot three_agent_match 2 5 4).1 = true ∧
    hazard_entered.m_board 5 4 = symbol three_agent_match 2 ∧
    (getRobot hazard_entered 2).is_alive = true ∧
    (move_robot hazard_entered 0 5 4).1 = true ∧
    position hazard_shared 2 = (5, 4) ∧
    (move_robot hazard_shared 2 4 4).1 = true ∧
    position hazard_left 2 = (4, 4) ∧
    hazard_left.m_board 5 4 = '!' ∧
    hazard_left.m_board 5 4 ≠ EMPTY := by
  refine ⟨by decide, by decide, by set_option maxRecDepth 16384 in decide,
    by set_option maxRecDepth 16384 in decide, by decide, by decide, by decide, by decide,
    by decide, by decide, by decide, by decide, by decide, by decide⟩

/-- Claim C34 (amended): pits and hazards are single-use and mounds permanent
once the board is set up. From a state as `initialize_board` leaves it (no
registered agent recorded on a mound, no symbol a terrain marker, the symbol map
naming registered agents only), in every state between turns: the mounds are on
the cells they were on, every pit or hazard is one of the start, so the numbers
of pits and of hazards have not increased and the number of mounds is the same;
the premise holds again, so the same is true from that state on. For a
registered agent in such a state: a cell it enters by `move_robot` - a pit or a
hazard among them - holds its symbol afterwards; and when it leaves a cell that
holds its symbol for another cell, by a move, a pit escape or a teleport
recovery, the cell it leaves is empty. -/
theorem terrain_single_use (a0 s : Arena) (i : Nat) (hs : Settled a0)
    (hr : BetweenTurns a0 s) (hi : i < s.m_robots.length) :
    terrain_kept a0 s ∧ Settled s ∧
    (count_cells s PIT ≤ count_cells a0 PIT ∧
      count_cells s FLAMETHROWER ≤ count_cells a0 FLAMETHROWER ∧
      count_cells s MOUND = count_cells a0 MOUND) ∧
    (∀ r c, (move_robot s i r c).1 = true → (move_robot s i r c).2.m_board r c = symbol s i) ∧
    (is_valid_position s (position s i).1 (position s i).2 = true →
      s.m_board (position s i).1 (position s i).2 = symbol s i →
      (∀ r c, (move_robot s i r c).1 = true → position s i ≠ (r, c) →
        (move_robot s i r c).2.m_board (position s i).1 (position s i).2 = EMPTY) ∧
      (∀ dirs draws, position (handle_pit_escape s i dirs draws) i ≠ position s i →
        (handle_pit_escape s i dirs draws).m_board (position s i).1 (position s i).2 = EMPTY) ∧
      (∀ draws, position (handle_stuck_robot s i draws) i ≠ position s i →
        (handle_stuck_robot s i draws).m_board (position s i).1 (position s i).2 = EMPTY)) := by
  obtain ⟨hk, hset⟩ := between_turns_terrain a0 s hs hr
  obtain ⟨hrows, hcols⟩ := between_turns_size a0 s hr
  refine ⟨hk, hset, count_cells_of_terrain_kept a0 s hk hrows hcols, ?_, ?_⟩
  · intro r c hm
    rw [move_robot_fst] at hm
    exact move_robot_marks_cell s i r c hm
  · intro hv hsym
    refine ⟨?_, ?_, ?_⟩
    · intro r c hm hne
      rw [move_robot_fst] at hm
      exact move_robot_clears_old s i r c hi hm hne hv hsym
    · intro dirs draws hne
      exact handle_pit_escape_clears_old s i dirs draws hi hne hv hsym
    · intro draws hne
      exact handle_stuck_robot_clears_old s i draws hi hne hv hsym

/-- Claim C34 (amended) at a concrete input: after the turn in which agent 2 of
`three_agent_match` steps onto the hazard at (5,4), the mounds are where they
were, the cell holds the agent's symbol, and 4 of the 5 hazards are left. -/
theorem terrain_single_use_witness :
    terrain_kept three_agent_match (after_turn 0 three_agent_match 2 west_two) ∧
    (count_cells (after_turn 0 three_agent_match 2 west_two) PIT
        ≤ count_cells three_agent_match PIT ∧
      count_cells (after_turn 0 three_agent_match 2 west_two) FLAMETHROWER
        ≤ count_cells three_agent_match FLAMETHROWER ∧
      count_cells (after_turn 0 three_agent_match 2 west_two) MOUND
        = count_cells three_agent_match MOUND) ∧
    three_agent_match.m_board 5 4 = FLAMETHROWER ∧
    (after_turn 0 three_agent_match 2 west_two).m_board 5 4 = symbol three_agent_match 2 :=
  have h := terrain_single_use three_agent_match (after_turn 0 three_agent_match 2 west_two) 2
    three_agent_match_settled
    (BetweenTurns.turn 0 2 west_two BetweenTurns.start (by decide)
      (robot_turn_eq_some 0 three_agent_match 2 west_two (by decide)))
    (by decide)
  ⟨h.1, h.2.2.1, by decide, by decide⟩

end RobotArena
